import Mathlib

/-!
A shallow embedding of the route-exposure reconciler of
`ovn_bgp_agent/drivers/openstack/ovn_bgp_driver.py` (class `OVNBGPDriver`),
together with theorems settling the frozen claims about it.

Modelling conventions:

* Python strings used only as identifiers (port names, datapaths, bridges,
  networks) are Lean `String`s compared for equality.
* `ip.split('/')[0]` is `stripMask`; `ip.split('/')[1]` is a fallible index
  into `pySplit '/'`.  `mac[0].split(' ')` is `pySplit ' '` (Python
  `split(' ')` with an explicit separator does not collapse runs, and
  neither does ours).
* A normalized rule / snapshot key `"addr/mask"` is modelled as the pair
  `Cidr` (addresses never contain a slash once stripped, so the pair and
  the formatted string are in bijection on the values that occur).
* Python dicts are association lists with first-match lookup and
  update-in-place semantics (`dset`); `d[k]` on a missing key raises
  `KeyError`, modelled with `Except`.
* Fallible Python control flow (KeyError, IndexError, an `UnboundLocalError`
  from a conditionally assigned variable, and the `InvalidPortIP` raised by
  `linux_net.add_ip_rule`) is modelled with `Except PyErr`.
* Rows are modelled with at least one `mac` entry (`mac0` is `mac[0]`);
  every use in the source accesses only `mac[0]`.
* The helpers of `linux_net` / `ovs` / `ovn` / `constants` are not under
  the sources provided; they are modelled from the spec (sections 4.1, 4.2
  and 6), as marked on each definition.  Pure lookups of the southbound
  database are fields of an `SB` record of functions; address parsing
  facts (`ip_version`, network membership, address validity) are oracle
  functions in `Env`.
* OpenFlow manipulation (`ovs.get_ovs_flows_info`, `remove_extra_ovs_flows`,
  `ensure_default_ovs_flows`) and the idempotent device/sysctl setup calls
  (`ensure_vrf`, `ensure_ovn_device`, `ensure_arp_ndp_enabed_for_bridge`,
  `ensure_vlan_device_for_network`) touch no state any claim mentions and
  are modelled as no-ops.
-/

deriving instance DecidableEq for Except

namespace OvnBgp

/-- Python exceptions that can escape the modelled code paths. -/
inductive PyErr where
  | keyError
  | indexError
  | unboundLocal
  | invalidPortIP
deriving DecidableEq, Repr

/-- Python `s.split(sep)` with an explicit one-character separator:
runs of the separator are not collapsed, and the empty string yields
one empty field. -/
def splitCh (sep : Char) : List Char → List (List Char)
  | [] => [[]]
  | c :: cs =>
      if c = sep then [] :: splitCh sep cs
      else match splitCh sep cs with
        | [] => [[c]]
        | f :: fs => (c :: f) :: fs

/-- Python `s.split(sep)` on strings. -/
def pySplit (sep : Char) (s : String) : List String :=
  (splitCh sep s.data).map (fun l => ⟨l⟩)

/-- Python `ip.split('/')[0]`: the address with any mask removed. -/
def stripMask (s : String) : String :=
  ⟨s.data.takeWhile (fun c => c ≠ '/')⟩

/-- Python `ip.split('/')[1]`, raising IndexError when there is no mask. -/
def maskIdx (s : String) : Except PyErr String :=
  match (pySplit '/' s).get? 1 with
  | some m => .ok m
  | none => .error .indexError

/-- The part after the first slash, as an `Option` (for building keys). -/
def maskOpt (s : String) : Option String :=
  (pySplit '/' s).get? 1

/-- Python `s.startswith(p)`. -/
def pyStartsWith (s p : String) : Bool :=
  p.data.isPrefixOf s.data

/-- Association-list lookup, modelling Python `d.get(k)`. -/
def dget {α : Type} : List (String × α) → String → Option α
  | [], _ => none
  | (k, v) :: t, key => if k = key then some v else dget t key

/-- Association-list update, modelling Python `d[k] = v`. -/
def dset {α : Type} : List (String × α) → String → α → List (String × α)
  | [], key, v => [(key, v)]
  | (k, w) :: t, key, v =>
      if k = key then (k, v) :: t else (k, w) :: dset t key v

/-- Python `d[k]` (raises KeyError when the key is missing). -/
def dsub {α : Type} (d : List (String × α)) (k : String) : Except PyErr α :=
  match dget d k with
  | some v => .ok v
  | none => .error .keyError

/-- Python `d.pop(k, None)` restricted to its effect on the dict. -/
def dpop {α : Type} (d : List (String × α)) (k : String) : List (String × α) :=
  d.filter (fun e => e.1 ≠ k)

/-- The keys of a Python dict. -/
def dkeys {α : Type} (d : List (String × α)) : List String :=
  d.map (fun e => e.1)

/-- The values of a Python dict. -/
def dvals {α : Type} (d : List (String × α)) : List α :=
  d.map (fun e => e.2)

/-- A normalized CIDR `"addr/mask"`, kept as a pair. -/
structure Cidr where
  addr : String
  mask : String
deriving DecidableEq, Repr

/-- A kernel policy rule (spec section 4.1: destination CIDR, routing
table, bridge device, optional link-layer-address hint). -/
structure IpRule where
  dest : Cidr
  table : Nat
  dev : String
  lladdr : Option String
deriving DecidableEq, Repr

/-- A kernel route entry (spec section 4.1: destination address and mask,
routing table, bridge device, optional vlan and via gateway). -/
structure Route where
  addr : String
  mask : String
  table : Nat
  dev : String
  vlan : Option Nat
  via : Option String
deriving DecidableEq, Repr

/-- An NDP proxy entry on a bridge. -/
structure NdpEntry where
  ip : String
  dev : String
  vlan : Option Nat
deriving DecidableEq, Repr

/-- The kernel surface the agent mutates (spec section 3): addresses on
the dummy device inside the VRF, policy rules, per-bridge routes, NDP
proxy entries. -/
structure Kernel where
  exposed : List String
  rules : List IpRule
  routes : List Route
  ndp : List NdpEntry
deriving DecidableEq, Repr

/-- A southbound `Port_Binding` row as the driver reads it (spec section
6: `type`, `datapath`, `logical_port`, `mac`, `chassis`, `options`).
Rows are modelled with at least one `mac` entry, `mac0`. -/
structure PortRow where
  type : String
  datapath : String
  logical_port : String
  mac0 : String
  chassis : List String
  options : List (String × String)
deriving DecidableEq, Repr

/-- The typed read-only southbound view (spec section 4.2), one field per
query the driver performs.  Modelled from the spec: the sources provided
contain only the driver, so each query is an opaque pure function. -/
structure SB where
  is_provider_network : String → Bool
  get_fip_associated : String → Option (String × String)
  get_network_name_and_tag : String → List String → Option String × List Nat
  get_lrp_ports_for_router : String → List PortRow
  get_port_datapath : String → Option String
  get_ports_on_datapath : String → List PortRow
  is_router_gateway_on_chassis : String → String → Option String
  is_port_on_chassis : String → String → Bool
  is_port_deleted : String → Bool
  get_lrp_port_for_datapath : String → Option String
  get_ports_on_chassis : String → List PortRow
  get_cr_lrp_ports_on_chassis : String → List String
  get_cr_lrp_nat_addresses_info : String → List String × PortRow
  get_network_vlan_tag_by_network_name : String → List Nat

/-- The immutable environment of a driver instance: configuration, the
southbound view, and oracles for the address-parsing facts of
`linux_net` (modelled from the spec, section 4.1). -/
structure Env where
  chassis : String
  expose_tenant_networks : Bool
  sb : SB
  ovs_bridge_mappings : List String
  ip_version : String → Nat
  valid_ip : String → Bool
  network_of : String → String
  in_network : String → String → Bool
  alloc_table : String → Nat
  extra_routes_of : String → List Route

/-- Modelled from the spec: `linux_net.get_ip_version` parses the address
after stripping any mask and returns 4 or 6. -/
def getIpVersion (env : Env) (s : String) : Nat :=
  env.ip_version (stripMask s)

/-- Bookkeeping entry of a tracked chassis-redirect port
(`ovn_local_cr_lrps` values, lines 479-483). -/
structure CrLrpInfo where
  router_datapath : String
  provider_datapath : String
  ips : List String
deriving DecidableEq, Repr

/-- The mutable in-memory state of `OVNBGPDriver` (lines 46-51). -/
structure Agent where
  ovn_routing_tables : List (String × Nat)
  ovn_bridge_mappings : List (String × String)
  ovn_local_cr_lrps : List (String × CrLrpInfo)
  ovn_local_lrps : List String
  ovn_routing_tables_routes : List (String × List Route)
deriving DecidableEq, Repr

/-- Modelled from the spec (section 6): the recognized VIF port-type
tags.  `_ensure_port_exposed` skips rows whose type is not one of
these. -/
def OVN_VIF_PORT_TYPES : List String := ["vm", "virtual", "patch", "chassisredirect"]

def OVN_VM_VIF_PORT_TYPE : String := "vm"
def OVN_VIRTUAL_VIF_PORT_TYPE : String := "virtual"
def OVN_PATCH_VIF_PORT_TYPE : String := "patch"
def OVN_CHASSISREDIRECT_VIF_PORT_TYPE : String := "chassisredirect"
def IP_VERSION_6 : Nat := 6

/-! ## The host network surface, modelled from the spec (section 4.1).
All operations are idempotent and tolerate redundant state; `add_rule`
fails with `InvalidPortIP` on an unparsable destination. -/

/-- Add an element to a list used as a set (no-op when present). -/
def setAdd {α : Type} [DecidableEq α] (l : List α) (x : α) : List α :=
  if x ∈ l then l else l ++ [x]

/-- Modelled from the spec: `linux_net.add_ips_to_dev` assigns each given
address to the dummy device, tolerating ones already assigned. -/
def addIpsToDev (k : Kernel) (ips : List String) : Kernel :=
  { k with exposed := ips.foldl setAdd k.exposed }

/-- Modelled from the spec: `linux_net.delete_exposed_ips` /
`del_ips_from_dev` remove the given addresses from the device,
tolerating absent ones. -/
def delIpsFromDev (k : Kernel) (ips : List String) : Kernel :=
  { k with exposed := k.exposed.filter (fun ip => ip ∉ ips) }

/-- Normalize a rule / route destination: strip the mask if present,
default to the host-route width of the address family otherwise
(spec section 4.1). -/
def normCidr (env : Env) (ip : String) : Cidr :=
  { addr := stripMask ip
    mask := match maskOpt ip with
      | some m => m
      | none => if getIpVersion env ip = IP_VERSION_6 then "128" else "32" }

/-- Modelled from the spec: `linux_net.add_ip_rule` adds one policy rule
for the destination, raising `InvalidPortIP` on unparsable input. -/
def addIpRule (env : Env) (k : Kernel) (ip : String) (table : Nat)
    (dev : String) (lladdr : Option String) : Except PyErr Kernel :=
  if env.valid_ip ip then
    .ok { k with rules := setAdd k.rules ⟨normCidr env ip, table, dev, lladdr⟩ }
  else
    .error .invalidPortIP

/-- Modelled from the spec: `linux_net.del_ip_rule` removes the matching
policy rule, tolerating a missing one. -/
def delIpRule (env : Env) (k : Kernel) (ip : String) (table : Nat)
    (dev : String) (lladdr : Option String) : Kernel :=
  { k with rules := k.rules.filter (fun r => r ≠ ⟨normCidr env ip, table, dev, lladdr⟩) }

/-- The route entry `linux_net.add_ip_route` / `del_ip_route` works on:
default mask is the host-route width of the family (spec section 4.1). -/
def mkRoute (env : Env) (ip : String) (table : Nat) (dev : String)
    (vlan : Option Nat) (mask : Option String) (via : Option String) : Route :=
  { addr := ip
    mask := match mask with
      | some m => m
      | none => if getIpVersion env ip = IP_VERSION_6 then "128" else "32"
    table := table, dev := dev, vlan := vlan, via := via }

/-- Record a route in the per-bridge bookkeeping (`ovn_routing_tables_routes`). -/
def storeAddRoute (st : List (String × List Route)) (dev : String) (r : Route) :
    List (String × List Route) :=
  match dget st dev with
  | some rs => dset st dev (setAdd rs r)
  | none => dset st dev [r]

/-- Remove a route from the per-bridge bookkeeping. -/
def storeDelRoute (st : List (String × List Route)) (dev : String) (r : Route) :
    List (String × List Route) :=
  match dget st dev with
  | some rs => dset st dev (rs.filter (fun x => x ≠ r))
  | none => st

/-- Modelled from the spec: `linux_net.add_ip_route` programs the route
and records it in the bookkeeping store. -/
def addIpRoute (env : Env) (st : List (String × List Route)) (k : Kernel)
    (ip : String) (table : Nat) (dev : String) (vlan : Option Nat)
    (mask : Option String) (via : Option String) :
    List (String × List Route) × Kernel :=
  let r := mkRoute env ip table dev vlan mask via
  (storeAddRoute st dev r, { k with routes := setAdd k.routes r })

/-- Modelled from the spec: `linux_net.del_ip_route` removes the route
from the kernel and the bookkeeping store, tolerating a missing one. -/
def delIpRoute (env : Env) (st : List (String × List Route)) (k : Kernel)
    (ip : String) (table : Nat) (dev : String) (vlan : Option Nat)
    (mask : Option String) (via : Option String) :
    List (String × List Route) × Kernel :=
  let r := mkRoute env ip table dev vlan mask via
  (storeDelRoute st dev r, { k with routes := k.routes.filter (fun x => x ≠ r) })

/-- Modelled from the spec: `linux_net.add_ndp_proxy` adds a neighbour
proxy entry for the address (mask stripped, compare spec scenario 3) on
the bridge. -/
def addNdpProxy (k : Kernel) (ip : String) (dev : String) (vlan : Option Nat) : Kernel :=
  { k with ndp := setAdd k.ndp ⟨stripMask ip, dev, vlan⟩ }

/-- Modelled from the spec: `linux_net.del_ndp_proxy` removes the entry,
tolerating a missing one. -/
def delNdpProxy (k : Kernel) (ip : String) (dev : String) (vlan : Option Nat) : Kernel :=
  { k with ndp := k.ndp.filter (fun e => e ≠ ⟨stripMask ip, dev, vlan⟩) }

/-- Modelled from the spec: `linux_net.get_exposed_ips` snapshots the
addresses currently on the dummy device. -/
def getExposedIps (k : Kernel) : List String := k.exposed

/-- Modelled from the spec: `linux_net.get_ovn_ip_rules` snapshots, keyed
by destination CIDR, the policy rules pointing at any of the given
routing tables. -/
def getOvnIpRules (k : Kernel) (tables : List Nat) : List (Cidr × IpRule) :=
  (k.rules.filter (fun r => r.table ∈ tables)).map (fun r => (r.dest, r))

/-- Pop a key from the rule snapshot (Python `ovn_ip_rules.pop(key, None)`). -/
def rulesPop (snap : List (Cidr × IpRule)) (key : Cidr) : List (Cidr × IpRule) :=
  snap.filter (fun e => e.1 ≠ key)

/-- The snapshot key Python builds from a raw address-with-mask string
(string keys `"addr/mask"` as the `Cidr` pair; a key with no mask uses
the empty mask and matches no snapshot entry). -/
def cidrKey (s : String) : Cidr :=
  { addr := stripMask s, mask := (maskOpt s).getD "" }

/-- Modelled from the spec: `linux_net.delete_ip_rules` deletes every
rule left in the snapshot. -/
def deleteIpRules (k : Kernel) (snap : List (Cidr × IpRule)) : Kernel :=
  { k with rules := k.rules.filter (fun r => r ∉ snap.map (fun e => e.2)) }

/-- Modelled from the spec: `linux_net.delete_bridge_ip_routes` deletes
from the agent's routing tables every route that is neither in the
per-bridge bookkeeping nor among the extra (pre-existing) routes. -/
def deleteBridgeIpRoutes (tables : List (String × Nat))
    (st : List (String × List Route)) (extra : List (String × List Route))
    (k : Kernel) : Kernel :=
  { k with routes := k.routes.filter (fun r =>
      decide (r.table ∉ dvals tables) ||
      (match dget st r.dev with | some rs => decide (r ∈ rs) | none => false) ||
      (match dget extra r.dev with | some rs => decide (r ∈ rs) | none => false)) }

/-- Modelled from the spec: `linux_net.ensure_routing_table_for_bridge`
allocates a table id on first sight of the bridge, keeps an existing
assignment, and returns the extra (pre-existing) routes of the bridge's
table. -/
def ensureRoutingTableForBridge (env : Env) (tables : List (String × Nat))
    (bridge : String) : List (String × Nat) × List Route :=
  (match dget tables bridge with
    | some _ => tables
    | none => dset tables bridge (env.alloc_table bridge),
   env.extra_routes_of bridge)

/-- Modelled from the spec: `linux_net.get_exposed_ips_on_network`
enumerates device addresses inside the given network. -/
def getExposedIpsOnNetwork (env : Env) (k : Kernel) (net : String) : List String :=
  k.exposed.filter (fun ip => env.in_network ip net)

/-! ## The driver (`OVNBGPDriver`), translated from
`src/ovn_bgp_agent/drivers/openstack/ovn_bgp_driver.py`.
The in-place mutations of the driver's bookkeeping are named state
updates. -/

/-- Python `self.ovn_local_lrps.add(lp)`. -/
def lrpsAdd (a : Agent) (lp : String) : Agent :=
  { a with ovn_local_lrps := setAdd a.ovn_local_lrps lp }

/-- Python `self.ovn_local_lrps.remove(lp)` guarded by a membership test. -/
def lrpsRemove (a : Agent) (lp : String) : Agent :=
  { a with ovn_local_lrps := a.ovn_local_lrps.filter (fun p => p ≠ lp) }

/-- Python `self.ovn_local_cr_lrps[lp] = info`. -/
def crSet (a : Agent) (lp : String) (info : CrLrpInfo) : Agent :=
  { a with ovn_local_cr_lrps := dset a.ovn_local_cr_lrps lp info }

/-- Python `del self.ovn_local_cr_lrps[lp]` under the caught KeyError. -/
def crDel (a : Agent) (lp : String) : Agent :=
  { a with ovn_local_cr_lrps := a.ovn_local_cr_lrps.filter (fun e => e.1 ≠ lp) }

/-- Replace the per-bridge route bookkeeping after a `linux_net` route
call that mutates it in place. -/
def stSet (a : Agent) (st : List (String × List Route)) : Agent :=
  { a with ovn_routing_tables_routes := st }

/-- `_get_bridge_for_datapath` (lines 366-373): resolve a datapath to its
bridge and vlan tag through the southbound view and the cached bridge
mappings. -/
def get_bridge_for_datapath (env : Env) (a : Agent) (datapath : String) :
    Except PyErr (Option String × Option Nat) :=
  match env.sb.get_network_name_and_tag datapath (dkeys a.ovn_bridge_mappings) with
  | (some network_name, t :: _) =>
      (dsub a.ovn_bridge_mappings network_name).map (fun b => (some b, some t))
  | (some network_name, []) =>
      (dsub a.ovn_bridge_mappings network_name).map (fun b => (some b, none))
  | (none, _) => .ok (none, none)

/-- Python `self.ovn_routing_tables[rule_bridge]`: subscripting the
routing-table dict with the optional bridge raises KeyError when the
bridge is unresolved (`None` is never a key) or has no assignment;
otherwise it yields the table id together with the bridge. -/
def bridgeTable (a : Agent) (rb : Option String) : Except PyErr (Nat × String) :=
  match rb with
  | none => .error .keyError
  | some b => (dsub a.ovn_routing_tables b).map (fun t => (t, b))

/-- The per-IP rule-and-route loop of the provider-VM branch (lines
402-413) and of the FIP-association branch (lines 455-468) of
`_expose_ip`.  The returned flag is true when the loop ran to completion
and false when a caught `InvalidPortIP` made the method return early. -/
def exposeIpRulesLoop (env : Env) (rb : Option String) (vlan : Option Nat) :
    Agent → Kernel → List String → Except PyErr (Agent × Kernel × Bool)
  | a, k, [] => .ok (a, k, true)
  | a, k, ip :: rest => do
      let (table, b) ← bridgeTable a rb
      match addIpRule env k ip table b none with
      | .error .invalidPortIP => .ok (a, k, false)
      | .error e => .error e
      | .ok k1 =>
          let (st, k2) := addIpRoute env a.ovn_routing_tables_routes k1 ip table b vlan none none
          exposeIpRulesLoop env rb vlan (stSet a st) k2 rest

/-- The per-IP loop of the CR-LRP branch of `_expose_ip` (lines 491-510):
rule with the router's link-layer address, on-link route, and an NDP
proxy entry for IPv6 addresses.  The flag is as in `exposeIpRulesLoop`. -/
def exposeIpCrLoop (env : Env) (rb : Option String) (vlan : Option Nat) (lladdr : String) :
    Agent → Kernel → List String → Except PyErr (Agent × Kernel × Bool)
  | a, k, [] => .ok (a, k, true)
  | a, k, ip :: rest => do
      let ipnm := stripMask ip
      let (table, b) ← bridgeTable a rb
      match addIpRule env k ipnm table b (some lladdr) with
      | .error .invalidPortIP => .ok (a, k, false)
      | .error e => .error e
      | .ok k1 =>
          let (st, k2) := addIpRoute env a.ovn_routing_tables_routes k1 ipnm table b vlan none none
          let k3 := if getIpVersion env ipnm = IP_VERSION_6 then addNdpProxy k2 ip b vlan else k2
          exposeIpCrLoop env rb vlan lladdr (stSet a st) k3 rest

/-- The mac-field parsing of `_ensure_port_exposed` (lines 226-231): a
row whose first mac entry does not split into exactly two or three
space-separated fields is skipped; the second and, when present, third
fields are the port's IPs. -/
def portRowIps (mac0 : String) : Option (List String) :=
  let f := pySplit ' ' mac0
  if f.length = 2 ∨ f.length = 3 then
    some (if f.length = 3 then [f.getD 1 "", f.getD 2 ""] else [f.getD 1 ""])
  else none

/-- The mac-field parsing of the tenant-VM enumerations (lines 301-306
and 723-728): indexing field 1 under a caught IndexError, appending
field 2 when the entry has exactly three fields. -/
def tenantPortIps (mac0 : String) : Option (List String) :=
  let f := pySplit ' ' mac0
  match f.get? 1 with
  | none => none
  | some ip1 => some (if f.length = 3 then [ip1, f.getD 2 ""] else [ip1])

/-- The gateway-route selection of `_ensure_network_exposed` (lines
278-288): the first gateway IP of the same family as the router port IP
gets the subnet route; none of the right family means no route. -/
def ensureNetGatewayRoute (env : Env) (router_ip router_port_ip : String)
    (table : Nat) (b : String) (vlan : Option Nat) (rpv : Nat)
    (st : List (String × List Route)) (k : Kernel) :
    List String → Except PyErr (List (String × List Route) × Kernel)
  | [] => .ok (st, k)
  | g :: rest =>
      if getIpVersion env g = rpv then do
        let m ← maskIdx router_port_ip
        .ok (addIpRoute env st k router_ip table b vlan (some m) (some g))
      else ensureNetGatewayRoute env router_ip router_port_ip table b vlan rpv st k rest

/-- One port's contribution in the tenant-VM enumeration of
`_ensure_network_exposed` (lines 308-322): same-family IPs are put on
the dummy device and struck from both snapshots. -/
def ensureNetVmIps (env : Env) (rpv : Nat) :
    Kernel × List String × List (Cidr × IpRule) → List String →
    Kernel × List String × List (Cidr × IpRule)
  | acc, [] => acc
  | (k, snapE, snapR), ip :: rest =>
      if getIpVersion env ip = rpv then
        ensureNetVmIps env rpv
          (addIpsToDev k [ip], snapE.erase ip,
           rulesPop snapR ⟨ip, if rpv = IP_VERSION_6 then "128" else "32"⟩) rest
      else ensureNetVmIps env rpv (k, snapE, snapR) rest

/-- The tenant-VM enumeration of `_ensure_network_exposed` (lines
292-322): VM and virtual ports on the peer datapath (VM ports must be
bound) contribute their parseable IPs. -/
def ensureNetVmLoop (env : Env) (rpv : Nat) :
    Kernel × List String × List (Cidr × IpRule) → List PortRow →
    Kernel × List String × List (Cidr × IpRule)
  | acc, [] => acc
  | acc, port :: rest =>
      if (port.type ≠ OVN_VM_VIF_PORT_TYPE ∧ port.type ≠ OVN_VIRTUAL_VIF_PORT_TYPE) ∨
          (port.type = OVN_VM_VIF_PORT_TYPE ∧ port.chassis = []) then
        ensureNetVmLoop env rpv acc rest
      else match tenantPortIps port.mac0 with
        | none => ensureNetVmLoop env rpv acc rest
        | some ips => ensureNetVmLoop env rpv (ensureNetVmIps env rpv acc ips) rest

/-- `_ensure_network_exposed` (lines 252-322): expose a tenant LRP
through its gateway — record the LRP, add its policy rule, add the
subnet route via the matching-family gateway IP, and expose same-family
VM addresses on the peer datapath, striking everything re-asserted from
the snapshots. -/
def ensure_network_exposed (env : Env) (a : Agent) (k : Kernel)
    (router_port : PortRow) (gateway : CrLrpInfo)
    (snapE : List String) (snapR : List (Cidr × IpRule)) :
    Except PyErr (Agent × Kernel × List String × List (Cidr × IpRule)) :=
  let gateway_ips := gateway.ips.map stripMask
  match (pySplit ' ' router_port.mac0).get? 1 with
  | none => .ok (a, k, snapE, snapR)
  | some router_port_ip =>
    let router_ip := stripMask router_port_ip
    if router_ip ∈ gateway_ips then .ok (a, k, snapE, snapR)
    else do
      let a := lrpsAdd a router_port.logical_port
      let (rb, vlan) ← get_bridge_for_datapath env a gateway.provider_datapath
      let (table, b) ← bridgeTable a rb
      match addIpRule env k router_port_ip table b none with
      | .error .invalidPortIP => .ok (a, k, snapE, snapR)
      | .error e => .error e
      | .ok k1 =>
        let snapR1 := rulesPop snapR (cidrKey router_port_ip)
        let rpv := getIpVersion env router_port_ip
        let r ← ensureNetGatewayRoute env router_ip router_port_ip table b vlan rpv
          a.ovn_routing_tables_routes k1 gateway_ips
        let a := stSet a r.1
        let peer ← dsub router_port.options "peer"
        match env.sb.get_port_datapath peer with
        | none => .ok (a, r.2, snapE, snapR1)
        | some dp =>
            let v := ensureNetVmLoop env rpv (r.2, snapE, snapR1)
              (env.sb.get_ports_on_datapath dp)
            .ok (a, v.1, v.2.1, v.2.2)

/-- The gateway-route removal of `_remove_network_exposed` (lines
344-359): the first same-family gateway IP gets its subnet route
deleted and binds `net`; if none matches, `net` stays unassigned, which
the caller turns into an UnboundLocalError. -/
def removeNetGatewayRoute (env : Env) (router_ip router_port_ip : String)
    (table : Nat) (b : String) (vlan : Option Nat) (rpv : Nat)
    (st : List (String × List Route)) (k : Kernel) :
    List String → Except PyErr (List (String × List Route) × Kernel × Option String)
  | [] => .ok (st, k, none)
  | g :: rest =>
      if getIpVersion env g = rpv then do
        let m ← maskIdx router_port_ip
        let d := delIpRoute env st k router_ip table b vlan (some m) (some g)
        .ok (d.1, d.2, some (env.network_of router_port_ip))
      else removeNetGatewayRoute env router_ip router_port_ip table b vlan rpv st k rest

/-- `_remove_network_exposed` (lines 324-364): undo the LRP exposure —
drop the LRP from the set, delete its rule and subnet route, and delete
every exposed address inside the LRP's network. -/
def remove_network_exposed (env : Env) (a : Agent) (k : Kernel)
    (router_port : PortRow) (gateway : CrLrpInfo) : Except PyErr (Agent × Kernel) :=
  let gateway_ips := gateway.ips.map stripMask
  match (pySplit ' ' router_port.mac0).get? 1 with
  | none => .ok (a, k)
  | some router_port_ip =>
    let router_ip := stripMask router_port_ip
    if router_ip ∈ gateway_ips then .ok (a, k)
    else do
      let a := lrpsRemove a router_port.logical_port
      let (rb, vlan) ← get_bridge_for_datapath env a gateway.provider_datapath
      let (table, b) ← bridgeTable a rb
      let k := delIpRule env k router_port_ip table b none
      let r ← removeNetGatewayRoute env router_ip router_port_ip table b vlan
        (getIpVersion env router_port_ip) a.ovn_routing_tables_routes k gateway_ips
      let a := stSet a r.1
      match r.2.2 with
      | none => .error .unboundLocal
      | some net =>
          let vms := getExposedIpsOnNetwork env r.2.1 net
          .ok (a, delIpsFromDev r.2.1 vms)

/-- The tenant sub-loop of the CR-LRP branch of `_expose_ip` (lines
516-522): expose every distributed (chassis-less) LRP of the router. -/
def crTenantLoop (env : Env) (lp : String) :
    Agent → Kernel → List PortRow → Except PyErr (Agent × Kernel)
  | a, k, [] => .ok (a, k)
  | a, k, lrp :: rest =>
      if lrp.chassis ≠ [] then crTenantLoop env lp a k rest
      else do
        let info ← dsub a.ovn_local_cr_lrps lp
        let r ← ensure_network_exposed env a k lrp info [] []
        crTenantLoop env lp r.1 r.2.1 rest

/-- `_expose_ip` (lines 393-522): the four-way port classification —
provider VM, VM with FIP, FIP association to a VM through a patch port,
and CR-LRP gateway port (with optional tenant-network exposure).  The
returned string is the FIP the FIP branch reports to `sync`. -/
def expose_ip_inner (env : Env) (a : Agent) (k : Kernel) (ips : List String)
    (row : PortRow) (associated_port : Option String) :
    Except PyErr (Agent × Kernel × Option String) :=
  if (row.type = OVN_VM_VIF_PORT_TYPE ∨ row.type = OVN_VIRTUAL_VIF_PORT_TYPE) ∧
      env.sb.is_provider_network row.datapath then do
    let k := addIpsToDev k ips
    let (rb, vlan) ← get_bridge_for_datapath env a row.datapath
    let r ← exposeIpRulesLoop env rb vlan a k ips
    .ok (r.1, r.2.1, none)
  else if row.type = OVN_VM_VIF_PORT_TYPE ∨ row.type = OVN_VIRTUAL_VIF_PORT_TYPE then
    match env.sb.get_fip_associated row.logical_port with
    | some fip => do
        let k := addIpsToDev k [fip.1]
        let (rb, vlan) ← get_bridge_for_datapath env a fip.2
        let (table, b) ← bridgeTable a rb
        match addIpRule env k fip.1 table b none with
        | .error .invalidPortIP => .ok (a, k, none)
        | .error e => .error e
        | .ok k1 =>
            let s := addIpRoute env a.ovn_routing_tables_routes k1 fip.1 table b vlan none none
            .ok (stSet a s.1, s.2, some fip.1)
    | none => .ok (a, k, none)
  else if row.type = OVN_PATCH_VIF_PORT_TYPE then
    match associated_port with
    | some ap =>
        if env.sb.is_port_on_chassis ap env.chassis then do
          let k := addIpsToDev k ips
          let (rb, vlan) ← get_bridge_for_datapath env a row.datapath
          let r ← exposeIpRulesLoop env rb vlan a k ips
          .ok (r.1, r.2.1, none)
        else .ok (a, k, none)
    | none => .ok (a, k, none)
  else if row.type = OVN_CHASSISREDIRECT_VIF_PORT_TYPE ∧
      pyStartsWith row.logical_port "cr-" then
    match env.sb.get_fip_associated row.logical_port with
    | some fip => do
        let crInfo : CrLrpInfo := ⟨row.datapath, fip.2, ips⟩
        let a := crSet a row.logical_port crInfo
        let k := addIpsToDev k (ips.map stripMask)
        let (rb, vlan) ← get_bridge_for_datapath env a fip.2
        let lladdr := (pySplit ' ' row.mac0).getD 0 ""
        let r ← exposeIpCrLoop env rb vlan lladdr a k ips
        if r.2.2 = false then .ok (r.1, r.2.1, none)
        else if env.expose_tenant_networks then do
          let t ← crTenantLoop env row.logical_port r.1 r.2.1
            (env.sb.get_lrp_ports_for_router row.datapath)
          .ok (t.1, t.2, none)
        else .ok (r.1, r.2.1, none)
    | none => .ok (a, k, none)
  else .ok (a, k, none)

/-- `expose_ip` (lines 375-391): the public entry point; the FIP result
of `_expose_ip` is dropped. -/
def expose_ip (env : Env) (a : Agent) (k : Kernel) (ips : List String)
    (row : PortRow) (associated_port : Option String) :
    Except PyErr (Agent × Kernel) :=
  (expose_ip_inner env a k ips row associated_port).map (fun x => (x.1, x.2.1))

/-- The per-IP rule-and-route deletion loop of the provider-VM branch
(lines 549-556), the FIP branch (single IP, lines 571-577) and the
FIP-association branch (lines 590-597) of `withdraw_ip`. -/
def withdrawIpRulesLoop (env : Env) (rb : Option String) (vlan : Option Nat) :
    Agent → Kernel → List String → Except PyErr (Agent × Kernel)
  | a, k, [] => .ok (a, k)
  | a, k, ip :: rest => do
      let (table, b) ← bridgeTable a rb
      let k1 := delIpRule env k ip table b none
      let d := delIpRoute env a.ovn_routing_tables_routes k1 ip table b vlan none none
      withdrawIpRulesLoop env rb vlan (stSet a d.1) d.2 rest

/-- The per-IP loop of the CR-LRP branch of `withdraw_ip` (lines
615-633): delete the lladdr rule keyed by the host CIDR, the on-link
route, and — only when another tracked CR-LRP shares the provider
datapath — the IPv6 NDP proxy entry. -/
def withdrawIpCrLoop (env : Env) (rb : Option String) (vlan : Option Nat)
    (lladdr : String) (cr_lrp_datapath : String) :
    Agent → Kernel → List String → Except PyErr (Agent × Kernel)
  | a, k, [] => .ok (a, k)
  | a, k, ip :: rest => do
      let cr_lrp_ip : String :=
        if getIpVersion env ip = IP_VERSION_6 then ip ++ "/128" else ip ++ "/32"
      let (table, b) ← bridgeTable a rb
      let k1 := delIpRule env k cr_lrp_ip table b (some lladdr)
      let d := delIpRoute env a.ovn_routing_tables_routes k1 ip table b vlan none none
      let k2 :=
        if getIpVersion env ip = IP_VERSION_6 then
          if 1 < ((dvals a.ovn_local_cr_lrps).filter
              (fun p => p.provider_datapath = cr_lrp_datapath)).length then
            delNdpProxy d.2 ip b vlan
          else d.2
        else d.2
      withdrawIpCrLoop env rb vlan lladdr cr_lrp_datapath
        (stSet a d.1) k2 rest

/-- The tenant sub-loop of the CR-LRP branch of `withdraw_ip` (lines
637-645): for every distributed LRP of the router, remove the network
exposure using the still-present bookkeeping entry. -/
def withdrawCrTenantLoop (env : Env) (lp : String) :
    Agent → Kernel → List PortRow → Except PyErr (Agent × Kernel)
  | a, k, [] => .ok (a, k)
  | a, k, lrp :: rest =>
      if lrp.chassis ≠ [] then withdrawCrTenantLoop env lp a k rest
      else
        match dget a.ovn_local_cr_lrps lp with
        | some info => do
            let r ← remove_network_exposed env a k lrp info
            withdrawCrTenantLoop env lp r.1 r.2 rest
        | none => withdrawCrTenantLoop env lp a k rest

/-- `withdraw_ip` (lines 524-650): the withdraw side of the four-way
classification.  The CR-LRP branch looks the provider datapath up in
the agent's own bookkeeping and ends by dropping the bookkeeping entry
(a missing entry is a caught KeyError). -/
def withdraw_ip (env : Env) (a : Agent) (k : Kernel) (ips : List String)
    (row : PortRow) (associated_port : Option String) :
    Except PyErr (Agent × Kernel) :=
  if (row.type = OVN_VM_VIF_PORT_TYPE ∨ row.type = OVN_VIRTUAL_VIF_PORT_TYPE) ∧
      env.sb.is_provider_network row.datapath then do
    let k := delIpsFromDev k ips
    let (rb, vlan) ← get_bridge_for_datapath env a row.datapath
    withdrawIpRulesLoop env rb vlan a k ips
  else if row.type = OVN_VM_VIF_PORT_TYPE ∨ row.type = OVN_VIRTUAL_VIF_PORT_TYPE then
    match env.sb.get_fip_associated row.logical_port with
    | some fip => do
        let k := delIpsFromDev k [fip.1]
        let (rb, vlan) ← get_bridge_for_datapath env a fip.2
        withdrawIpRulesLoop env rb vlan a k [fip.1]
    | none => .ok (a, k)
  else if row.type = OVN_PATCH_VIF_PORT_TYPE then
    match associated_port with
    | some ap =>
        if env.sb.is_port_on_chassis ap env.chassis ∨ env.sb.is_port_deleted ap then do
          let k := delIpsFromDev k ips
          let (rb, vlan) ← get_bridge_for_datapath env a row.datapath
          withdrawIpRulesLoop env rb vlan a k ips
        else .ok (a, k)
    | none => .ok (a, k)
  else if row.type = OVN_CHASSISREDIRECT_VIF_PORT_TYPE ∧
      pyStartsWith row.logical_port "cr-" then
    match (dget a.ovn_local_cr_lrps row.logical_port).map CrLrpInfo.provider_datapath with
    | some cr_lrp_datapath => do
        let ips_without_mask := ips.map stripMask
        let k := delIpsFromDev k ips_without_mask
        let (rb, vlan) ← get_bridge_for_datapath env a cr_lrp_datapath
        let lladdr := (pySplit ' ' row.mac0).getD 0 ""
        let r ← withdrawIpCrLoop env rb vlan lladdr cr_lrp_datapath a k ips_without_mask
        let t ← withdrawCrTenantLoop env row.logical_port r.1 r.2
          (env.sb.get_lrp_ports_for_router row.datapath)
        .ok (crDel t.1 row.logical_port, t.2)
    | none => .ok (a, k)
  else .ok (a, k)

/-- `expose_remote_ip` (lines 652-661): put tenant-port IPs on the dummy
device when tenant exposure is on, the datapath is not a provider
network, and the datapath's LRP is locally tracked. -/
def expose_remote_ip (env : Env) (a : Agent) (k : Kernel) (ips : List String)
    (row : PortRow) : Except PyErr (Agent × Kernel) :=
  if env.sb.is_provider_network row.datapath ∨ ¬ env.expose_tenant_networks then
    .ok (a, k)
  else
    match env.sb.get_lrp_port_for_datapath row.datapath with
    | some port_lrp =>
        if port_lrp ∈ a.ovn_local_lrps then .ok (a, addIpsToDev k ips) else .ok (a, k)
    | none => .ok (a, k)

/-- `withdraw_remote_ip` (lines 663-672): the removal counterpart of
`expose_remote_ip`. -/
def withdraw_remote_ip (env : Env) (a : Agent) (k : Kernel) (ips : List String)
    (row : PortRow) : Except PyErr (Agent × Kernel) :=
  if env.sb.is_provider_network row.datapath ∨ ¬ env.expose_tenant_networks then
    .ok (a, k)
  else
    match env.sb.get_lrp_port_for_datapath row.datapath with
    | some port_lrp =>
        if port_lrp ∈ a.ovn_local_lrps then .ok (a, delIpsFromDev k ips) else .ok (a, k)
    | none => .ok (a, k)

/-- The same-family device adds over one port's IPs in `expose_subnet`
(lines 730-736). -/
def subnetVmIps (env : Env) (ipv : Nat) : Kernel → List String → Kernel
  | k, [] => k
  | k, ip :: rest =>
      if getIpVersion env ip = ipv then subnetVmIps env ipv (addIpsToDev k [ip]) rest
      else subnetVmIps env ipv k rest

/-- The VM enumeration of `expose_subnet` (lines 716-736): VM and
virtual ports on the peer datapath contribute their parseable
same-family IPs to the dummy device. -/
def subnetVmLoop (env : Env) (ipv : Nat) : Kernel → List PortRow → Kernel
  | k, [] => k
  | k, port :: rest =>
      if port.type ≠ OVN_VM_VIF_PORT_TYPE ∧ port.type ≠ OVN_VIRTUAL_VIF_PORT_TYPE then
        subnetVmLoop env ipv k rest
      else match tenantPortIps port.mac0 with
        | none => subnetVmLoop env ipv k rest
        | some ips => subnetVmLoop env ipv (subnetVmIps env ipv k ips) rest

/-- The `add_ip_rule` call of `expose_subnet` under its `try/except
InvalidPortIP` (lines 691-696): the exception is only logged and
execution continues with the kernel unchanged. -/
def addIpRuleLogged (env : Env) (k : Kernel) (ip : String) (table : Nat)
    (dev : String) : Except PyErr Kernel :=
  match addIpRule env k ip table dev none with
  | .error .invalidPortIP => .ok k
  | .error e => .error e
  | .ok k1 => .ok k1

/-- `expose_subnet` (lines 674-737): when the subnet's router is locally
hosted as a CR-LRP, record the LRP, add its policy rule (a caught
`InvalidPortIP` only skips the rule), add the subnet route via the
matching-family CR-LRP IP, and expose existing same-family VM
addresses on the subnet's datapath. -/
def expose_subnet (env : Env) (a : Agent) (k : Kernel) (ip : String)
    (row : PortRow) : Except PyErr (Agent × Kernel) :=
  if ¬ env.expose_tenant_networks then .ok (a, k)
  else match env.sb.is_router_gateway_on_chassis row.datapath env.chassis with
  | none => .ok (a, k)
  | some cr_lrp =>
    let a := lrpsAdd a row.logical_port
    match dget a.ovn_local_cr_lrps cr_lrp with
    | none => .ok (a, k)
    | some info => do
        let cr_lrp_ips := info.ips.map stripMask
        let (rb, vlan) ← get_bridge_for_datapath env a info.provider_datapath
        let (table, b) ← bridgeTable a rb
        let k1 ← addIpRuleLogged env k ip table b
        let ipv := getIpVersion env ip
        let r ← ensureNetGatewayRoute env (stripMask ip) ip table b vlan ipv
          a.ovn_routing_tables_routes k1 cr_lrp_ips
        let a := stSet a r.1
        let peer ← dsub row.options "peer"
        match env.sb.get_port_datapath peer with
        | none => .ok (a, r.2)
        | some dp => .ok (a, subnetVmLoop env ipv r.2 (env.sb.get_ports_on_datapath dp))

/-- `withdraw_subnet` (lines 739-784): the removal counterpart of
`expose_subnet`; when no CR-LRP IP matches the subnet's family, the
`net` variable is never assigned and its later use raises an
UnboundLocalError. -/
def withdraw_subnet (env : Env) (a : Agent) (k : Kernel) (ip : String)
    (row : PortRow) : Except PyErr (Agent × Kernel) :=
  if ¬ env.expose_tenant_networks then .ok (a, k)
  else match env.sb.is_router_gateway_on_chassis row.datapath env.chassis with
  | none => .ok (a, k)
  | some cr_lrp =>
    let a := lrpsRemove a row.logical_port
    match dget a.ovn_local_cr_lrps cr_lrp with
    | none => .ok (a, k)
    | some info => do
        let cr_lrp_ips := info.ips.map stripMask
        let (rb, vlan) ← get_bridge_for_datapath env a info.provider_datapath
        let (table, b) ← bridgeTable a rb
        let k := delIpRule env k ip table b none
        let ipv := getIpVersion env ip
        let r ← removeNetGatewayRoute env (stripMask ip) ip table b vlan ipv
          a.ovn_routing_tables_routes k cr_lrp_ips
        let a := stSet a r.1
        match r.2.2 with
        | none => .error .unboundLocal
        | some net =>
            .ok (a, delIpsFromDev r.2.1 (getExposedIpsOnNetwork env r.2.1 net))

/-! ## `sync` (lines 116-204) and its helpers. -/

/-- The snapshot pops over a port's IPs in `_ensure_port_exposed` (lines
240-250): strike the mask-stripped address and its host-width rule key. -/
def portIpsPops (env : Env) :
    List String × List (Cidr × IpRule) → List String →
    List String × List (Cidr × IpRule)
  | acc, [] => acc
  | (sE, sR), port_ip :: rest =>
      let ip_address := stripMask port_ip
      let m := if getIpVersion env port_ip = IP_VERSION_6 then "128" else "32"
      portIpsPops env (sE.erase ip_address, rulesPop sR ⟨ip_address, m⟩) rest

/-- `_ensure_port_exposed` (lines 223-250): classify and expose a port
of a recognized VIF type with a well-formed mac entry, then strike its
FIP (when one was exposed) and its port IPs from the snapshots. -/
def ensure_port_exposed (env : Env) (a : Agent) (k : Kernel) (port : PortRow)
    (snapE : List String) (snapR : List (Cidr × IpRule)) :
    Except PyErr (Agent × Kernel × List String × List (Cidr × IpRule)) :=
  if port.type ∉ OVN_VIF_PORT_TYPES then .ok (a, k, snapE, snapR)
  else match portRowIps port.mac0 with
  | none => .ok (a, k, snapE, snapR)
  | some port_ips => do
      let r ← expose_ip_inner env a k port_ips port none
      let s := match r.2.2 with
        | some fip => (snapE.erase fip, rulesPop snapR ⟨fip, "32"⟩)
        | none => (snapE, snapR)
      let p := portIpsPops env s port_ips
      .ok (r.1, r.2.1, p.1, p.2)

/-- The snapshot pops over the NAT addresses in
`_ensure_cr_lrp_associated_ports_exposed` (lines 213-221). -/
def natIpsPops (env : Env) :
    List String × List (Cidr × IpRule) → List String →
    List String × List (Cidr × IpRule)
  | acc, [] => acc
  | (sE, sR), ip :: rest =>
      let m := if getIpVersion env ip = IP_VERSION_6 then "128" else "32"
      natIpsPops env (sE.erase ip, rulesPop sR ⟨ip, m⟩) rest

/-- `_ensure_cr_lrp_associated_ports_exposed` (lines 206-221): expose
the NAT addresses behind a CR-LRP through the associated patch row,
then strike them from the snapshots. -/
def ensure_cr_lrp_ports_exposed (env : Env) (a : Agent) (k : Kernel)
    (cr_lrp_port : String) (snapE : List String) (snapR : List (Cidr × IpRule)) :
    Except PyErr (Agent × Kernel × List String × List (Cidr × IpRule)) :=
  match env.sb.get_cr_lrp_nat_addresses_info cr_lrp_port with
  | (ips, patch_port_row) =>
      if ips = [] then .ok (a, k, snapE, snapR)
      else do
        let r ← expose_ip_inner env a k ips patch_port_row (some cr_lrp_port)
        let p := natIpsPops env (snapE, snapR) ips
        .ok (r.1, r.2.1, p.1, p.2)

/-- The per-bridge-mapping loop of `sync` (lines 137-163): parse
`network:bridge`, refresh the bridge mapping, and allocate the bridge's
routing table on first sight, collecting its pre-existing extra routes. -/
def syncBridgeLoop (env : Env) :
    Agent × List (String × List Route) → List String →
    Except PyErr (Agent × List (String × List Route))
  | acc, [] => .ok acc
  | (a, extra), bm :: rest => do
      let network := (pySplit ':' bm).getD 0 ""
      let bridge ← match (pySplit ':' bm).get? 1 with
        | some br => .ok br
        | none => .error .indexError
      let a := { a with ovn_bridge_mappings := dset a.ovn_bridge_mappings network bridge }
      let s :=
        if (match dget extra bridge with | some l => l.isEmpty | none => true) then
          let r := ensureRoutingTableForBridge env a.ovn_routing_tables bridge
          ({ a with ovn_routing_tables := r.1 }, dset extra bridge r.2)
        else (a, extra)
      syncBridgeLoop env s rest

/-- The chassis-port pass of `sync` (lines 174-176). -/
def syncPortsLoop (env : Env) :
    Agent × Kernel × List String × List (Cidr × IpRule) → List PortRow →
    Except PyErr (Agent × Kernel × List String × List (Cidr × IpRule))
  | acc, [] => .ok acc
  | (a, k, sE, sR), port :: rest => do
      let r ← ensure_port_exposed env a k port sE sR
      syncPortsLoop env r rest

/-- The CR-LRP pass of `sync` (lines 178-181). -/
def syncCrLoop (env : Env) :
    Agent × Kernel × List String × List (Cidr × IpRule) → List String →
    Except PyErr (Agent × Kernel × List String × List (Cidr × IpRule))
  | acc, [] => .ok acc
  | (a, k, sE, sR), cr :: rest => do
      let r ← ensure_cr_lrp_ports_exposed env a k cr sE sR
      syncCrLoop env r rest

/-- The distributed-LRP walk for one tracked CR-LRP in the tenant pass
of `sync` (lines 186-192). -/
def syncTenantLrpLoop (env : Env) (info : CrLrpInfo) :
    Agent × Kernel × List String × List (Cidr × IpRule) → List PortRow →
    Except PyErr (Agent × Kernel × List String × List (Cidr × IpRule))
  | acc, [] => .ok acc
  | (a, k, sE, sR), lrp :: rest =>
      if lrp.chassis ≠ [] then syncTenantLrpLoop env info (a, k, sE, sR) rest
      else do
        let r ← ensure_network_exposed env a k lrp info sE sR
        syncTenantLrpLoop env info r rest

/-- The tenant pass of `sync` (lines 184-192), over the tracked CR-LRP
bookkeeping entries. -/
def syncTenantLoop (env : Env) :
    Agent × Kernel × List String × List (Cidr × IpRule) → List CrLrpInfo →
    Except PyErr (Agent × Kernel × List String × List (Cidr × IpRule))
  | acc, [] => .ok acc
  | acc, info :: rest => do
      let r ← syncTenantLrpLoop env info acc
        (env.sb.get_lrp_ports_for_router info.router_datapath)
      syncTenantLoop env r rest

/-- `sync` (lines 116-204): reset the per-sync bookkeeping, rebuild
bridge mappings and table assignments, snapshot the live kernel state,
run the three reconciliation passes, and delete whatever the passes did
not re-assert. -/
def sync (env : Env) (a : Agent) (k : Kernel) : Except PyErr (Agent × Kernel) := do
  let a := { a with ovn_local_cr_lrps := [], ovn_local_lrps := [],
                    ovn_routing_tables_routes := [] }
  let be ← syncBridgeLoop env (a, []) env.ovs_bridge_mappings
  let a := be.1
  let extra := be.2
  let snapE := getExposedIps k
  let snapR := getOvnIpRules k (dvals a.ovn_routing_tables)
  let p ← syncPortsLoop env (a, k, snapE, snapR) (env.sb.get_ports_on_chassis env.chassis)
  let c ← syncCrLoop env p (env.sb.get_cr_lrp_ports_on_chassis env.chassis)
  let t ← if env.expose_tenant_networks then
      syncTenantLoop env c (dvals c.1.ovn_local_cr_lrps)
    else .ok c
  let k1 := delIpsFromDev t.2.1 t.2.2.1
  let k2 := deleteIpRules k1 t.2.2.2
  let k3 := deleteBridgeIpRoutes t.1.ovn_routing_tables t.1.ovn_routing_tables_routes extra k2
  .ok (t.1, k3)

/-! ## Basic lemmas about the utilities. -/

theorem dget_dset_self {α : Type} (d : List (String × α)) (k : String) (v : α) :
    dget (dset d k v) k = some v := by
  induction d with
  | nil => simp [dget, dset]
  | cons e t ih =>
      by_cases h : e.1 = k
      · simp [dset, h, dget]
      · simp [dset, h, dget, ih]

theorem dget_dset_ne {α : Type} (d : List (String × α)) (k k' : String) (v : α)
    (h : k ≠ k') : dget (dset d k v) k' = dget d k' := by
  induction d with
  | nil => simp [dget, dset, h]
  | cons e t ih =>
      by_cases he : e.1 = k
      · simp [dset, he, dget, h]
      · simp [dset, he, dget, ih]

theorem dget_some_mem {α : Type} {d : List (String × α)} {k : String} {v : α}
    (h : dget d k = some v) : (k, v) ∈ d := by
  induction d with
  | nil => simp [dget] at h
  | cons e t ih =>
      obtain ⟨e1, e2⟩ := e
      by_cases he : e1 = k
      · subst he
        simp [dget] at h
        subst h
        exact List.mem_cons_self _ _
      · simp [dget, he] at h
        exact List.mem_cons_of_mem _ (ih h)

theorem mem_setAdd {α : Type} [DecidableEq α] {l : List α} {x y : α} :
    y ∈ setAdd l x ↔ y ∈ l ∨ y = x := by
  unfold setAdd
  by_cases h : x ∈ l
  · simp only [if_pos h]
    constructor
    · exact .inl
    · rintro (hy | rfl)
      · exact hy
      · exact h
  · simp [if_neg h]

theorem setAdd_sub {α : Type} [DecidableEq α] {l : List α} (x : α) :
    l ⊆ setAdd l x := by
  intro y hy
  exact mem_setAdd.mpr (.inl hy)

theorem exposed_addIpsToDev (k : Kernel) (ips : List String) {ip : String} :
    ip ∈ (addIpsToDev k ips).exposed ↔ ip ∈ k.exposed ∨ ip ∈ ips := by
  suffices h : ∀ e : List String, ip ∈ ips.foldl setAdd e ↔ ip ∈ e ∨ ip ∈ ips by
    exact h k.exposed
  induction ips with
  | nil => simp
  | cons a t ih =>
      intro e
      simp only [List.foldl_cons, ih, mem_setAdd, List.mem_cons]
      tauto

theorem rules_addIpsToDev (k : Kernel) (ips : List String) :
    (addIpsToDev k ips).rules = k.rules := rfl

theorem routes_addIpsToDev (k : Kernel) (ips : List String) :
    (addIpsToDev k ips).routes = k.routes := rfl

theorem ndp_addIpsToDev (k : Kernel) (ips : List String) :
    (addIpsToDev k ips).ndp = k.ndp := rfl

theorem exposed_delIpsFromDev (k : Kernel) (ips : List String) {ip : String} :
    ip ∈ (delIpsFromDev k ips).exposed ↔ ip ∈ k.exposed ∧ ip ∉ ips := by
  simp [delIpsFromDev]

theorem stripMask_idem (s : String) : stripMask (stripMask s) = stripMask s := by
  simp only [stripMask]
  congr 1
  induction s.data with
  | nil => rfl
  | cons c t ih =>
      by_cases h : c = '/'
      · simp [List.takeWhile, h]
      · simpa [List.takeWhile, h] using ih

theorem getIpVersion_stripMask (env : Env) (s : String) :
    getIpVersion env (stripMask s) = getIpVersion env s := by
  simp [getIpVersion, stripMask_idem]

theorem takeWhile_all {α : Type} (p : α → Bool) (l : List α)
    (h : ∀ c ∈ l, p c = true) : l.takeWhile p = l := by
  induction l with
  | nil => rfl
  | cons c t ih =>
      rw [List.takeWhile_cons, if_pos (h c (by simp)),
        ih (fun x hx => h x (by simp [hx]))]

theorem takeWhile_append_stop {α : Type} (p : α → Bool) (l m : List α)
    (h : ∀ c ∈ l, p c = true) (x : α) (hx : p x = false) :
    (l ++ x :: m).takeWhile p = l := by
  induction l with
  | nil => simp [List.takeWhile_cons, hx]
  | cons c t ih =>
      rw [List.cons_append, List.takeWhile_cons, if_pos (h c (by simp)),
        ih (fun y hy => h y (by simp [hy]))]

/-- Addresses without a slash are fixed by `stripMask`. -/
theorem stripMask_noSlash {s : String} (h : ∀ c ∈ s.data, c ≠ '/') :
    stripMask s = s := by
  simp only [stripMask]
  apply String.ext
  exact takeWhile_all _ _ (fun c hc => by simp [h c hc])

theorem splitCh_noSep {sep : Char} {l : List Char} (h : ∀ c ∈ l, c ≠ sep) :
    splitCh sep l = [l] := by
  induction l with
  | nil => rfl
  | cons c t ih =>
      have hc : c ≠ sep := h c (by simp)
      have ht := ih (fun x hx => h x (by simp [hx]))
      simp [splitCh, hc, ht]

theorem splitCh_append_sep {sep : Char} {l m : List Char} (h : ∀ c ∈ l, c ≠ sep) :
    splitCh sep (l ++ sep :: m) = l :: splitCh sep m := by
  induction l with
  | nil => simp [splitCh]
  | cons c t ih =>
      have hc : c ≠ sep := h c (by simp)
      have ht := ih (fun x hx => h x (by simp [hx]))
      simp only [List.cons_append, splitCh, if_neg hc, List.append_eq]
      rw [ht]

/-- `maskOpt` of a slash-free address is `none`. -/
theorem maskOpt_noSlash {s : String} (h : ∀ c ∈ s.data, c ≠ '/') :
    maskOpt s = none := by
  simp [maskOpt, pySplit, splitCh_noSep h]

theorem data_append_slash (s m : String) :
    (s ++ "/" ++ m).data = s.data ++ '/' :: m.data := by
  simp [String.data_append]

/-- Appending `"/m"` to a slash-free address strips back to the address. -/
theorem stripMask_append_mask {s : String} (m : String) (h : ∀ c ∈ s.data, c ≠ '/') :
    stripMask (s ++ "/" ++ m) = s := by
  simp only [stripMask, data_append_slash]
  apply String.ext
  exact takeWhile_append_stop _ _ _ (fun c hc => by simp [h c hc]) _ (by simp)

/-- Appending `"/m"` (for a slash-free mask) to a slash-free address
yields exactly that mask. -/
theorem maskOpt_append_mask {s : String} {m : String} (h : ∀ c ∈ s.data, c ≠ '/')
    (hm : ∀ c ∈ m.data, c ≠ '/') : maskOpt (s ++ "/" ++ m) = some m := by
  simp [maskOpt, pySplit, data_append_slash, splitCh_append_sep h, splitCh_noSep hm]

/-! ## Claim C5: mac-field parsing. -/

/-- C5: a port row's first mac entry, split on single spaces, contributes
no IPs when it has fewer than two fields, exactly the second field when
it has two, and the second and third fields when it has three — both in
`_ensure_port_exposed` (`portRowIps`) and in the tenant-VM enumerations
(`tenantPortIps`). -/
theorem mac_parsing_field_counts (mac0 : String) :
    ((pySplit ' ' mac0).length < 2 →
      portRowIps mac0 = none ∧ tenantPortIps mac0 = none) ∧
    ((pySplit ' ' mac0).length = 2 →
      portRowIps mac0 = some [(pySplit ' ' mac0).getD 1 ""] ∧
      tenantPortIps mac0 = some [(pySplit ' ' mac0).getD 1 ""]) ∧
    ((pySplit ' ' mac0).length = 3 →
      portRowIps mac0 =
        some [(pySplit ' ' mac0).getD 1 "", (pySplit ' ' mac0).getD 2 ""] ∧
      tenantPortIps mac0 =
        some [(pySplit ' ' mac0).getD 1 "", (pySplit ' ' mac0).getD 2 ""]) := by
  refine ⟨?_, ?_, ?_⟩ <;>
    rcases hf : pySplit ' ' mac0 with _ | ⟨a, _ | ⟨b, _ | ⟨c, _ | ⟨d, rest⟩⟩⟩⟩ <;>
    intro h <;>
    simp [portRowIps, tenantPortIps, hf] at h ⊢ <;>
    omega

/-- C5 witness: a three-field mac entry at a concrete value. -/
theorem mac_parsing_field_counts_witness :
    (pySplit ' ' "aa:bb 10.0.0.5 fe80::5").length = 3 ∧
    (portRowIps "aa:bb 10.0.0.5 fe80::5" =
        some [(pySplit ' ' "aa:bb 10.0.0.5 fe80::5").getD 1 "",
              (pySplit ' ' "aa:bb 10.0.0.5 fe80::5").getD 2 ""] ∧
      tenantPortIps "aa:bb 10.0.0.5 fe80::5" =
        some [(pySplit ' ' "aa:bb 10.0.0.5 fe80::5").getD 1 "",
              (pySplit ' ' "aa:bb 10.0.0.5 fe80::5").getD 2 ""]) :=
  ⟨by decide, (mac_parsing_field_counts "aa:bb 10.0.0.5 fe80::5").2.2 (by decide)⟩

/-! ## Claim C8: expose_remote_ip / withdraw_remote_ip frame. -/

/-- The gate of the remote-IP handlers: tenant exposure is on, the
row's datapath is not a provider network, and the datapath's LRP is
locally tracked. -/
def remoteGate (env : Env) (a : Agent) (row : PortRow) : Bool :=
  !env.sb.is_provider_network row.datapath && env.expose_tenant_networks &&
    (match env.sb.get_lrp_port_for_datapath row.datapath with
     | some p => decide (p ∈ a.ovn_local_lrps)
     | none => false)

/-- C8: the remote-IP handlers never fail, never change the agent's
bookkeeping, rules, routes or NDP entries, and mutate the dummy-device
address set exactly when the gate holds. -/
theorem remote_ip_frame (env : Env) (a : Agent) (k : Kernel) (ips : List String)
    (row : PortRow) :
    expose_remote_ip env a k ips row =
      .ok (a, if remoteGate env a row then addIpsToDev k ips else k) ∧
    withdraw_remote_ip env a k ips row =
      .ok (a, if remoteGate env a row then delIpsFromDev k ips else k) ∧
    (addIpsToDev k ips).rules = k.rules ∧
    (addIpsToDev k ips).routes = k.routes ∧
    (addIpsToDev k ips).ndp = k.ndp ∧
    (delIpsFromDev k ips).rules = k.rules ∧
    (delIpsFromDev k ips).routes = k.routes ∧
    (delIpsFromDev k ips).ndp = k.ndp := by
  refine ⟨?_, ?_, rfl, rfl, rfl, rfl, rfl, rfl⟩ <;>
  · simp only [expose_remote_ip, withdraw_remote_ip, remoteGate]
    by_cases hprov : env.sb.is_provider_network row.datapath <;>
      by_cases ht : env.expose_tenant_networks <;>
        simp only [hprov, ht, Bool.not_true, Bool.not_false, Bool.false_and,
          Bool.and_false, Bool.true_and, Bool.and_true, if_true, if_false,
          not_true, not_false_iff, or_true, or_false, true_or, false_or,
          if_neg, ite_true, ite_false] <;>
      first
        | rfl
        | (cases hl : env.sb.get_lrp_port_for_datapath row.datapath with
            | none => simp
            | some p =>
                by_cases hp : p ∈ a.ovn_local_lrps <;> simp [hp])

/-! ## Concrete fixtures used by witnesses and counterexamples. -/

/-- A southbound view with nothing on the chassis. -/
def sb0 : SB where
  is_provider_network := fun _ => false
  get_fip_associated := fun _ => none
  get_network_name_and_tag := fun _ _ => (none, [])
  get_lrp_ports_for_router := fun _ => []
  get_port_datapath := fun _ => none
  get_ports_on_datapath := fun _ => []
  is_router_gateway_on_chassis := fun _ _ => none
  is_port_on_chassis := fun _ _ => false
  is_port_deleted := fun _ => false
  get_lrp_port_for_datapath := fun _ => none
  get_ports_on_chassis := fun _ => []
  get_cr_lrp_ports_on_chassis := fun _ => []
  get_cr_lrp_nat_addresses_info := fun _ => ([], ⟨"patch", "", "", "", [], []⟩)
  get_network_vlan_tag_by_network_name := fun _ => []

/-- A version oracle: colon means IPv6. -/
def ipv0 : String → Nat := fun s => if ':' ∈ s.data then 6 else 4

/-- A base environment: no bridge mappings, tenant exposure off. -/
def env0 : Env where
  chassis := "hv1"
  expose_tenant_networks := false
  sb := sb0
  ovs_bridge_mappings := []
  ip_version := ipv0
  valid_ip := fun _ => true
  network_of := fun s => s
  in_network := fun _ _ => false
  alloc_table := fun _ => 200
  extra_routes_of := fun _ => []

/-- The empty agent state. -/
def agent0 : Agent := ⟨[], [], [], [], []⟩

/-- The empty kernel surface. -/
def kernel0 : Kernel := ⟨[], [], [], []⟩

/-! ## Claim C10: withdrawing an untracked CR-LRP is a no-op. -/

/-- C10: `withdraw_ip` on a chassisredirect row whose logical port has
no `ovn_local_cr_lrps` entry returns the agent and kernel unchanged —
the provider datapath is looked up only in the agent's own bookkeeping
(the theorem holds for every southbound view). -/
theorem untracked_cr_withdraw_noop (env : Env) (a : Agent) (k : Kernel)
    (ips : List String) (row : PortRow) (ap : Option String)
    (ht : row.type = OVN_CHASSISREDIRECT_VIF_PORT_TYPE)
    (hu : dget a.ovn_local_cr_lrps row.logical_port = none) :
    withdraw_ip env a k ips row ap = .ok (a, k) := by
  simp [withdraw_ip, ht, hu, OVN_CHASSISREDIRECT_VIF_PORT_TYPE,
    OVN_VM_VIF_PORT_TYPE, OVN_VIRTUAL_VIF_PORT_TYPE, OVN_PATCH_VIF_PORT_TYPE]

/-- C10 witness: a concrete untracked chassisredirect row. -/
theorem untracked_cr_withdraw_noop_witness :
    withdraw_ip env0 agent0 kernel0 ["2001:db8::1/64"]
      ⟨"chassisredirect", "dp-r", "cr-lrp1", "aa:bb 2001:db8::1/64", [], []⟩ none =
      .ok (agent0, kernel0) :=
  untracked_cr_withdraw_noop env0 agent0 kernel0 ["2001:db8::1/64"]
    ⟨"chassisredirect", "dp-r", "cr-lrp1", "aa:bb 2001:db8::1/64", [], []⟩ none
    rfl rfl

/-! ## Claim C4 infrastructure: frame lemmas for the CR-LRP withdraw path. -/

theorem ok_bind {ε α β : Type} (a : α) (f : α → Except ε β) :
    (Except.ok a >>= f : Except ε β) = f a := rfl

theorem error_bind {ε α β : Type} (e : ε) (f : α → Except ε β) :
    (Except.error e >>= f : Except ε β) = .error e := rfl

theorem removeNetGatewayRoute_ok_ndp {env : Env} {ri rpi : String} {table : Nat}
    {b : String} {vl : Option Nat} {rpv : Nat} {st : List (String × List Route)}
    {k : Kernel} {gws : List String} {r}
    (h : removeNetGatewayRoute env ri rpi table b vl rpv st k gws = .ok r) :
    r.2.1.ndp = k.ndp := by
  induction gws with
  | nil =>
      simp only [removeNetGatewayRoute] at h
      cases h
      rfl
  | cons g rest ih =>
      simp only [removeNetGatewayRoute] at h
      by_cases hg : getIpVersion env g = rpv
      · rw [if_pos hg] at h
        cases hm : maskIdx rpi with
        | error e => rw [hm, error_bind] at h; cases h
        | ok m =>
            rw [hm, ok_bind] at h
            cases h
            rfl
      · rw [if_neg hg] at h
        exact ih h

theorem remove_network_exposed_frames {env : Env} {a : Agent} {k : Kernel}
    {rp : PortRow} {gw : CrLrpInfo} {a' : Agent} {k' : Kernel}
    (h : remove_network_exposed env a k rp gw = .ok (a', k')) :
    k'.ndp = k.ndp ∧ a'.ovn_local_cr_lrps = a.ovn_local_cr_lrps ∧
    a'.ovn_routing_tables = a.ovn_routing_tables ∧
    a'.ovn_bridge_mappings = a.ovn_bridge_mappings := by
  unfold remove_network_exposed at h
  cases hm : (pySplit ' ' rp.mac0).get? 1 with
  | none =>
      rw [hm] at h
      cases h
      exact ⟨rfl, rfl, rfl, rfl⟩
  | some rpi =>
      rw [hm] at h
      dsimp only at h
      by_cases hgw : stripMask rpi ∈ List.map stripMask gw.ips
      · rw [if_pos hgw] at h
        cases h
        exact ⟨rfl, rfl, rfl, rfl⟩
      · rw [if_neg hgw] at h
        cases hbr : get_bridge_for_datapath env (lrpsRemove a rp.logical_port)
            gw.provider_datapath with
        | error e => rw [hbr, error_bind] at h; cases h
        | ok rbvl =>
            rw [hbr, ok_bind] at h
            obtain ⟨rb, vl⟩ := rbvl
            dsimp only at h
            cases hbt : bridgeTable (lrpsRemove a rp.logical_port) rb with
            | error e => rw [hbt, error_bind] at h; cases h
            | ok tb =>
                rw [hbt, ok_bind] at h
                obtain ⟨table, b⟩ := tb
                dsimp only at h
                cases hr : removeNetGatewayRoute env (stripMask rpi) rpi table b vl
                    (getIpVersion env rpi)
                    (lrpsRemove a rp.logical_port).ovn_routing_tables_routes
                    (delIpRule env k rpi table b none) (List.map stripMask gw.ips) with
                | error e => rw [hr, error_bind] at h; cases h
                | ok r =>
                    rw [hr, ok_bind] at h
                    have hndp := removeNetGatewayRoute_ok_ndp hr
                    cases hnet : r.2.2 with
                    | none => rw [hnet] at h; cases h
                    | some net =>
                        rw [hnet] at h
                        cases h
                        exact ⟨hndp, rfl, rfl, rfl⟩

theorem withdrawCrTenantLoop_frames {env : Env} {lp : String} :
    ∀ {lrps : List PortRow} {a : Agent} {k : Kernel} {a' : Agent} {k' : Kernel},
    withdrawCrTenantLoop env lp a k lrps = .ok (a', k') →
    k'.ndp = k.ndp ∧ a'.ovn_local_cr_lrps = a.ovn_local_cr_lrps ∧
    a'.ovn_routing_tables = a.ovn_routing_tables ∧
    a'.ovn_bridge_mappings = a.ovn_bridge_mappings := by
  intro lrps
  induction lrps with
  | nil =>
      intro a k a' k' h
      simp only [withdrawCrTenantLoop] at h
      cases h
      exact ⟨rfl, rfl, rfl, rfl⟩
  | cons lrp rest ih =>
      intro a k a' k' h
      simp only [withdrawCrTenantLoop] at h
      by_cases hc : lrp.chassis ≠ []
      · rw [if_pos hc] at h
        exact ih h
      · rw [if_neg hc] at h
        cases hd : dget a.ovn_local_cr_lrps lp with
        | none =>
            rw [hd] at h
            exact ih h
        | some info =>
            rw [hd] at h
            dsimp only at h
            cases hr : remove_network_exposed env a k lrp info with
            | error e => rw [hr, error_bind] at h; cases h
            | ok r =>
                rw [hr, ok_bind] at h
                obtain ⟨a1, k1⟩ := r
                obtain ⟨h1, h2, h3, h4⟩ := remove_network_exposed_frames hr
                obtain ⟨g1, g2, g3, g4⟩ := ih h
                exact ⟨g1.trans h1, g2.trans h2, g3.trans h3, g4.trans h4⟩

/-- The NDP deletion predicate the CR-LRP withdraw loop accumulates: an
entry goes away when some IPv6 address of the list maps to it. -/
def ndpHit (env : Env) (b : String) (vl : Option Nat) (ips : List String)
    (nd : NdpEntry) : Bool :=
  ips.any (fun ip => decide (getIpVersion env ip = IP_VERSION_6) &&
    decide (nd = ⟨stripMask ip, b, vl⟩))

theorem withdrawIpCrLoop_spec (env : Env) (vl : Option Nat) (lladdr dp : String)
    (table : Nat) (b : String) :
    ∀ (ips : List String) (a : Agent) (k : Kernel),
    dget a.ovn_routing_tables b = some table →
    ∃ st' k', withdrawIpCrLoop env (some b) vl lladdr dp a k ips = .ok (stSet a st', k') ∧
      k'.ndp = (if 1 < ((dvals a.ovn_local_cr_lrps).filter
            (fun p => p.provider_datapath = dp)).length
        then k.ndp.filter (fun nd => !ndpHit env b vl ips nd)
        else k.ndp) := by
  intro ips
  induction ips with
  | nil =>
      intro a k htab
      refine ⟨a.ovn_routing_tables_routes, k, rfl, ?_⟩
      simp [ndpHit]
  | cons ip rest ih =>
      intro a k htab
      have hbt : bridgeTable a (some b) = .ok (table, b) := by
        simp [bridgeTable, dsub, htab, Except.map]
      simp only [withdrawIpCrLoop, hbt, ok_bind]
      set k1 := delIpRule env k
        (if getIpVersion env ip = IP_VERSION_6 then ip ++ "/128" else ip ++ "/32")
        table b (some lladdr) with hk1
      set d := delIpRoute env a.ovn_routing_tables_routes k1 ip table b vl none none with hd
      obtain ⟨st', k', hrec, hndp⟩ := ih (stSet a d.1)
        (if getIpVersion env ip = IP_VERSION_6 then
          if 1 < ((dvals a.ovn_local_cr_lrps).filter
              (fun p => p.provider_datapath = dp)).length then
            delNdpProxy d.2 ip b vl
          else d.2
        else d.2) htab
      rw [show (stSet a d.1).ovn_local_cr_lrps = a.ovn_local_cr_lrps from rfl] at hndp
      refine ⟨st', k', hrec, ?_⟩
      · rw [hndp]
        by_cases hc : 1 < ((dvals a.ovn_local_cr_lrps).filter
            (fun p => p.provider_datapath = dp)).length
        · rw [if_pos hc, if_pos hc, if_pos hc]
          have hd2 : d.2.ndp = k.ndp := rfl
          by_cases hv : getIpVersion env ip = IP_VERSION_6
          · rw [if_pos hv]
            show (List.filter _ (delNdpProxy d.2 ip b vl).ndp) = _
            have : (delNdpProxy d.2 ip b vl).ndp =
                k.ndp.filter (fun e => e ≠ ⟨stripMask ip, b, vl⟩) := by
              simp [delNdpProxy, hd2]
            rw [this, List.filter_filter]
            apply List.filter_congr
            intro nd _
            simp only [ndpHit, List.any_cons, hv, decide_True, Bool.true_and, Bool.not_or,
              decide_not]
            exact Bool.and_comm _ _
          · rw [if_neg hv]
            show (List.filter _ d.2.ndp) = _
            rw [hd2]
            apply List.filter_congr
            intro nd _
            simp [ndpHit, hv]
        · rw [if_neg hc, if_neg hc, if_neg hc, ite_self]
          rfl

/-- With duplicate-free keys, the tracked-sibling count of the source's
`len(cr_lrps_on_same_provider) > 1` test is equivalent to the existence
of a second tracked CR-LRP on the same provider datapath. -/
theorem sibling_count_iff {m : List (String × CrLrpInfo)} {lp : String} {info : CrLrpInfo}
    (hnd : (dkeys m).Nodup) (hinfo : dget m lp = some info) :
    1 < ((dvals m).filter
        (fun p => p.provider_datapath = info.provider_datapath)).length ↔
      ∃ e ∈ m, e.1 ≠ lp ∧ e.2.provider_datapath = info.provider_datapath := by
  induction m with
  | nil => simp [dget] at hinfo
  | cons e t ih =>
      obtain ⟨e1, e2⟩ := e
      simp only [dkeys, List.map_cons, List.nodup_cons] at hnd
      obtain ⟨hn1, hn2⟩ := hnd
      by_cases he : e1 = lp
      · subst he
        have hinfo' : e2 = info := by simpa [dget] using hinfo
        subst hinfo'
        have hfil : (dvals ((e1, e2) :: t)).filter
            (fun p => p.provider_datapath = e2.provider_datapath) =
            e2 :: (dvals t).filter
              (fun p => p.provider_datapath = e2.provider_datapath) := by
          simp [dvals]
        rw [hfil, List.length_cons]
        constructor
        · intro h1
          have hpos : 0 < ((dvals t).filter
              (fun p => p.provider_datapath = e2.provider_datapath)).length := by omega
          rw [List.length_pos] at hpos
          obtain ⟨v, hv⟩ := List.exists_mem_of_ne_nil _ hpos
          obtain ⟨hv1, hv2⟩ := List.mem_filter.mp hv
          obtain ⟨x, hx, hxv⟩ := List.mem_map.mp hv1
          refine ⟨x, List.mem_cons_of_mem _ hx, ?_, ?_⟩
          · intro hEq
            exact hn1 (hEq ▸ List.mem_map_of_mem _ hx)
          · rw [hxv]
            exact of_decide_eq_true hv2
        · rintro ⟨x, hx, hx1, hx2⟩
          rcases List.mem_cons.mp hx with hxe | hxt
          · exact absurd (congrArg Prod.fst hxe) hx1
          · have : x.2 ∈ (dvals t).filter
                (fun p => p.provider_datapath = e2.provider_datapath) :=
              List.mem_filter.mpr ⟨List.mem_map_of_mem _ hxt, decide_eq_true hx2⟩
            have := List.length_pos.mpr (List.ne_nil_of_mem this)
            omega
      · have hinfo' : dget t lp = some info := by simpa [dget, he] using hinfo
        have hself : (lp, info) ∈ t := dget_some_mem hinfo'
        by_cases hP : e2.provider_datapath = info.provider_datapath
        · have hfil : (dvals ((e1, e2) :: t)).filter
              (fun p => p.provider_datapath = info.provider_datapath) =
              e2 :: (dvals t).filter
                (fun p => p.provider_datapath = info.provider_datapath) := by
            simp [dvals, hP]
          rw [hfil, List.length_cons]
          have : info ∈ (dvals t).filter
              (fun p => p.provider_datapath = info.provider_datapath) :=
            List.mem_filter.mpr ⟨List.mem_map_of_mem _ hself, by simp⟩
          have hpos := List.length_pos.mpr (List.ne_nil_of_mem this)
          constructor
          · intro _
            exact ⟨(e1, e2), List.mem_cons_self _ _, he, hP⟩
          · intro _
            omega
        · have hfil : (dvals ((e1, e2) :: t)).filter
              (fun p => p.provider_datapath = info.provider_datapath) =
              (dvals t).filter
                (fun p => p.provider_datapath = info.provider_datapath) := by
            simp [dvals, hP]
          rw [hfil, ih hn2 hinfo']
          constructor
          · rintro ⟨x, hx, hx1, hx2⟩
            exact ⟨x, List.mem_cons_of_mem _ hx, hx1, hx2⟩
          · rintro ⟨x, hx, hx1, hx2⟩
            rcases List.mem_cons.mp hx with hxe | hxt
            · subst hxe
              exact absurd hx2 hP
            · exact ⟨x, hxt, hx1, hx2⟩

theorem ndpHit_map_stripMask (env : Env) (b : String) (vl : Option Nat)
    (ips : List String) (nd : NdpEntry) :
    ndpHit env b vl (ips.map stripMask) nd = ndpHit env b vl ips nd := by
  induction ips with
  | nil => rfl
  | cons ip rest ih =>
      simp only [ndpHit, List.map_cons, List.any_cons] at ih ⊢
      rw [ih, getIpVersion_stripMask, stripMask_idem]

/-- C4: when `withdraw_ip` withdraws a tracked CR-LRP, the NDP proxy
entries of its IPv6 addresses are removed from the bridge if and only
if another entry of `ovn_local_cr_lrps` shares the provider datapath;
when the withdrawn CR-LRP is the last one on that provider datapath the
proxy entries stay. -/
theorem cr_withdraw_ndp_sibling (env : Env) (a : Agent) (k : Kernel)
    (ips : List String) (row : PortRow) (ap : Option String)
    (b : String) (vl : Option Nat) (table : Nat) (info : CrLrpInfo)
    (a' : Agent) (k' : Kernel)
    (hnd : (dkeys a.ovn_local_cr_lrps).Nodup)
    (ht : row.type = OVN_CHASSISREDIRECT_VIF_PORT_TYPE)
    (hp : pyStartsWith row.logical_port "cr-" = true)
    (hinfo : dget a.ovn_local_cr_lrps row.logical_port = some info)
    (hb : get_bridge_for_datapath env a info.provider_datapath = .ok (some b, vl))
    (htab : dget a.ovn_routing_tables b = some table)
    (hres : withdraw_ip env a k ips row ap = .ok (a', k')) :
    k'.ndp = if ∃ e ∈ a.ovn_local_cr_lrps, e.1 ≠ row.logical_port ∧
        e.2.provider_datapath = info.provider_datapath
      then k.ndp.filter (fun nd => !ndpHit env b vl ips nd)
      else k.ndp := by
  unfold withdraw_ip at hres
  rw [ht] at hres
  simp only [OVN_CHASSISREDIRECT_VIF_PORT_TYPE, OVN_VM_VIF_PORT_TYPE,
    OVN_VIRTUAL_VIF_PORT_TYPE, OVN_PATCH_VIF_PORT_TYPE] at hres
  rw [if_neg (by simp), if_neg (by simp), if_neg (by simp),
    if_pos (by simp [hp])] at hres
  rw [hinfo] at hres
  dsimp only [Option.map] at hres
  rw [hb, ok_bind] at hres
  dsimp only at hres
  obtain ⟨st', k2, hloop, hndp⟩ := withdrawIpCrLoop_spec env vl
    ((pySplit ' ' row.mac0).getD 0 "") info.provider_datapath table b
    (ips.map stripMask) a (delIpsFromDev k (ips.map stripMask)) htab
  rw [hloop, ok_bind] at hres
  cases htl : withdrawCrTenantLoop env row.logical_port (stSet a st') k2
      (env.sb.get_lrp_ports_for_router row.datapath) with
  | error e => rw [htl, error_bind] at hres; cases hres
  | ok t =>
      rw [htl, ok_bind] at hres
      obtain ⟨a3, k3⟩ := t
      have hfr := withdrawCrTenantLoop_frames htl
      cases hres
      rw [hfr.1, hndp]
      have hdel : (delIpsFromDev k (ips.map stripMask)).ndp = k.ndp := rfl
      rw [hdel]
      rw [if_congr (sibling_count_iff hnd hinfo) rfl rfl]
      simp only [ndpHit_map_stripMask]

/-- A southbound view that resolves the provider datapath `pdp1` to the
network `pub` and otherwise answers emptily. -/
def sb4 : SB :=
  { sb0 with get_network_name_and_tag := fun d keys =>
      if d = "pdp1" ∧ "pub" ∈ keys then (some "pub", []) else (none, []) }

/-- An environment over `sb4`. -/
def env4 : Env := { env0 with sb := sb4 }

/-- An agent tracking two CR-LRPs that share the provider datapath
`pdp1`, with `pub` mapped to `br-ex` and table 200 assigned. -/
def agent4 : Agent :=
  ⟨[("br-ex", 200)], [("pub", "br-ex")],
   [("cr-a", ⟨"rdp-a", "pdp1", ["2001:db8::1/64"]⟩),
    ("cr-b", ⟨"rdp-b", "pdp1", ["2001:db8::2/64"]⟩)], [], []⟩

/-- A kernel with the NDP proxy entry of `cr-a` present. -/
def kernel4 : Kernel :=
  ⟨["2001:db8::1"], [], [], [⟨"2001:db8::1", "br-ex", none⟩]⟩

/-- The chassisredirect row of `cr-a`. -/
def row4 : PortRow :=
  ⟨"chassisredirect", "rdp-a", "cr-a", "fa:16:3e:11:22:33 2001:db8::1/64", [], []⟩

/-- C4 witness: withdrawing `cr-a` while `cr-b` shares `pdp1` removes
the IPv6 NDP proxy entry. -/
theorem cr_withdraw_ndp_sibling_witness :
    ∃ a' k', withdraw_ip env4 agent4 kernel4 ["2001:db8::1/64"] row4 none =
        .ok (a', k') ∧
      k'.ndp = if ∃ e ∈ agent4.ovn_local_cr_lrps, e.1 ≠ row4.logical_port ∧
          e.2.provider_datapath = CrLrpInfo.provider_datapath ⟨"rdp-a", "pdp1", ["2001:db8::1/64"]⟩
        then kernel4.ndp.filter
          (fun nd => !ndpHit env4 "br-ex" none ["2001:db8::1/64"] nd)
        else kernel4.ndp := by
  refine ⟨_, _, rfl, ?_⟩
  exact cr_withdraw_ndp_sibling env4 agent4 kernel4 ["2001:db8::1/64"] row4 none
    "br-ex" none 200 ⟨"rdp-a", "pdp1", ["2001:db8::1/64"]⟩ _ _
    (by decide) rfl (by decide) rfl (by decide) rfl rfl

/-! ## Claim C6: family consistency of tenant-subnet routes. -/

theorem ensureNetGatewayRoute_new_routes {env : Env} {ri rpi : String} {table : Nat}
    {b : String} {vl : Option Nat} {rpv : Nat} {st : List (String × List Route)}
    {k : Kernel} {gws : List String} {r}
    (h : ensureNetGatewayRoute env ri rpi table b vl rpv st k gws = .ok r) :
    ∀ x ∈ r.2.routes, x ∈ k.routes ∨
      (x.addr = ri ∧ ∃ g ∈ gws, x.via = some g ∧ getIpVersion env g = rpv) := by
  induction gws with
  | nil =>
      simp only [ensureNetGatewayRoute] at h
      cases h
      exact fun x hx => .inl hx
  | cons g rest ih =>
      simp only [ensureNetGatewayRoute] at h
      by_cases hg : getIpVersion env g = rpv
      · rw [if_pos hg] at h
        cases hm : maskIdx rpi with
        | error e => rw [hm, error_bind] at h; cases h
        | ok m =>
            rw [hm, ok_bind] at h
            cases h
            intro x hx
            rcases mem_setAdd.mp hx with hx | hx
            · exact .inl hx
            · subst hx
              exact .inr ⟨rfl, g, List.mem_cons_self _ _, rfl, hg⟩
      · rw [if_neg hg] at h
        intro x hx
        rcases ih h x hx with hx | ⟨h1, g', hg', h2⟩
        · exact .inl hx
        · exact .inr ⟨h1, g', List.mem_cons_of_mem _ hg', h2⟩

/-- The gateway-route selection adds nothing when no gateway IP matches
the family. -/
theorem ensureNetGatewayRoute_no_match {env : Env} {ri rpi : String} {table : Nat}
    {b : String} {vl : Option Nat} {rpv : Nat} {st : List (String × List Route)}
    {k : Kernel} {gws : List String}
    (h : ∀ g ∈ gws, getIpVersion env g ≠ rpv) :
    ensureNetGatewayRoute env ri rpi table b vl rpv st k gws = .ok (st, k) := by
  induction gws with
  | nil => rfl
  | cons g rest ih =>
      simp only [ensureNetGatewayRoute, if_neg (h g (List.mem_cons_self _ _))]
      exact ih (fun g' hg' => h g' (List.mem_cons_of_mem _ hg'))

theorem ensureNetVmIps_routes (env : Env) (rpv : Nat) :
    ∀ (ips : List String) (acc : Kernel × List String × List (Cidr × IpRule)),
    (ensureNetVmIps env rpv acc ips).1.routes = acc.1.routes := by
  intro ips
  induction ips with
  | nil => intro acc; rfl
  | cons ip rest ih =>
      intro ⟨k, sE, sR⟩
      simp only [ensureNetVmIps]
      by_cases hv : getIpVersion env ip = rpv
      · rw [if_pos hv, ih]
        rfl
      · rw [if_neg hv]
        exact ih (k, sE, sR)

theorem ensureNetVmLoop_routes (env : Env) (rpv : Nat) :
    ∀ (ports : List PortRow) (acc : Kernel × List String × List (Cidr × IpRule)),
    (ensureNetVmLoop env rpv acc ports).1.routes = acc.1.routes := by
  intro ports
  induction ports with
  | nil => intro acc; rfl
  | cons port rest ih =>
      intro acc
      simp only [ensureNetVmLoop]
      by_cases hskip : (port.type ≠ OVN_VM_VIF_PORT_TYPE ∧
          port.type ≠ OVN_VIRTUAL_VIF_PORT_TYPE) ∨
          (port.type = OVN_VM_VIF_PORT_TYPE ∧ port.chassis = [])
      · rw [if_pos hskip]
        exact ih acc
      · rw [if_neg hskip]
        cases tenantPortIps port.mac0 with
        | none => exact ih acc
        | some ips => rw [ih, ensureNetVmIps_routes]

theorem subnetVmIps_routes (env : Env) (ipv : Nat) :
    ∀ (ips : List String) (k : Kernel), (subnetVmIps env ipv k ips).routes = k.routes := by
  intro ips
  induction ips with
  | nil => intro k; rfl
  | cons ip rest ih =>
      intro k
      simp only [subnetVmIps]
      by_cases hv : getIpVersion env ip = ipv
      · rw [if_pos hv, ih]
        rfl
      · rw [if_neg hv]
        exact ih k

theorem subnetVmLoop_routes (env : Env) (ipv : Nat) :
    ∀ (ports : List PortRow) (k : Kernel),
    (subnetVmLoop env ipv k ports).routes = k.routes := by
  intro ports
  induction ports with
  | nil => intro k; rfl
  | cons port rest ih =>
      intro k
      simp only [subnetVmLoop]
      by_cases hskip : port.type ≠ OVN_VM_VIF_PORT_TYPE ∧
          port.type ≠ OVN_VIRTUAL_VIF_PORT_TYPE
      · rw [if_pos hskip]
        exact ih k
      · rw [if_neg hskip]
        cases tenantPortIps port.mac0 with
        | none => exact ih k
        | some ips => rw [ih, subnetVmIps_routes]

/-- A new route produced by `ensure_network_exposed` comes from the
gateway-route selection over the stripped gateway IPs and the stripped
LRP address. -/
theorem ensure_network_exposed_new_routes {env : Env} {a : Agent} {k : Kernel}
    {rp : PortRow} {gw : CrLrpInfo} {snapE : List String}
    {snapR : List (Cidr × IpRule)} {a' : Agent} {k' : Kernel} {sE : List String}
    {sR : List (Cidr × IpRule)}
    (h : ensure_network_exposed env a k rp gw snapE snapR = .ok (a', k', sE, sR)) :
    ∀ x ∈ k'.routes, x ∈ k.routes ∨
      ∃ rpi, (pySplit ' ' rp.mac0).get? 1 = some rpi ∧
        x.addr = stripMask rpi ∧
        ∃ g ∈ gw.ips.map stripMask, x.via = some g ∧
          getIpVersion env g = getIpVersion env rpi := by
  unfold ensure_network_exposed at h
  cases hm : (pySplit ' ' rp.mac0).get? 1 with
  | none =>
      rw [hm] at h
      cases h
      exact fun x hx => .inl hx
  | some rpi =>
      rw [hm] at h
      dsimp only at h
      by_cases hgw : stripMask rpi ∈ List.map stripMask gw.ips
      · rw [if_pos hgw] at h
        cases h
        exact fun x hx => .inl hx
      · rw [if_neg hgw] at h
        cases hbr : get_bridge_for_datapath env (lrpsAdd a rp.logical_port)
            gw.provider_datapath with
        | error e => rw [hbr, error_bind] at h; cases h
        | ok rbvl =>
            rw [hbr, ok_bind] at h
            obtain ⟨rb, vl⟩ := rbvl
            dsimp only at h
            cases hbt : bridgeTable (lrpsAdd a rp.logical_port) rb with
            | error e => rw [hbt, error_bind] at h; cases h
            | ok tb =>
                rw [hbt, ok_bind] at h
                obtain ⟨table, b⟩ := tb
                dsimp only at h
                cases hadd : addIpRule env k rpi table b none with
                | error e =>
                    rw [hadd] at h
                    cases e <;> dsimp only at h <;> cases h
                    exact fun x hx => .inl hx
                | ok k1 =>
                    rw [hadd] at h
                    dsimp only at h
                    have hk1 : k1.routes = k.routes := by
                      unfold addIpRule at hadd
                      by_cases hv : env.valid_ip rpi
                      · rw [if_pos hv] at hadd
                        cases hadd
                        rfl
                      · rw [if_neg hv] at hadd
                        cases hadd
                    cases hr : ensureNetGatewayRoute env (stripMask rpi) rpi table b vl
                        (getIpVersion env rpi)
                        (lrpsAdd a rp.logical_port).ovn_routing_tables_routes
                        k1 (List.map stripMask gw.ips) with
                    | error e => rw [hr, error_bind] at h; cases h
                    | ok r =>
                        rw [hr, ok_bind] at h
                        have hnews := ensureNetGatewayRoute_new_routes hr
                        have hfin : k'.routes = r.2.routes := by
                          cases hpe : dsub rp.options "peer" with
                          | error e => rw [hpe, error_bind] at h; cases h
                          | ok peer =>
                              rw [hpe, ok_bind] at h
                              cases hdp : env.sb.get_port_datapath peer with
                              | none => rw [hdp] at h; cases h; rfl
                              | some dp =>
                                  rw [hdp] at h
                                  dsimp only at h
                                  cases h
                                  rw [ensureNetVmLoop_routes]
                        intro x hx
                        rw [hfin] at hx
                        rcases hnews x hx with hx' | ⟨h1, g, hg, h2, h3⟩
                        · rw [hk1] at hx'
                          exact .inl hx'
                        · exact .inr ⟨rpi, rfl, h1, g, hg, h2, h3⟩

/-- A new route produced by `expose_subnet` comes from the gateway-route
selection over the stripped CR-LRP IPs and the stripped subnet CIDR. -/
theorem expose_subnet_new_routes {env : Env} {a : Agent} {k : Kernel}
    {ip : String} {row : PortRow} {a' : Agent} {k' : Kernel}
    (h : expose_subnet env a k ip row = .ok (a', k')) :
    ∀ x ∈ k'.routes, x ∈ k.routes ∨
      (x.addr = stripMask ip ∧
        ∃ cr info, env.sb.is_router_gateway_on_chassis row.datapath env.chassis = some cr ∧
          dget (lrpsAdd a row.logical_port).ovn_local_cr_lrps cr = some info ∧
          ∃ g ∈ info.ips.map stripMask, x.via = some g ∧
            getIpVersion env g = getIpVersion env ip) := by
  unfold expose_subnet at h
  by_cases htn : ¬ env.expose_tenant_networks
  · rw [if_pos htn] at h
    cases h
    exact fun x hx => .inl hx
  · rw [if_neg htn] at h
    cases hcr : env.sb.is_router_gateway_on_chassis row.datapath env.chassis with
    | none =>
        rw [hcr] at h
        cases h
        exact fun x hx => .inl hx
    | some cr =>
        rw [hcr] at h
        dsimp only at h
        cases hin : dget (lrpsAdd a row.logical_port).ovn_local_cr_lrps cr with
        | none =>
            rw [hin] at h
            cases h
            exact fun x hx => .inl hx
        | some info =>
            rw [hin] at h
            try dsimp only at h
            cases hbr : get_bridge_for_datapath env (lrpsAdd a row.logical_port)
                info.provider_datapath with
            | error e => rw [hbr, error_bind] at h; cases h
            | ok rbvl =>
                rw [hbr, ok_bind] at h
                obtain ⟨rb, vl⟩ := rbvl
                dsimp only at h
                cases hbt : bridgeTable (lrpsAdd a row.logical_port) rb with
                | error e => rw [hbt, error_bind] at h; cases h
                | ok tb =>
                    rw [hbt, ok_bind] at h
                    obtain ⟨table, b⟩ := tb
                    dsimp only at h
                    cases hlg : addIpRuleLogged env k ip table b with
                    | error e => rw [hlg, error_bind] at h; cases h
                    | ok k1 =>
                        rw [hlg, ok_bind] at h
                        have hk1r : k1.routes = k.routes := by
                          unfold addIpRuleLogged addIpRule at hlg
                          by_cases hv : env.valid_ip ip
                          · rw [if_pos hv] at hlg
                            dsimp only at hlg
                            cases hlg
                            rfl
                          · rw [if_neg hv] at hlg
                            dsimp only at hlg
                            cases hlg
                            rfl
                        try dsimp only at h
                        cases hr : ensureNetGatewayRoute env (stripMask ip) ip table b vl
                            (getIpVersion env ip)
                            (lrpsAdd a row.logical_port).ovn_routing_tables_routes k1
                            (List.map stripMask info.ips) with
                        | error e => rw [hr, error_bind] at h; cases h
                        | ok r =>
                            rw [hr, ok_bind] at h
                            have hnews := ensureNetGatewayRoute_new_routes hr
                            have hfin : k'.routes = r.2.routes := by
                              cases hpe : dsub row.options "peer" with
                              | error e => rw [hpe, error_bind] at h; cases h
                              | ok peer =>
                                  rw [hpe, ok_bind] at h
                                  cases hdp : env.sb.get_port_datapath peer with
                                  | none => rw [hdp] at h; cases h; rfl
                                  | some dp =>
                                      rw [hdp] at h
                                      dsimp only at h
                                      cases h
                                      rw [subnetVmLoop_routes]
                            intro x hx
                            rw [hfin] at hx
                            rcases hnews x hx with hx' | ⟨h1, g, hg, h2, h3⟩
                            · rw [hk1r] at hx'
                              exact .inl hx'
                            · exact .inr ⟨h1, cr, info, rfl, hin, g, hg, h2, h3⟩

/-- C6: every route `_ensure_network_exposed` or `expose_subnet` adds
has a `via` gateway of the same IP family as its destination address,
and the gateway-route selection adds no route at all when no gateway IP
of the right family exists. -/
theorem tenant_route_family {env : Env} {a : Agent} {k : Kernel} :
    (∀ rp gw snapE snapR a' k' sE sR,
      ensure_network_exposed env a k rp gw snapE snapR = .ok (a', k', sE, sR) →
      ∀ x ∈ k'.routes, x ∉ k.routes → ∀ g, x.via = some g →
        env.ip_version g = env.ip_version x.addr) ∧
    (∀ ip row a' k', expose_subnet env a k ip row = .ok (a', k') →
      ∀ x ∈ k'.routes, x ∉ k.routes → ∀ g, x.via = some g →
        env.ip_version g = env.ip_version x.addr) ∧
    (∀ ri rpi table b vl rpv st gws, (∀ g ∈ gws, getIpVersion env g ≠ rpv) →
      ensureNetGatewayRoute env ri rpi table b vl rpv st k gws = .ok (st, k)) := by
  refine ⟨?_, ?_, ?_⟩
  · intro rp gw snapE snapR a' k' sE sR h x hx hnx g hvia
    rcases ensure_network_exposed_new_routes h x hx with hx' | ⟨rpi, _, haddr, g', hg', hvia', hfam⟩
    · exact absurd hx' hnx
    · rw [hvia] at hvia'
      injection hvia' with hgg
      subst hgg
      obtain ⟨orig, _, horig⟩ := List.mem_map.mp hg'
      have hgstrip : stripMask g = g := by rw [← horig, stripMask_idem]
      have h1 : env.ip_version g = getIpVersion env rpi := by
        rw [← hfam, getIpVersion, hgstrip]
      rw [h1, haddr]
      rfl
  · intro ip row a' k' h x hx hnx g hvia
    rcases expose_subnet_new_routes h x hx with hx' | ⟨haddr, cr, info, _, _, g', hg', hvia', hfam⟩
    · exact absurd hx' hnx
    · rw [hvia] at hvia'
      injection hvia' with hgg
      subst hgg
      obtain ⟨orig, _, horig⟩ := List.mem_map.mp hg'
      have hgstrip : stripMask g = g := by rw [← horig, stripMask_idem]
      have h1 : env.ip_version g = getIpVersion env ip := by
        rw [← hfam, getIpVersion, hgstrip]
      rw [h1, haddr]
      rfl
  · intro ri rpi table b vl rpv st gws hno
    exact ensureNetGatewayRoute_no_match hno

/-- C6 witness: a concrete exercise of the no-matching-family clause. -/
theorem tenant_route_family_witness :
    (∀ g ∈ ["fe80::1"], getIpVersion env0 g ≠ 4) ∧
    ensureNetGatewayRoute env0 "10.1.0.0" "10.1.0.0/24" 200 "br-ex" none 4 []
      kernel0 ["fe80::1"] = .ok ([], kernel0) :=
  ⟨by decide,
   (@tenant_route_family env0 agent0 kernel0).2.2
     "10.1.0.0" "10.1.0.0/24" 200 "br-ex" none 4 [] ["fe80::1"] (by decide)⟩

/-! ## Claim C2 infrastructure: which errors can escape. -/

/-- The result does not propagate `InvalidPortIP`. -/
def NoInv {α : Type} (x : Except PyErr α) : Prop := x ≠ .error .invalidPortIP

theorem noInv_ok {α : Type} (x : α) : NoInv (.ok x : Except PyErr α) := fun hc =>
  Except.noConfusion hc

theorem noInv_keyError {α : Type} : NoInv (.error .keyError : Except PyErr α) := fun hc => by
  injection hc with h
  cases h

theorem noInv_indexError {α : Type} : NoInv (.error .indexError : Except PyErr α) := fun hc => by
  injection hc with h
  cases h

theorem noInv_unboundLocal {α : Type} : NoInv (.error .unboundLocal : Except PyErr α) := fun hc => by
  injection hc with h
  cases h

theorem noInv_bind {α β : Type} {x : Except PyErr α} {f : α → Except PyErr β}
    (hx : NoInv x) (hf : ∀ a, NoInv (f a)) : NoInv (x >>= f) := by
  cases x with
  | error e =>
      rw [error_bind]
      intro hc
      injection hc with h
      exact hx (by rw [h])
  | ok a =>
      rw [ok_bind]
      exact hf a

theorem noInv_dsub {α : Type} (d : List (String × α)) (k : String) : NoInv (dsub d k) := by
  unfold dsub
  cases dget d k with
  | some v => exact noInv_ok v
  | none => exact noInv_keyError

theorem noInv_maskIdx (s : String) : NoInv (maskIdx s) := by
  unfold maskIdx
  cases (pySplit '/' s).get? 1 with
  | some m => exact noInv_ok m
  | none => exact noInv_indexError

theorem noInv_map {α β : Type} {x : Except PyErr α} (f : α → β)
    (hx : NoInv x) : NoInv (x.map f) := by
  cases x with
  | error e =>
      intro hc
      injection hc with h
      exact hx (by rw [h])
  | ok a => exact noInv_ok (f a)

theorem noInv_get_bridge_for_datapath (env : Env) (a : Agent) (dp : String) :
    NoInv (get_bridge_for_datapath env a dp) := by
  unfold get_bridge_for_datapath
  rcases env.sb.get_network_name_and_tag dp (dkeys a.ovn_bridge_mappings) with ⟨_ | n, _ | ⟨t, ts⟩⟩
  · exact noInv_ok _
  · exact noInv_ok _
  · exact noInv_map _ (noInv_dsub _ _)
  · exact noInv_map _ (noInv_dsub _ _)

theorem noInv_bridgeTable (a : Agent) (rb : Option String) : NoInv (bridgeTable a rb) := by
  unfold bridgeTable
  cases rb with
  | none => exact noInv_keyError
  | some b => exact noInv_map _ (noInv_dsub _ _)

/-- `addIpRule` fails only with `InvalidPortIP`. -/
theorem addIpRule_error {env : Env} {k : Kernel} {ip : String} {table : Nat}
    {dev : String} {lladdr : Option String} {e : PyErr}
    (h : addIpRule env k ip table dev lladdr = .error e) : e = .invalidPortIP := by
  unfold addIpRule at h
  by_cases hv : env.valid_ip ip
  · rw [if_pos hv] at h
    cases h
  · rw [if_neg hv] at h
    injection h with h
    exact h.symm

/-- The logged-and-continue rule add of `expose_subnet` never fails. -/
theorem addIpRuleLogged_ok (env : Env) (k : Kernel) (ip : String) (table : Nat)
    (dev : String) : ∃ k1, addIpRuleLogged env k ip table dev = .ok k1 := by
  unfold addIpRuleLogged
  cases hadd : addIpRule env k ip table dev none with
  | error e =>
      have := addIpRule_error hadd
      subst this
      exact ⟨k, rfl⟩
  | ok k1 => exact ⟨k1, rfl⟩

theorem noInv_ensureNetGatewayRoute (env : Env) (ri rpi : String) (table : Nat)
    (b : String) (vl : Option Nat) (rpv : Nat) (st : List (String × List Route))
    (k : Kernel) (gws : List String) :
    NoInv (ensureNetGatewayRoute env ri rpi table b vl rpv st k gws) := by
  induction gws with
  | nil => exact noInv_ok _
  | cons g rest ih =>
      unfold ensureNetGatewayRoute
      split
      · exact noInv_bind (noInv_maskIdx _) (fun m => noInv_ok _)
      · exact ih

theorem noInv_removeNetGatewayRoute (env : Env) (ri rpi : String) (table : Nat)
    (b : String) (vl : Option Nat) (rpv : Nat) (st : List (String × List Route))
    (k : Kernel) (gws : List String) :
    NoInv (removeNetGatewayRoute env ri rpi table b vl rpv st k gws) := by
  induction gws with
  | nil => exact noInv_ok _
  | cons g rest ih =>
      unfold removeNetGatewayRoute
      split
      · exact noInv_bind (noInv_maskIdx _) (fun m => noInv_ok _)
      · exact ih

theorem noInv_exposeIpRulesLoop (env : Env) (rb : Option String) (vlan : Option Nat) :
    ∀ (ips : List String) (a : Agent) (k : Kernel),
    NoInv (exposeIpRulesLoop env rb vlan a k ips) := by
  intro ips
  induction ips with
  | nil => intro a k; exact noInv_ok _
  | cons ip rest ih =>
      intro a k
      unfold exposeIpRulesLoop
      apply noInv_bind (noInv_bridgeTable _ _)
      intro tb
      obtain ⟨table, b⟩ := tb
      dsimp only
      cases hadd : addIpRule env k ip table b none with
      | error e =>
          have := addIpRule_error hadd
          subst this
          exact noInv_ok _
      | ok k1 => exact ih _ _

theorem noInv_exposeIpCrLoop (env : Env) (rb : Option String) (vlan : Option Nat)
    (lladdr : String) :
    ∀ (ips : List String) (a : Agent) (k : Kernel),
    NoInv (exposeIpCrLoop env rb vlan lladdr a k ips) := by
  intro ips
  induction ips with
  | nil => intro a k; exact noInv_ok _
  | cons ip rest ih =>
      intro a k
      unfold exposeIpCrLoop
      apply noInv_bind (noInv_bridgeTable _ _)
      intro tb
      obtain ⟨table, b⟩ := tb
      dsimp only
      cases hadd : addIpRule env k (stripMask ip) table b (some lladdr) with
      | error e =>
          have := addIpRule_error hadd
          subst this
          exact noInv_ok _
      | ok k1 => exact ih _ _

theorem noInv_ensure_network_exposed (env : Env) (a : Agent) (k : Kernel)
    (rp : PortRow) (gw : CrLrpInfo) (snapE : List String)
    (snapR : List (Cidr × IpRule)) :
    NoInv (ensure_network_exposed env a k rp gw snapE snapR) := by
  unfold ensure_network_exposed
  cases (pySplit ' ' rp.mac0).get? 1 with
  | none => exact noInv_ok _
  | some rpi =>
      dsimp only
      split
      · exact noInv_ok _
      · apply noInv_bind (noInv_get_bridge_for_datapath _ _ _)
        intro rbvl
        obtain ⟨rb, vl⟩ := rbvl
        dsimp only
        apply noInv_bind (noInv_bridgeTable _ _)
        intro tb
        obtain ⟨table, b⟩ := tb
        dsimp only
        cases hadd : addIpRule env k rpi table b none with
        | error e =>
            have := addIpRule_error hadd
            subst this
            exact noInv_ok _
        | ok k1 =>
            apply noInv_bind (noInv_ensureNetGatewayRoute _ _ _ _ _ _ _ _ _ _)
            intro r
            apply noInv_bind (noInv_dsub _ _)
            intro peer
            cases env.sb.get_port_datapath peer with
            | none => exact noInv_ok _
            | some dp => exact noInv_ok _

theorem noInv_crTenantLoop (env : Env) (lp : String) :
    ∀ (lrps : List PortRow) (a : Agent) (k : Kernel),
    NoInv (crTenantLoop env lp a k lrps) := by
  intro lrps
  induction lrps with
  | nil => intro a k; exact noInv_ok _
  | cons lrp rest ih =>
      intro a k
      unfold crTenantLoop
      split
      · exact ih _ _
      · apply noInv_bind (noInv_dsub _ _)
        intro info
        apply noInv_bind (noInv_ensure_network_exposed _ _ _ _ _ _ _)
        intro r
        exact ih _ _

theorem noInv_expose_ip_inner (env : Env) (a : Agent) (k : Kernel)
    (ips : List String) (row : PortRow) (ap : Option String) :
    NoInv (expose_ip_inner env a k ips row ap) := by
  unfold expose_ip_inner
  split
  · apply noInv_bind (noInv_get_bridge_for_datapath _ _ _)
    intro rbvl
    obtain ⟨rb, vl⟩ := rbvl
    dsimp only
    exact noInv_bind (noInv_exposeIpRulesLoop _ _ _ _ _ _) (fun r => noInv_ok _)
  · split
    · cases env.sb.get_fip_associated row.logical_port with
      | none => exact noInv_ok _
      | some fip =>
          dsimp only
          apply noInv_bind (noInv_get_bridge_for_datapath _ _ _)
          intro rbvl
          obtain ⟨rb, vl⟩ := rbvl
          dsimp only
          apply noInv_bind (noInv_bridgeTable _ _)
          intro tb
          obtain ⟨table, b⟩ := tb
          dsimp only
          cases hadd : addIpRule env (addIpsToDev k [fip.1]) fip.1 table b none with
          | error e =>
              have := addIpRule_error hadd
              subst this
              exact noInv_ok _
          | ok k1 => exact noInv_ok _
    · split
      · cases ap with
        | none => exact noInv_ok _
        | some apv =>
            dsimp only
            split
            · apply noInv_bind (noInv_get_bridge_for_datapath _ _ _)
              intro rbvl
              obtain ⟨rb, vl⟩ := rbvl
              dsimp only
              exact noInv_bind (noInv_exposeIpRulesLoop _ _ _ _ _ _) (fun r => noInv_ok _)
            · exact noInv_ok _
      · split
        · cases env.sb.get_fip_associated row.logical_port with
          | none => exact noInv_ok _
          | some fip =>
              dsimp only
              apply noInv_bind (noInv_get_bridge_for_datapath _ _ _)
              intro rbvl
              obtain ⟨rb, vl⟩ := rbvl
              dsimp only
              apply noInv_bind (noInv_exposeIpCrLoop _ _ _ _ _ _ _)
              intro r
              split
              · exact noInv_ok _
              · split
                · exact noInv_bind (noInv_crTenantLoop _ _ _ _ _) (fun t => noInv_ok _)
                · exact noInv_ok _
        · exact noInv_ok _

theorem noInv_remove_network_exposed (env : Env) (a : Agent) (k : Kernel)
    (rp : PortRow) (gw : CrLrpInfo) :
    NoInv (remove_network_exposed env a k rp gw) := by
  unfold remove_network_exposed
  cases (pySplit ' ' rp.mac0).get? 1 with
  | none => exact noInv_ok _
  | some rpi =>
      dsimp only
      split
      · exact noInv_ok _
      · apply noInv_bind (noInv_get_bridge_for_datapath _ _ _)
        intro rbvl
        obtain ⟨rb, vl⟩ := rbvl
        dsimp only
        apply noInv_bind (noInv_bridgeTable _ _)
        intro tb
        obtain ⟨table, b⟩ := tb
        dsimp only
        apply noInv_bind (noInv_removeNetGatewayRoute _ _ _ _ _ _ _ _ _ _)
        intro r
        cases r.2.2 with
        | none => exact noInv_unboundLocal
        | some net => exact noInv_ok _

theorem noInv_withdrawIpRulesLoop (env : Env) (rb : Option String) (vlan : Option Nat) :
    ∀ (ips : List String) (a : Agent) (k : Kernel),
    NoInv (withdrawIpRulesLoop env rb vlan a k ips) := by
  intro ips
  induction ips with
  | nil => intro a k; exact noInv_ok _
  | cons ip rest ih =>
      intro a k
      unfold withdrawIpRulesLoop
      apply noInv_bind (noInv_bridgeTable _ _)
      intro tb
      obtain ⟨table, b⟩ := tb
      dsimp only
      exact ih _ _

theorem noInv_withdrawIpCrLoop (env : Env) (rb : Option String) (vlan : Option Nat)
    (lladdr dp : String) :
    ∀ (ips : List String) (a : Agent) (k : Kernel),
    NoInv (withdrawIpCrLoop env rb vlan lladdr dp a k ips) := by
  intro ips
  induction ips with
  | nil => intro a k; exact noInv_ok _
  | cons ip rest ih =>
      intro a k
      unfold withdrawIpCrLoop
      apply noInv_bind (noInv_bridgeTable _ _)
      intro tb
      obtain ⟨table, b⟩ := tb
      dsimp only
      exact ih _ _

theorem noInv_withdrawCrTenantLoop (env : Env) (lp : String) :
    ∀ (lrps : List PortRow) (a : Agent) (k : Kernel),
    NoInv (withdrawCrTenantLoop env lp a k lrps) := by
  intro lrps
  induction lrps with
  | nil => intro a k; exact noInv_ok _
  | cons lrp rest ih =>
      intro a k
      unfold withdrawCrTenantLoop
      split
      · exact ih _ _
      · cases dget a.ovn_local_cr_lrps lp with
        | some info =>
            dsimp only
            apply noInv_bind (noInv_remove_network_exposed _ _ _ _ _)
            intro r
            exact ih _ _
        | none => exact ih _ _

theorem noInv_withdraw_ip (env : Env) (a : Agent) (k : Kernel)
    (ips : List String) (row : PortRow) (ap : Option String) :
    NoInv (withdraw_ip env a k ips row ap) := by
  unfold withdraw_ip
  split
  · apply noInv_bind (noInv_get_bridge_for_datapath _ _ _)
    intro rbvl
    obtain ⟨rb, vl⟩ := rbvl
    dsimp only
    exact noInv_withdrawIpRulesLoop _ _ _ _ _ _
  · split
    · cases env.sb.get_fip_associated row.logical_port with
      | none => exact noInv_ok _
      | some fip =>
          dsimp only
          apply noInv_bind (noInv_get_bridge_for_datapath _ _ _)
          intro rbvl
          obtain ⟨rb, vl⟩ := rbvl
          dsimp only
          exact noInv_withdrawIpRulesLoop _ _ _ _ _ _
    · split
      · cases ap with
        | none => exact noInv_ok _
        | some apv =>
            dsimp only
            split
            · apply noInv_bind (noInv_get_bridge_for_datapath _ _ _)
              intro rbvl
              obtain ⟨rb, vl⟩ := rbvl
              dsimp only
              exact noInv_withdrawIpRulesLoop _ _ _ _ _ _
            · exact noInv_ok _
      · split
        · cases (dget a.ovn_local_cr_lrps row.logical_port).map
              CrLrpInfo.provider_datapath with
          | none => exact noInv_ok _
          | some dp =>
              dsimp only
              apply noInv_bind (noInv_get_bridge_for_datapath _ _ _)
              intro rbvl
              obtain ⟨rb, vl⟩ := rbvl
              dsimp only
              apply noInv_bind (noInv_withdrawIpCrLoop _ _ _ _ _ _ _ _)
              intro r
              exact noInv_bind (noInv_withdrawCrTenantLoop _ _ _ _ _) (fun t => noInv_ok _)
        · exact noInv_ok _

theorem noInv_expose_subnet (env : Env) (a : Agent) (k : Kernel)
    (ip : String) (row : PortRow) :
    NoInv (expose_subnet env a k ip row) := by
  unfold expose_subnet
  split
  · exact noInv_ok _
  · cases env.sb.is_router_gateway_on_chassis row.datapath env.chassis with
    | none => exact noInv_ok _
    | some cr =>
        dsimp only
        cases dget (lrpsAdd a row.logical_port).ovn_local_cr_lrps cr with
        | none => exact noInv_ok _
        | some info =>
            dsimp only
            apply noInv_bind (noInv_get_bridge_for_datapath _ _ _)
            intro rbvl
            obtain ⟨rb, vl⟩ := rbvl
            dsimp only
            apply noInv_bind (noInv_bridgeTable _ _)
            intro tb
            obtain ⟨table, b⟩ := tb
            dsimp only
            obtain ⟨k1, hk1⟩ := addIpRuleLogged_ok env k ip table b
            rw [hk1, ok_bind]
            apply noInv_bind (noInv_ensureNetGatewayRoute _ _ _ _ _ _ _ _ _ _)
            intro r
            apply noInv_bind (noInv_dsub _ _)
            intro peer
            cases env.sb.get_port_datapath peer with
            | none => exact noInv_ok _
            | some dp => exact noInv_ok _

theorem noInv_withdraw_subnet (env : Env) (a : Agent) (k : Kernel)
    (ip : String) (row : PortRow) :
    NoInv (withdraw_subnet env a k ip row) := by
  unfold withdraw_subnet
  split
  · exact noInv_ok _
  · cases env.sb.is_router_gateway_on_chassis row.datapath env.chassis with
    | none => exact noInv_ok _
    | some cr =>
        dsimp only
        cases dget (lrpsRemove a row.logical_port).ovn_local_cr_lrps cr with
        | none => exact noInv_ok _
        | some info =>
            dsimp only
            apply noInv_bind (noInv_get_bridge_for_datapath _ _ _)
            intro rbvl
            obtain ⟨rb, vl⟩ := rbvl
            dsimp only
            apply noInv_bind (noInv_bridgeTable _ _)
            intro tb
            obtain ⟨table, b⟩ := tb
            dsimp only
            apply noInv_bind (noInv_removeNetGatewayRoute _ _ _ _ _ _ _ _ _ _)
            intro r
            cases r.2.2 with
            | none => exact noInv_unboundLocal
            | some net => exact noInv_ok _

theorem noInv_ensure_port_exposed (env : Env) (a : Agent) (k : Kernel)
    (port : PortRow) (snapE : List String) (snapR : List (Cidr × IpRule)) :
    NoInv (ensure_port_exposed env a k port snapE snapR) := by
  unfold ensure_port_exposed
  split
  · exact noInv_ok _
  · cases portRowIps port.mac0 with
    | none => exact noInv_ok _
    | some port_ips =>
        dsimp only
        exact noInv_bind (noInv_expose_ip_inner _ _ _ _ _ _) (fun r => noInv_ok _)

theorem noInv_ensure_cr_lrp_ports_exposed (env : Env) (a : Agent) (k : Kernel)
    (cr : String) (snapE : List String) (snapR : List (Cidr × IpRule)) :
    NoInv (ensure_cr_lrp_ports_exposed env a k cr snapE snapR) := by
  unfold ensure_cr_lrp_ports_exposed
  split
  · split
    · exact noInv_ok _
    · exact noInv_bind (noInv_expose_ip_inner _ _ _ _ _ _) (fun r => noInv_ok _)

theorem noInv_syncBridgeLoop (env : Env) :
    ∀ (bms : List String) (acc : Agent × List (String × List Route)),
    NoInv (syncBridgeLoop env acc bms) := by
  intro bms
  induction bms with
  | nil => intro acc; exact noInv_ok _
  | cons bm rest ih =>
      intro ⟨a, extra⟩
      unfold syncBridgeLoop
      split
      · exact noInv_bind (noInv_ok _) (fun y => ih _)
      · exact noInv_bind noInv_indexError (fun y => ih _)

theorem noInv_syncPortsLoop (env : Env) :
    ∀ (ports : List PortRow) (acc : Agent × Kernel × List String × List (Cidr × IpRule)),
    NoInv (syncPortsLoop env acc ports) := by
  intro ports
  induction ports with
  | nil => intro acc; exact noInv_ok _
  | cons port rest ih =>
      intro ⟨a, k, sE, sR⟩
      unfold syncPortsLoop
      exact noInv_bind (noInv_ensure_port_exposed _ _ _ _ _ _) (fun r => ih r)

theorem noInv_syncCrLoop (env : Env) :
    ∀ (crs : List String) (acc : Agent × Kernel × List String × List (Cidr × IpRule)),
    NoInv (syncCrLoop env acc crs) := by
  intro crs
  induction crs with
  | nil => intro acc; exact noInv_ok _
  | cons cr rest ih =>
      intro ⟨a, k, sE, sR⟩
      unfold syncCrLoop
      exact noInv_bind (noInv_ensure_cr_lrp_ports_exposed _ _ _ _ _ _) (fun r => ih r)

theorem noInv_syncTenantLrpLoop (env : Env) (info : CrLrpInfo) :
    ∀ (lrps : List PortRow) (acc : Agent × Kernel × List String × List (Cidr × IpRule)),
    NoInv (syncTenantLrpLoop env info acc lrps) := by
  intro lrps
  induction lrps with
  | nil => intro acc; exact noInv_ok _
  | cons lrp rest ih =>
      intro ⟨a, k, sE, sR⟩
      unfold syncTenantLrpLoop
      split
      · exact ih _
      · exact noInv_bind (noInv_ensure_network_exposed _ _ _ _ _ _ _) (fun r => ih r)

theorem noInv_syncTenantLoop (env : Env) :
    ∀ (infos : List CrLrpInfo) (acc : Agent × Kernel × List String × List (Cidr × IpRule)),
    NoInv (syncTenantLoop env acc infos) := by
  intro infos
  induction infos with
  | nil => intro acc; exact noInv_ok _
  | cons info rest ih =>
      intro acc
      unfold syncTenantLoop
      exact noInv_bind (noInv_syncTenantLrpLoop _ _ _ _) (fun r => ih r)

theorem noInv_sync (env : Env) (a : Agent) (k : Kernel) : NoInv (sync env a k) := by
  unfold sync
  apply noInv_bind (noInv_syncBridgeLoop _ _ _)
  intro be
  dsimp only
  apply noInv_bind (noInv_syncPortsLoop _ _ _)
  intro p
  apply noInv_bind (noInv_syncCrLoop _ _ _)
  intro c
  split
  · exact noInv_bind (noInv_syncTenantLoop _ _ _) (fun t => noInv_ok _)
  · exact noInv_bind (noInv_ok _) (fun t => noInv_ok _)

/-! ## Claim C2: no exception propagates (corrected). -/

/-- A southbound view making `provnet` a provider network; nothing else. -/
def sb2 : SB := { sb0 with is_provider_network := fun d => d = "provnet" }

/-- An environment over `sb2` with no bridge mappings cached. -/
def env2 : Env := { env0 with sb := sb2 }

/-- A provider-VM row on the unmapped provider datapath. -/
def row2 : PortRow := ⟨"vm", "provnet", "vm1", "aa:bb 10.0.0.5", ["hv1"], []⟩

/-- C2 counterexample: when the bridge for the datapath cannot be
resolved, `expose_ip` does not skip silently — the routing-table lookup
raises a KeyError that propagates to the caller. -/
theorem expose_ip_keyError_propagates :
    expose_ip env2 agent0 kernel0 ["10.0.0.5"] row2 none = .error .keyError := by
  decide

/-- C2 (amended): no public Exposure Engine method ever propagates
`InvalidPortIP` — it is caught and logged at every `add_ip_rule` call
site — although bookkeeping lookup failures (KeyError, IndexError,
UnboundLocalError) do propagate. -/
theorem ee_methods_no_invalidPortIP (env : Env) (a : Agent) (k : Kernel)
    (ips : List String) (ip : String) (row : PortRow) (ap : Option String) :
    sync env a k ≠ .error .invalidPortIP ∧
    expose_ip env a k ips row ap ≠ .error .invalidPortIP ∧
    withdraw_ip env a k ips row ap ≠ .error .invalidPortIP ∧
    expose_remote_ip env a k ips row ≠ .error .invalidPortIP ∧
    withdraw_remote_ip env a k ips row ≠ .error .invalidPortIP ∧
    expose_subnet env a k ip row ≠ .error .invalidPortIP ∧
    withdraw_subnet env a k ip row ≠ .error .invalidPortIP := by
  refine ⟨noInv_sync env a k, ?_, noInv_withdraw_ip env a k ips row ap, ?_, ?_,
    noInv_expose_subnet env a k ip row, noInv_withdraw_subnet env a k ip row⟩
  · unfold expose_ip
    exact noInv_map _ (noInv_expose_ip_inner env a k ips row ap)
  · unfold expose_remote_ip
    split
    · exact noInv_ok _
    · cases env.sb.get_lrp_port_for_datapath row.datapath with
      | none => exact noInv_ok _
      | some p =>
          dsimp only
          split
          · exact noInv_ok _
          · exact noInv_ok _
  · unfold withdraw_remote_ip
    split
    · exact noInv_ok _
    · cases env.sb.get_lrp_port_for_datapath row.datapath with
      | none => exact noInv_ok _
      | some p =>
          dsimp only
          split
          · exact noInv_ok _
          · exact noInv_ok _

/-! ## Claim C3: a caught InvalidPortIP aborts the whole IP loop
(corrected). -/

/-- A southbound view with a mapped provider network `provnet → pub`. -/
def sb3 : SB :=
  { sb0 with
    is_provider_network := fun d => d = "provnet"
    get_network_name_and_tag := fun d keys =>
      if d = "provnet" ∧ "pub" ∈ keys then (some "pub", []) else (none, []) }

/-- An environment over `sb3` where only `badip` fails rule validation. -/
def env3 : Env := { env0 with sb := sb3, valid_ip := fun s => s ≠ "badip" }

/-- An agent with `pub` mapped to `br-ex` and table 200 assigned. -/
def agent3 : Agent := ⟨[("br-ex", 200)], [("pub", "br-ex")], [], [], []⟩

/-- C3 counterexample: with `ips = [badip, 10.0.0.6]`, the valid second
IP gets neither a rule nor a route — the method returned at the first
`InvalidPortIP` — even though both IPs are on the device. -/
theorem invalid_ip_aborts_rest :
    env3.valid_ip "10.0.0.6" = true ∧
    (expose_ip env3 agent3 kernel0 ["badip", "10.0.0.6"] row2 none).map
        (fun p => (p.2.exposed, p.2.rules, p.2.routes)) =
      .ok (["badip", "10.0.0.6"], [], []) := by
  decide

theorem exposeIpRulesLoop_truncate (env : Env) (b : String) (vl : Option Nat)
    (table : Nat) (bad : String) (post : List String) :
    ∀ (pre : List String) (a : Agent) (k : Kernel),
    dget a.ovn_routing_tables b = some table →
    (∀ ip ∈ pre, env.valid_ip ip = true) → env.valid_ip bad = false →
    ∃ st', exposeIpRulesLoop env (some b) vl a k (pre ++ bad :: post) =
      .ok (stSet a st',
        Kernel.mk k.exposed
          (pre.foldl (fun rs ip => setAdd rs ⟨normCidr env ip, table, b, none⟩) k.rules)
          (pre.foldl (fun rs ip => setAdd rs (mkRoute env ip table b vl none none)) k.routes)
          k.ndp,
        false) := by
  intro pre
  induction pre with
  | nil =>
      intro a k htab hpre hbad
      refine ⟨a.ovn_routing_tables_routes, ?_⟩
      have hbt : bridgeTable a (some b) = .ok (table, b) := by
        simp [bridgeTable, dsub, htab, Except.map]
      simp only [List.nil_append, exposeIpRulesLoop, hbt, ok_bind]
      rw [show addIpRule env k bad table b none = .error .invalidPortIP from by
        simp [addIpRule, hbad]]
      rfl
  | cons ip pre ih =>
      intro a k htab hpre hbad
      have hbt : bridgeTable a (some b) = .ok (table, b) := by
        simp [bridgeTable, dsub, htab, Except.map]
      have hval : env.valid_ip ip = true := hpre ip (List.mem_cons_self _ _)
      simp only [List.cons_append, exposeIpRulesLoop, hbt, ok_bind]
      rw [show addIpRule env k ip table b none =
          .ok { k with rules := setAdd k.rules ⟨normCidr env ip, table, b, none⟩ } from by
        simp [addIpRule, hval]]
      obtain ⟨st', hst'⟩ := ih (stSet a (addIpRoute env a.ovn_routing_tables_routes
          { k with rules := setAdd k.rules ⟨normCidr env ip, table, b, none⟩ }
          ip table b vl none none).1)
        (Kernel.mk k.exposed (setAdd k.rules ⟨normCidr env ip, table, b, none⟩)
          (setAdd k.routes (mkRoute env ip table b vl none none)) k.ndp)
        htab (fun x hx => hpre x (List.mem_cons_of_mem _ hx)) hbad
      exact ⟨st', hst'⟩

/-- C3 (amended): when `add_ip_rule` raises `InvalidPortIP` for one IP
of a provider-VM exposure, the method logs and returns — rules and
routes are kept for the IPs before the malformed one and skipped for it
and every later IP, while all IPs of the list stay on the dummy
device; no exception reaches the caller. -/
theorem expose_ip_invalid_truncates (env : Env) (a : Agent) (k : Kernel)
    (pre post : List String) (bad : String) (row : PortRow)
    (b : String) (vl : Option Nat) (table : Nat)
    (ht : row.type = OVN_VM_VIF_PORT_TYPE ∨ row.type = OVN_VIRTUAL_VIF_PORT_TYPE)
    (hprov : env.sb.is_provider_network row.datapath = true)
    (hb : get_bridge_for_datapath env a row.datapath = .ok (some b, vl))
    (htab : dget a.ovn_routing_tables b = some table)
    (hpre : ∀ ip ∈ pre, env.valid_ip ip = true)
    (hbad : env.valid_ip bad = false) :
    ∃ a', expose_ip env a k (pre ++ bad :: post) row none =
      .ok (a', Kernel.mk
        (addIpsToDev k (pre ++ bad :: post)).exposed
        (pre.foldl (fun rs ip => setAdd rs ⟨normCidr env ip, table, b, none⟩) k.rules)
        (pre.foldl (fun rs ip => setAdd rs (mkRoute env ip table b vl none none)) k.routes)
        k.ndp) := by
  unfold expose_ip expose_ip_inner
  rw [if_pos (show _ ∧ _ from ⟨ht, hprov⟩)]
  obtain ⟨st', hst'⟩ := exposeIpRulesLoop_truncate env b vl table bad post pre a
    (addIpsToDev k (pre ++ bad :: post)) htab hpre hbad
  rw [hb, ok_bind]
  dsimp only
  rw [hst', ok_bind]
  exact ⟨stSet a st', rfl⟩

/-- C3 witness: a concrete valid-invalid-valid list. -/
theorem expose_ip_invalid_truncates_witness :
    ∃ a', expose_ip env3 agent3 kernel0 (["10.0.0.5"] ++ "badip" :: ["10.0.0.7"])
        row2 none =
      .ok (a', Kernel.mk
        (addIpsToDev kernel0 (["10.0.0.5"] ++ "badip" :: ["10.0.0.7"])).exposed
        (["10.0.0.5"].foldl
          (fun rs ip => setAdd rs ⟨normCidr env3 ip, 200, "br-ex", none⟩) kernel0.rules)
        (["10.0.0.5"].foldl
          (fun rs ip => setAdd rs (mkRoute env3 ip 200 "br-ex" none none none))
          kernel0.routes)
        kernel0.ndp) :=
  expose_ip_invalid_truncates env3 agent3 kernel0 ["10.0.0.5"] ["10.0.0.7"] "badip"
    row2 "br-ex" none 200 (.inl rfl) (by decide) (by decide) rfl (by decide) (by decide)

/-! ## Agent-frame lemmas: the reconciliation passes never touch
`ovn_routing_tables` or `ovn_bridge_mappings`. -/

/-- The persistent maps of the agent agree. -/
def MapsEq (a a' : Agent) : Prop :=
  a'.ovn_routing_tables = a.ovn_routing_tables ∧
  a'.ovn_bridge_mappings = a.ovn_bridge_mappings

theorem mapsEq_refl (a : Agent) : MapsEq a a := ⟨rfl, rfl⟩

theorem mapsEq_trans {a b c : Agent} (h1 : MapsEq a b) (h2 : MapsEq b c) : MapsEq a c :=
  ⟨h2.1.trans h1.1, h2.2.trans h1.2⟩

theorem exposeIpRulesLoop_maps (env : Env) (rb : Option String) (vlan : Option Nat) :
    ∀ (ips : List String) (a : Agent) (k : Kernel) {r},
    exposeIpRulesLoop env rb vlan a k ips = .ok r → MapsEq a r.1 := by
  intro ips
  induction ips with
  | nil =>
      intro a k r h
      cases h
      exact mapsEq_refl a
  | cons ip rest ih =>
      intro a k r h
      unfold exposeIpRulesLoop at h
      cases hbt : bridgeTable a rb with
      | error e => rw [hbt, error_bind] at h; cases h
      | ok tb =>
          rw [hbt, ok_bind] at h
          obtain ⟨table, b⟩ := tb
          dsimp only at h
          cases hadd : addIpRule env k ip table b none with
          | error e =>
              rw [hadd] at h
              cases e <;> dsimp only at h <;> cases h
              exact mapsEq_refl a
          | ok k1 =>
              rw [hadd] at h
              dsimp only at h
              have hih := ih _ _ h
              exact ⟨hih.1, hih.2⟩

theorem exposeIpCrLoop_maps (env : Env) (rb : Option String) (vlan : Option Nat)
    (lladdr : String) :
    ∀ (ips : List String) (a : Agent) (k : Kernel) {r},
    exposeIpCrLoop env rb vlan lladdr a k ips = .ok r → MapsEq a r.1 := by
  intro ips
  induction ips with
  | nil =>
      intro a k r h
      cases h
      exact mapsEq_refl a
  | cons ip rest ih =>
      intro a k r h
      unfold exposeIpCrLoop at h
      cases hbt : bridgeTable a rb with
      | error e => rw [hbt, error_bind] at h; cases h
      | ok tb =>
          rw [hbt, ok_bind] at h
          obtain ⟨table, b⟩ := tb
          dsimp only at h
          cases hadd : addIpRule env k (stripMask ip) table b (some lladdr) with
          | error e =>
              rw [hadd] at h
              cases e <;> dsimp only at h <;> cases h
              exact mapsEq_refl a
          | ok k1 =>
              rw [hadd] at h
              dsimp only at h
              have hih := ih _ _ h
              exact ⟨hih.1, hih.2⟩

theorem ensure_network_exposed_maps {env : Env} {a : Agent} {k : Kernel}
    {rp : PortRow} {gw : CrLrpInfo} {snapE : List String}
    {snapR : List (Cidr × IpRule)} {r}
    (h : ensure_network_exposed env a k rp gw snapE snapR = .ok r) : MapsEq a r.1 := by
  unfold ensure_network_exposed at h
  cases hm : (pySplit ' ' rp.mac0).get? 1 with
  | none =>
      rw [hm] at h
      cases h
      exact mapsEq_refl a
  | some rpi =>
      rw [hm] at h
      dsimp only at h
      split at h
      · cases h
        exact mapsEq_refl a
      · cases hbr : get_bridge_for_datapath env (lrpsAdd a rp.logical_port)
            gw.provider_datapath with
        | error e => rw [hbr, error_bind] at h; cases h
        | ok rbvl =>
            rw [hbr, ok_bind] at h
            obtain ⟨rb, vl⟩ := rbvl
            dsimp only at h
            cases hbt : bridgeTable (lrpsAdd a rp.logical_port) rb with
            | error e => rw [hbt, error_bind] at h; cases h
            | ok tb =>
                rw [hbt, ok_bind] at h
                obtain ⟨table, b⟩ := tb
                dsimp only at h
                cases hadd : addIpRule env k rpi table b none with
                | error e =>
                    rw [hadd] at h
                    cases e <;> dsimp only at h <;> cases h
                    exact mapsEq_refl a
                | ok k1 =>
                    rw [hadd] at h
                    dsimp only at h
                    cases hr : ensureNetGatewayRoute env (stripMask rpi) rpi table b vl
                        (getIpVersion env rpi)
                        (lrpsAdd a rp.logical_port).ovn_routing_tables_routes
                        k1 (List.map stripMask gw.ips) with
                    | error e => rw [hr, error_bind] at h; cases h
                    | ok r2 =>
                        rw [hr, ok_bind] at h
                        cases hpe : dsub rp.options "peer" with
                        | error e => rw [hpe, error_bind] at h; cases h
                        | ok peer =>
                            rw [hpe, ok_bind] at h
                            cases hdp : env.sb.get_port_datapath peer with
                            | none =>
                                rw [hdp] at h
                                cases h
                                exact ⟨rfl, rfl⟩
                            | some dp =>
                                rw [hdp] at h
                                dsimp only at h
                                cases h
                                exact ⟨rfl, rfl⟩

theorem crTenantLoop_maps (env : Env) (lp : String) :
    ∀ (lrps : List PortRow) (a : Agent) (k : Kernel) {r},
    crTenantLoop env lp a k lrps = .ok r → MapsEq a r.1 := by
  intro lrps
  induction lrps with
  | nil =>
      intro a k r h
      cases h
      exact mapsEq_refl a
  | cons lrp rest ih =>
      intro a k r h
      unfold crTenantLoop at h
      split at h
      · exact ih _ _ h
      · cases hd : dsub a.ovn_local_cr_lrps lp with
        | error e => rw [hd, error_bind] at h; cases h
        | ok info =>
            rw [hd, ok_bind] at h
            cases hr : ensure_network_exposed env a k lrp info [] [] with
            | error e => rw [hr, error_bind] at h; cases h
            | ok r2 =>
                rw [hr, ok_bind] at h
                exact mapsEq_trans (ensure_network_exposed_maps hr) (ih _ _ h)

theorem expose_ip_inner_maps {env : Env} {a : Agent} {k : Kernel}
    {ips : List String} {row : PortRow} {ap : Option String} {r}
    (h : expose_ip_inner env a k ips row ap = .ok r) : MapsEq a r.1 := by
  unfold expose_ip_inner at h
  split at h
  · cases hbr : get_bridge_for_datapath env a row.datapath with
    | error e => rw [hbr, error_bind] at h; cases h
    | ok rbvl =>
        rw [hbr, ok_bind] at h
        obtain ⟨rb, vl⟩ := rbvl
        dsimp only at h
        cases hl : exposeIpRulesLoop env rb vl a (addIpsToDev k ips) ips with
        | error e => rw [hl, error_bind] at h; cases h
        | ok r2 =>
            rw [hl, ok_bind] at h
            cases h
            exact exposeIpRulesLoop_maps env rb vl ips a _ hl
  · split at h
    · cases hfip : env.sb.get_fip_associated row.logical_port with
      | none => rw [hfip] at h; cases h; exact mapsEq_refl a
      | some fip =>
          rw [hfip] at h
          dsimp only at h
          cases hbr : get_bridge_for_datapath env a fip.2 with
          | error e => rw [hbr, error_bind] at h; cases h
          | ok rbvl =>
              rw [hbr, ok_bind] at h
              obtain ⟨rb, vl⟩ := rbvl
              dsimp only at h
              cases hbt : bridgeTable a rb with
              | error e => rw [hbt, error_bind] at h; cases h
              | ok tb =>
                  rw [hbt, ok_bind] at h
                  obtain ⟨table, b⟩ := tb
                  dsimp only at h
                  cases hadd : addIpRule env (addIpsToDev k [fip.1]) fip.1 table b none with
                  | error e =>
                      rw [hadd] at h
                      cases e <;> dsimp only at h <;> cases h
                      exact mapsEq_refl a
                  | ok k1 =>
                      rw [hadd] at h
                      dsimp only at h
                      cases h
                      exact ⟨rfl, rfl⟩
    · split at h
      · cases ap with
        | none => cases h; exact mapsEq_refl a
        | some apv =>
            dsimp only at h
            split at h
            · cases hbr : get_bridge_for_datapath env a row.datapath with
              | error e => rw [hbr, error_bind] at h; cases h
              | ok rbvl =>
                  rw [hbr, ok_bind] at h
                  obtain ⟨rb, vl⟩ := rbvl
                  dsimp only at h
                  cases hl : exposeIpRulesLoop env rb vl a (addIpsToDev k ips) ips with
                  | error e => rw [hl, error_bind] at h; cases h
                  | ok r2 =>
                      rw [hl, ok_bind] at h
                      cases h
                      exact exposeIpRulesLoop_maps env rb vl ips a _ hl
            · cases h
              exact mapsEq_refl a
      · split at h
        · cases hfip : env.sb.get_fip_associated row.logical_port with
          | none => rw [hfip] at h; cases h; exact mapsEq_refl a
          | some fip =>
              rw [hfip] at h
              dsimp only at h
              cases hbr : get_bridge_for_datapath env (crSet a row.logical_port
                  ⟨row.datapath, fip.2, ips⟩) fip.2 with
              | error e => rw [hbr, error_bind] at h; cases h
              | ok rbvl =>
                  rw [hbr, ok_bind] at h
                  obtain ⟨rb, vl⟩ := rbvl
                  dsimp only at h
                  cases hl : exposeIpCrLoop env rb vl ((pySplit ' ' row.mac0).getD 0 "")
                      (crSet a row.logical_port ⟨row.datapath, fip.2, ips⟩)
                      (addIpsToDev k (List.map stripMask ips)) ips with
                  | error e => rw [hl, error_bind] at h; cases h
                  | ok r2 =>
                      rw [hl, ok_bind] at h
                      have h1 : MapsEq a r2.1 := by
                        have hih := exposeIpCrLoop_maps env rb vl _ ips _ _ hl
                        exact ⟨hih.1, hih.2⟩
                      split at h
                      · cases h
                        exact h1
                      · split at h
                        · cases htl : crTenantLoop env row.logical_port r2.1 r2.2.1
                              (env.sb.get_lrp_ports_for_router row.datapath) with
                          | error e => rw [htl, error_bind] at h; cases h
                          | ok t =>
                              rw [htl, ok_bind] at h
                              cases h
                              exact mapsEq_trans h1 (crTenantLoop_maps env _ _ _ _ htl)
                        · cases h
                          exact h1
        · cases h
          exact mapsEq_refl a

theorem ensure_port_exposed_maps {env : Env} {a : Agent} {k : Kernel}
    {port : PortRow} {snapE : List String} {snapR : List (Cidr × IpRule)} {r}
    (h : ensure_port_exposed env a k port snapE snapR = .ok r) : MapsEq a r.1 := by
  unfold ensure_port_exposed at h
  split at h
  · cases h
    exact mapsEq_refl a
  · cases hpi : portRowIps port.mac0 with
    | none => rw [hpi] at h; cases h; exact mapsEq_refl a
    | some port_ips =>
        rw [hpi] at h
        dsimp only at h
        cases he : expose_ip_inner env a k port_ips port none with
        | error e => rw [he, error_bind] at h; cases h
        | ok r2 =>
            rw [he, ok_bind] at h
            cases h
            exact expose_ip_inner_maps he

theorem ensure_cr_lrp_ports_exposed_maps {env : Env} {a : Agent} {k : Kernel}
    {cr : String} {snapE : List String} {snapR : List (Cidr × IpRule)} {r}
    (h : ensure_cr_lrp_ports_exposed env a k cr snapE snapR = .ok r) : MapsEq a r.1 := by
  unfold ensure_cr_lrp_ports_exposed at h
  split at h
  split at h
  · cases h
    exact mapsEq_refl a
  · cases he : expose_ip_inner env a k _ _ (some cr) with
    | error e => rw [he, error_bind] at h; cases h
    | ok r2 =>
        rw [he, ok_bind] at h
        cases h
        exact expose_ip_inner_maps he

theorem syncPortsLoop_maps (env : Env) :
    ∀ (ports : List PortRow) (acc : Agent × Kernel × List String × List (Cidr × IpRule)) {r},
    syncPortsLoop env acc ports = .ok r → MapsEq acc.1 r.1 := by
  intro ports
  induction ports with
  | nil =>
      intro acc r h
      cases h
      exact mapsEq_refl _
  | cons port rest ih =>
      intro ⟨a, k, sE, sR⟩ r h
      unfold syncPortsLoop at h
      cases he : ensure_port_exposed env a k port sE sR with
      | error e => rw [he, error_bind] at h; cases h
      | ok r2 =>
          rw [he, ok_bind] at h
          exact mapsEq_trans (ensure_port_exposed_maps he) (ih r2 h)

theorem syncCrLoop_maps (env : Env) :
    ∀ (crs : List String) (acc : Agent × Kernel × List String × List (Cidr × IpRule)) {r},
    syncCrLoop env acc crs = .ok r → MapsEq acc.1 r.1 := by
  intro crs
  induction crs with
  | nil =>
      intro acc r h
      cases h
      exact mapsEq_refl _
  | cons cr rest ih =>
      intro ⟨a, k, sE, sR⟩ r h
      unfold syncCrLoop at h
      cases he : ensure_cr_lrp_ports_exposed env a k cr sE sR with
      | error e => rw [he, error_bind] at h; cases h
      | ok r2 =>
          rw [he, ok_bind] at h
          exact mapsEq_trans (ensure_cr_lrp_ports_exposed_maps he) (ih r2 h)

theorem syncTenantLrpLoop_maps (env : Env) (info : CrLrpInfo) :
    ∀ (lrps : List PortRow) (acc : Agent × Kernel × List String × List (Cidr × IpRule)) {r},
    syncTenantLrpLoop env info acc lrps = .ok r → MapsEq acc.1 r.1 := by
  intro lrps
  induction lrps with
  | nil =>
      intro acc r h
      cases h
      exact mapsEq_refl _
  | cons lrp rest ih =>
      intro ⟨a, k, sE, sR⟩ r h
      unfold syncTenantLrpLoop at h
      split at h
      · exact ih _ h
      · cases he : ensure_network_exposed env a k lrp info sE sR with
        | error e => rw [he, error_bind] at h; cases h
        | ok r2 =>
            rw [he, ok_bind] at h
            exact mapsEq_trans (ensure_network_exposed_maps he) (ih r2 h)

theorem syncTenantLoop_maps (env : Env) :
    ∀ (infos : List CrLrpInfo) (acc : Agent × Kernel × List String × List (Cidr × IpRule)) {r},
    syncTenantLoop env acc infos = .ok r → MapsEq acc.1 r.1 := by
  intro infos
  induction infos with
  | nil =>
      intro acc r h
      cases h
      exact mapsEq_refl _
  | cons info rest ih =>
      intro acc r h
      unfold syncTenantLoop at h
      cases he : syncTenantLrpLoop env info acc
          (env.sb.get_lrp_ports_for_router info.router_datapath) with
      | error e => rw [he, error_bind] at h; cases h
      | ok r2 =>
          rw [he, ok_bind] at h
          exact mapsEq_trans (syncTenantLrpLoop_maps env info _ _ he) (ih r2 h)

/-- `ensure_routing_table_for_bridge` keeps every existing table
assignment. -/
theorem ensureRoutingTableForBridge_keeps (env : Env) (T : List (String × Nat))
    (bridge br : String) (t : Nat) (ht : dget T br = some t) :
    dget (ensureRoutingTableForBridge env T bridge).1 br = some t := by
  unfold ensureRoutingTableForBridge
  cases hb : dget T bridge with
  | some v => exact ht
  | none =>
      have hne : bridge ≠ br := fun hEq => by
        rw [hEq, ht] at hb
        cases hb
      dsimp only
      rw [dget_dset_ne _ _ _ _ hne]
      exact ht

/-- The bridge-mapping loop of `sync` keeps every existing table
assignment and never removes a bridge-mapping entry. -/
theorem syncBridgeLoop_keeps (env : Env) :
    ∀ (bms : List String) (acc : Agent × List (String × List Route)) {r},
    syncBridgeLoop env acc bms = .ok r →
    (∀ br t, dget acc.1.ovn_routing_tables br = some t →
      dget r.1.ovn_routing_tables br = some t) ∧
    (∀ n, (dget acc.1.ovn_bridge_mappings n).isSome →
      (dget r.1.ovn_bridge_mappings n).isSome) := by
  intro bms
  induction bms with
  | nil =>
      intro acc r h
      cases h
      exact ⟨fun br t ht => ht, fun n hn => hn⟩
  | cons bm rest ih =>
      intro ⟨a, extra⟩ r h
      unfold syncBridgeLoop at h
      cases hg : (pySplit ':' bm).get? 1 with
      | none =>
          rw [hg] at h
          dsimp only at h
          rw [error_bind] at h
          cases h
      | some bridge =>
          rw [hg] at h
          dsimp only at h
          rw [ok_bind] at h
          try dsimp only at h
          split at h
          · obtain ⟨hT, hM⟩ := ih _ h
            refine ⟨?_, ?_⟩
            · intro br t ht
              exact hT br t (ensureRoutingTableForBridge_keeps env _ bridge br t ht)
            · intro n hn
              apply hM
              show (dget (dset a.ovn_bridge_mappings ((pySplit ':' bm).getD 0 "") bridge)
                n).isSome = true
              by_cases hne : (pySplit ':' bm).getD 0 "" = n
              · rw [hne, dget_dset_self]
                rfl
              · rw [dget_dset_ne _ _ _ _ hne]
                exact hn
          · obtain ⟨hT, hM⟩ := ih _ h
            refine ⟨?_, ?_⟩
            · intro br t ht
              exact hT br t ht
            · intro n hn
              apply hM
              show (dget (dset a.ovn_bridge_mappings ((pySplit ':' bm).getD 0 "") bridge)
                n).isSome = true
              by_cases hne : (pySplit ':' bm).getD 0 "" = n
              · rw [hne, dget_dset_self]
                rfl
              · rw [dget_dset_ne _ _ _ _ hne]
                exact hn

theorem bind_ok_inv {α β : Type} {x : Except PyErr α} {f : α → Except PyErr β} {b : β}
    (h : (x >>= f) = .ok b) : ∃ a, x = .ok a ∧ f a = .ok b := by
  cases x with
  | error e => rw [error_bind] at h; cases h
  | ok a => exact ⟨a, rfl, h⟩

theorem ok_inj {α : Type} {x y : α} (h : (Except.ok x : Except PyErr α) = .ok y) :
    x = y := by
  injection h

/-! ## Claim C9: sync resets the per-sync state and keeps the
persistent maps. -/

/-- C9: `sync` is insensitive to the incoming values of
`ovn_local_cr_lrps`, `ovn_local_lrps` and `ovn_routing_tables_routes`
(they are reset to empty before reconciling), while an existing
routing-table assignment survives unchanged and no bridge-mapping
entry is ever dropped. -/
theorem sync_resets_and_keeps (env : Env) (a : Agent) (k : Kernel)
    (x : List (String × CrLrpInfo)) (y : List String)
    (z : List (String × List Route)) :
    (sync env { a with ovn_local_cr_lrps := x, ovn_local_lrps := y,
                       ovn_routing_tables_routes := z } k = sync env a k) ∧
    (∀ a' k', sync env a k = .ok (a', k') →
      (∀ br t, dget a.ovn_routing_tables br = some t →
        dget a'.ovn_routing_tables br = some t) ∧
      (∀ n, (dget a.ovn_bridge_mappings n).isSome →
        (dget a'.ovn_bridge_mappings n).isSome)) := by
  constructor
  · rfl
  · intro a' k' hres
    unfold sync at hres
    obtain ⟨be, hbl, hres⟩ := bind_ok_inv hres
    have hkeep := syncBridgeLoop_keeps env env.ovs_bridge_mappings _ hbl
    obtain ⟨p, hp, hres⟩ := bind_ok_inv hres
    have hmp : MapsEq be.1 p.1 := syncPortsLoop_maps env _ _ hp
    obtain ⟨c, hc, hres⟩ := bind_ok_inv hres
    have hmc : MapsEq p.1 c.1 := syncCrLoop_maps env _ _ hc
    split at hres
    · obtain ⟨t, htn, hres⟩ := bind_ok_inv hres
      have hmt : MapsEq c.1 t.1 := syncTenantLoop_maps env _ _ htn
      have ha' : t.1 = a' := congrArg Prod.fst (ok_inj hres)
      constructor
      · intro br tb ht
        rw [← ha', hmt.1, hmc.1, hmp.1]
        exact hkeep.1 br tb ht
      · intro n hn
        rw [← ha', hmt.2, hmc.2, hmp.2]
        exact hkeep.2 n hn
    · have ha' : c.1 = a' := congrArg Prod.fst (ok_inj hres)
      constructor
      · intro br tb ht
        rw [← ha', hmc.1, hmp.1]
        exact hkeep.1 br tb ht
      · intro n hn
        rw [← ha', hmc.2, hmp.2]
        exact hkeep.2 n hn

/-- An environment with one configured bridge mapping `pub:br-ex`. -/
def envT9 : Env := { env0 with ovs_bridge_mappings := ["pub:br-ex"] }

/-- An agent with a pre-existing table assignment and bridge mapping. -/
def agent9 : Agent := ⟨[("br-ex", 200)], [("pub", "br-ex")], [], [], []⟩

/-- C9 witness: a concrete sync whose routing-table assignment for
`br-ex` survives. -/
theorem sync_resets_and_keeps_witness :
    (sync envT9 { agent9 with ovn_local_cr_lrps := [("cr-x", ⟨"r", "p", []⟩)],
                              ovn_local_lrps := ["lrp-x"],
                              ovn_routing_tables_routes := [("br-ex", [])] } kernel0 =
      sync envT9 agent9 kernel0) ∧
    ∃ a' k', sync envT9 agent9 kernel0 = .ok (a', k') ∧
      dget a'.ovn_routing_tables "br-ex" = some 200 ∧
      (dget a'.ovn_bridge_mappings "pub").isSome := by
  refine ⟨(sync_resets_and_keeps envT9 agent9 kernel0 _ _ _).1, ?_⟩
  refine ⟨_, _, rfl, ?_, ?_⟩
  · exact ((sync_resets_and_keeps envT9 agent9 kernel0 [] [] []).2 _ _ rfl).1
      "br-ex" 200 rfl
  · exact ((sync_resets_and_keeps envT9 agent9 kernel0 [] [] []).2 _ _ rfl).2
      "pub" rfl

/-! ## Claim C7 infrastructure: add-then-delete cancellation. -/

theorem noSlash_stripMask (s : String) : ∀ c ∈ (stripMask s).data, c ≠ '/' := by
  intro c hc
  have := List.mem_takeWhile_imp hc
  simpa using this

theorem normCidr_noSlash {env : Env} {s : String} (h : ∀ c ∈ s.data, c ≠ '/') :
    normCidr env s =
      ⟨s, if getIpVersion env s = IP_VERSION_6 then "128" else "32"⟩ := by
  unfold normCidr
  rw [maskOpt_noSlash h, stripMask_noSlash h]

theorem setAdd_fresh {α : Type} [DecidableEq α] {l : List α} {x : α} (h : x ∉ l) :
    setAdd l x = l ++ [x] := by
  unfold setAdd
  rw [if_neg h]

theorem foldl_setAdd_append {α : Type} [DecidableEq α] (f : String → α) :
    ∀ (ips : List String) (l : List α), (∀ ip ∈ ips, f ip ∉ l) → (ips.map f).Nodup →
    ips.foldl (fun rs ip => setAdd rs (f ip)) l = l ++ ips.map f := by
  intro ips
  induction ips with
  | nil => intro l _ _; simp
  | cons ip rest ih =>
      intro l hfresh hnd
      simp only [List.map_cons, List.nodup_cons] at hnd
      simp only [List.foldl_cons]
      rw [setAdd_fresh (hfresh ip (List.mem_cons_self _ _))]
      rw [ih (l ++ [f ip]) ?_ hnd.2]
      · simp
      · intro x hx
        simp only [List.mem_append, List.mem_singleton]
        rintro (hxl | hxe)
        · exact hfresh x (List.mem_cons_of_mem _ hx) hxl
        · exact hnd.1 (hxe ▸ List.mem_map_of_mem f hx)

theorem foldl_filter_del {α : Type} [DecidableEq α] (f : String → α) :
    ∀ (ips : List String) (l : List α),
    ips.foldl (fun rs ip => rs.filter (fun x => x ≠ f ip)) l =
      l.filter (fun x => decide (x ∉ ips.map f)) := by
  intro ips
  induction ips with
  | nil => intro l; simp
  | cons ip rest ih =>
      intro l
      simp only [List.foldl_cons]
      rw [ih, List.filter_filter]
      apply List.filter_congr
      intro x _
      by_cases h1 : x = f ip <;> by_cases h2 : x ∈ List.map f rest <;>
        simp [h1, h2]

/-- Adding fresh, duplicate-free items and then deleting them restores
the original list. -/
theorem add_del_cancel {α : Type} [DecidableEq α] (f : String → α)
    (ips : List String) (l : List α) (hfresh : ∀ ip ∈ ips, f ip ∉ l)
    (hnd : (ips.map f).Nodup) :
    ips.foldl (fun rs ip => rs.filter (fun x => x ≠ f ip))
      (ips.foldl (fun rs ip => setAdd rs (f ip)) l) = l := by
  rw [foldl_setAdd_append f ips l hfresh hnd, foldl_filter_del, List.filter_append]
  have h1 : l.filter (fun x => decide (x ∉ ips.map f)) = l := by
    apply List.filter_eq_self.mpr
    intro x hx
    simp only [decide_eq_true_eq]
    intro hmem
    obtain ⟨ip, hip, hfx⟩ := List.mem_map.mp hmem
    exact hfresh ip hip (hfx ▸ hx)
  have h2 : (ips.map f).filter (fun x => decide (x ∉ ips.map f)) = [] := by
    apply List.filter_eq_nil.mpr
    intro x hx
    simp [hx]
  rw [h1, h2, List.append_nil]

theorem exposeIpRulesLoop_allvalid (env : Env) (b : String) (vl : Option Nat)
    (table : Nat) :
    ∀ (ips : List String) (a : Agent) (k : Kernel),
    dget a.ovn_routing_tables b = some table →
    (∀ ip ∈ ips, env.valid_ip ip = true) →
    ∃ st', exposeIpRulesLoop env (some b) vl a k ips =
      .ok (stSet a st', Kernel.mk k.exposed
        (ips.foldl (fun rs ip => setAdd rs ⟨normCidr env ip, table, b, none⟩) k.rules)
        (ips.foldl (fun rs ip => setAdd rs (mkRoute env ip table b vl none none)) k.routes)
        k.ndp, true) := by
  intro ips
  induction ips with
  | nil =>
      intro a k htab hval
      exact ⟨a.ovn_routing_tables_routes, rfl⟩
  | cons ip rest ih =>
      intro a k htab hval
      have hbt : bridgeTable a (some b) = .ok (table, b) := by
        simp [bridgeTable, dsub, htab, Except.map]
      simp only [exposeIpRulesLoop, hbt, ok_bind]
      rw [show addIpRule env k ip table b none =
          .ok { k with rules := setAdd k.rules ⟨normCidr env ip, table, b, none⟩ } from by
        simp [addIpRule, hval ip (List.mem_cons_self _ _)]]
      obtain ⟨st', hst'⟩ := ih (stSet a (addIpRoute env a.ovn_routing_tables_routes
          { k with rules := setAdd k.rules ⟨normCidr env ip, table, b, none⟩ }
          ip table b vl none none).1)
        (Kernel.mk k.exposed (setAdd k.rules ⟨normCidr env ip, table, b, none⟩)
          (setAdd k.routes (mkRoute env ip table b vl none none)) k.ndp)
        htab (fun x hx => hval x (List.mem_cons_of_mem _ hx))
      exact ⟨st', hst'⟩

theorem withdrawIpRulesLoop_spec (env : Env) (b : String) (vl : Option Nat)
    (table : Nat) :
    ∀ (ips : List String) (a : Agent) (k : Kernel),
    dget a.ovn_routing_tables b = some table →
    ∃ st', withdrawIpRulesLoop env (some b) vl a k ips =
      .ok (stSet a st', Kernel.mk k.exposed
        (ips.foldl (fun rs ip =>
          rs.filter (fun x => x ≠ ⟨normCidr env ip, table, b, none⟩)) k.rules)
        (ips.foldl (fun rs ip =>
          rs.filter (fun x => x ≠ mkRoute env ip table b vl none none)) k.routes)
        k.ndp) := by
  intro ips
  induction ips with
  | nil =>
      intro a k htab
      exact ⟨a.ovn_routing_tables_routes, rfl⟩
  | cons ip rest ih =>
      intro a k htab
      have hbt : bridgeTable a (some b) = .ok (table, b) := by
        simp [bridgeTable, dsub, htab, Except.map]
      simp only [withdrawIpRulesLoop, hbt, ok_bind]
      obtain ⟨st', hst'⟩ := ih (stSet a (delIpRoute env a.ovn_routing_tables_routes
          (delIpRule env k ip table b none) ip table b vl none none).1)
        (Kernel.mk k.exposed
          (k.rules.filter (fun x => x ≠ ⟨normCidr env ip, table, b, none⟩))
          (k.routes.filter (fun x => x ≠ mkRoute env ip table b vl none none))
          k.ndp) htab
      exact ⟨st', hst'⟩

theorem exposeIpCrLoop_allvalid (env : Env) (b : String) (vl : Option Nat)
    (lladdr : String) (table : Nat) :
    ∀ (ips : List String) (a : Agent) (k : Kernel),
    dget a.ovn_routing_tables b = some table →
    (∀ ip ∈ ips, env.valid_ip (stripMask ip) = true) →
    ∃ st', exposeIpCrLoop env (some b) vl lladdr a k ips =
      .ok (stSet a st', Kernel.mk k.exposed
        (ips.foldl (fun rs ip =>
          setAdd rs ⟨normCidr env (stripMask ip), table, b, some lladdr⟩) k.rules)
        (ips.foldl (fun rs ip =>
          setAdd rs (mkRoute env (stripMask ip) table b vl none none)) k.routes)
        (ips.foldl (fun nd ip =>
          if getIpVersion env (stripMask ip) = IP_VERSION_6 then
            setAdd nd ⟨stripMask ip, b, vl⟩
          else nd) k.ndp), true) := by
  intro ips
  induction ips with
  | nil =>
      intro a k htab hval
      exact ⟨a.ovn_routing_tables_routes, rfl⟩
  | cons ip rest ih =>
      intro a k htab hval
      have hbt : bridgeTable a (some b) = .ok (table, b) := by
        simp [bridgeTable, dsub, htab, Except.map]
      have ih' : ∀ (st : List (String × List Route)) (k' : Kernel),
          ∃ st', exposeIpCrLoop env (some b) vl lladdr (stSet a st) k' rest =
            .ok (stSet a st', Kernel.mk k'.exposed
              (rest.foldl (fun rs ip =>
                setAdd rs ⟨normCidr env (stripMask ip), table, b, some lladdr⟩) k'.rules)
              (rest.foldl (fun rs ip =>
                setAdd rs (mkRoute env (stripMask ip) table b vl none none)) k'.routes)
              (rest.foldl (fun nd ip =>
                if getIpVersion env (stripMask ip) = IP_VERSION_6 then
                  setAdd nd ⟨stripMask ip, b, vl⟩
                else nd) k'.ndp), true) :=
        fun st k' => ih (stSet a st) k' htab
          (fun x hx => hval x (List.mem_cons_of_mem _ hx))
      simp only [exposeIpCrLoop, hbt, ok_bind, List.foldl_cons]
      rw [show addIpRule env k (stripMask ip) table b (some lladdr) =
          .ok (Kernel.mk k.exposed (setAdd k.rules ⟨normCidr env (stripMask ip), table, b, some lladdr⟩) k.routes k.ndp) from by
        simp [addIpRule, hval ip (List.mem_cons_self _ _)]]
      by_cases hv : getIpVersion env (stripMask ip) = IP_VERSION_6
      · simp only [if_pos hv]
        obtain ⟨st', hst'⟩ := ih' _ _
        exact ⟨st', hst'⟩
      · simp only [if_neg hv]
        obtain ⟨st', hst'⟩ := ih' _ _
        exact ⟨st', hst'⟩

theorem withdrawIpCrLoop_full (env : Env) (b : String) (vl : Option Nat)
    (lladdr dp : String) (table : Nat) :
    ∀ (ips : List String) (a : Agent) (k : Kernel),
    dget a.ovn_routing_tables b = some table →
    (∀ ip ∈ ips, ∀ c ∈ ip.data, c ≠ '/') →
    ∃ st', withdrawIpCrLoop env (some b) vl lladdr dp a k ips =
      .ok (stSet a st', Kernel.mk k.exposed
        (ips.foldl (fun rs ip => rs.filter (fun x => x ≠
          ⟨⟨ip, if getIpVersion env ip = IP_VERSION_6 then "128" else "32"⟩,
            table, b, some lladdr⟩)) k.rules)
        (ips.foldl (fun rs ip =>
          rs.filter (fun x => x ≠ mkRoute env ip table b vl none none)) k.routes)
        (if 1 < ((dvals a.ovn_local_cr_lrps).filter
            (fun p => p.provider_datapath = dp)).length then
          ips.foldl (fun nd ip =>
            if getIpVersion env ip = IP_VERSION_6 then
              nd.filter (fun e => e ≠ ⟨stripMask ip, b, vl⟩)
            else nd) k.ndp
        else k.ndp)) := by
  intro ips
  induction ips with
  | nil =>
      intro a k htab hns
      refine ⟨a.ovn_routing_tables_routes, ?_⟩
      simp only [withdrawIpCrLoop, List.foldl_nil, ite_self]
      rfl
  | cons ip rest ih =>
      intro a k htab hns
      have hbt : bridgeTable a (some b) = .ok (table, b) := by
        simp [bridgeTable, dsub, htab, Except.map]
      have hnsip := hns ip (List.mem_cons_self _ _)
      have hrule : ∀ m : String, (∀ c ∈ m.data, c ≠ '/') →
          normCidr env (ip ++ "/" ++ m) = ⟨ip, m⟩ := by
        intro m hm
        unfold normCidr
        rw [maskOpt_append_mask hnsip hm, stripMask_append_mask m hnsip]
      have h6 : (ip ++ "/128" : String) = ip ++ "/" ++ "128" := by
        rw [String.append_assoc]
        exact congrArg (fun s => ip ++ s) (by decide)
      have h4 : (ip ++ "/32" : String) = ip ++ "/" ++ "32" := by
        rw [String.append_assoc]
        exact congrArg (fun s => ip ++ s) (by decide)
      have hnc6 : normCidr env (ip ++ "/128") = ⟨ip, "128"⟩ := by
        rw [h6]
        exact hrule "128" (by decide)
      have hnc4 : normCidr env (ip ++ "/32") = ⟨ip, "32"⟩ := by
        rw [h4]
        exact hrule "32" (by decide)
      have ih' : ∀ (st : List (String × List Route)) (k' : Kernel),
          ∃ st', withdrawIpCrLoop env (some b) vl lladdr dp (stSet a st) k' rest =
            .ok (stSet a st', Kernel.mk k'.exposed
              (rest.foldl (fun rs ip => rs.filter (fun x => x ≠
                ⟨⟨ip, if getIpVersion env ip = IP_VERSION_6 then "128" else "32"⟩,
                  table, b, some lladdr⟩)) k'.rules)
              (rest.foldl (fun rs ip =>
                rs.filter (fun x => x ≠ mkRoute env ip table b vl none none)) k'.routes)
              (if 1 < ((dvals a.ovn_local_cr_lrps).filter
                  (fun p => p.provider_datapath = dp)).length then
                rest.foldl (fun nd ip =>
                  if getIpVersion env ip = IP_VERSION_6 then
                    nd.filter (fun e => e ≠ ⟨stripMask ip, b, vl⟩)
                  else nd) k'.ndp
              else k'.ndp)) :=
        fun st k' => ih (stSet a st) k' htab
          (fun x hx => hns x (List.mem_cons_of_mem _ hx))
      simp only [withdrawIpCrLoop, hbt, ok_bind, List.foldl_cons]
      by_cases hv : getIpVersion env ip = IP_VERSION_6
      · simp only [if_pos hv]
        by_cases hc : 1 < ((dvals a.ovn_local_cr_lrps).filter
            (fun p => p.provider_datapath = dp)).length
        · simp only [if_pos hc]
          obtain ⟨st', hst'⟩ := ih' _ _
          refine ⟨st', hst'.trans ?_⟩
          rw [if_pos hc, show (⟨⟨ip, "128"⟩, table, b, some lladdr⟩ : IpRule) =
            ⟨normCidr env (ip ++ "/128"), table, b, some lladdr⟩ from by rw [hnc6]]
          rfl
        · simp only [if_neg hc]
          obtain ⟨st', hst'⟩ := ih' _ _
          refine ⟨st', hst'.trans ?_⟩
          rw [if_neg hc, show (⟨⟨ip, "128"⟩, table, b, some lladdr⟩ : IpRule) =
            ⟨normCidr env (ip ++ "/128"), table, b, some lladdr⟩ from by rw [hnc6]]
          rfl
      · simp only [if_neg hv]
        by_cases hc : 1 < ((dvals a.ovn_local_cr_lrps).filter
            (fun p => p.provider_datapath = dp)).length
        · simp only [if_pos hc]
          obtain ⟨st', hst'⟩ := ih' _ _
          refine ⟨st', hst'.trans ?_⟩
          rw [if_pos hc, show (⟨⟨ip, "32"⟩, table, b, some lladdr⟩ : IpRule) =
            ⟨normCidr env (ip ++ "/32"), table, b, some lladdr⟩ from by rw [hnc4]]
          rfl
        · simp only [if_neg hc]
          obtain ⟨st', hst'⟩ := ih' _ _
          refine ⟨st', hst'.trans ?_⟩
          rw [if_neg hc, show (⟨⟨ip, "32"⟩, table, b, some lladdr⟩ : IpRule) =
            ⟨normCidr env (ip ++ "/32"), table, b, some lladdr⟩ from by rw [hnc4]]
          rfl

/-- `setAdd` folded with the identity: fresh duplicate-free addresses
are appended. -/
theorem foldl_setAdd_id (ips l : List String)
    (hfresh : ∀ ip ∈ ips, ip ∉ l) (hnd : ips.Nodup) :
    ips.foldl setAdd l = l ++ ips := by
  have h := foldl_setAdd_append (fun s : String => s) ips l hfresh (by simpa using hnd)
  simpa using h

/-- Deleting the same fresh addresses that were put on the dummy device
restores the device's address list. -/
theorem exposed_add_del {ips l : List String}
    (hfresh : ∀ ip ∈ ips, ip ∉ l) (hnd : ips.Nodup) :
    (ips.foldl setAdd l).filter (fun x => x ∉ ips) = l := by
  rw [foldl_setAdd_id ips l hfresh hnd, List.filter_append]
  have h2 : l.filter (fun x => decide (x ∉ ips)) = l := by
    apply List.filter_eq_self.mpr
    intro x hx
    simp only [decide_eq_true_eq]
    exact fun hmem => hfresh x hmem hx
  have h3 : ips.filter (fun x => decide (x ∉ ips)) = [] := by
    apply List.filter_eq_nil.mpr
    intro x hx
    simp [hx]
  rw [h2, h3, List.append_nil]

/-- A conditional fold is the unconditional fold over the filtered list. -/
theorem foldl_ite_filter {α : Type} (P : String → Prop) [DecidablePred P]
    (g : α → String → α) :
    ∀ (ips : List String) (l : α),
    ips.foldl (fun acc ip => if P ip then g acc ip else acc) l =
      (ips.filter (fun ip => decide (P ip))).foldl g l := by
  intro ips
  induction ips with
  | nil => intro l; rfl
  | cons ip rest ih =>
      intro l
      by_cases h : P ip
      · rw [List.foldl_cons, if_pos h, show (ip :: rest).filter (fun ip => decide (P ip)) =
            ip :: rest.filter (fun ip => decide (P ip)) from by simp [h], List.foldl_cons]
        exact ih (g l ip)
      · rw [List.foldl_cons, if_neg h, show (ip :: rest).filter (fun ip => decide (P ip)) =
            rest.filter (fun ip => decide (P ip)) from by simp [h]]
        exact ih l

/-- Injectivity on the list members is enough for a mapped list to stay
duplicate-free. -/
theorem nodup_map_on {α β : Type} (f : α → β) :
    ∀ l : List α, (∀ x ∈ l, ∀ y ∈ l, f x = f y → x = y) → l.Nodup →
      (l.map f).Nodup := by
  intro l
  induction l with
  | nil =>
      intro _ _
      simp
  | cons x t ih =>
      intro hinj hnd
      simp only [List.nodup_cons] at hnd
      simp only [List.map_cons, List.nodup_cons]
      refine ⟨?_, ih (fun u hu v hv =>
        hinj u (List.mem_cons_of_mem _ hu) v (List.mem_cons_of_mem _ hv)) hnd.2⟩
      intro hmem
      obtain ⟨y, hy, hxy⟩ := List.mem_map.mp hmem
      have hx : x = y := hinj x (List.mem_cons_self _ _) y (List.mem_cons_of_mem _ hy) hxy.symm
      exact hnd.1 (hx ▸ hy)

/-- `normCidr` on an already mask-stripped address. -/
theorem normCidr_stripMask (env : Env) (s : String) :
    normCidr env (stripMask s) =
      ⟨stripMask s, if getIpVersion env (stripMask s) = IP_VERSION_6 then "128" else "32"⟩ :=
  normCidr_noSlash (noSlash_stripMask s)

/-! ## Claim C7: expose / withdraw as an inverse pair. -/

/-- A southbound view where the gateway port `cr-a` has the FIP
`172.24.4.1` on provider datapath `pdp1`. -/
def sbC7 : SB :=
  { sb4 with get_fip_associated := fun lp =>
      if lp = "cr-a" then some ("172.24.4.1", "pdp1") else none }

/-- An environment over `sbC7`. -/
def envC7 : Env := { env0 with sb := sbC7 }

/-- An agent with `pub` mapped to `br-ex`, table 200 assigned and no
tracked CR-LRP yet. -/
def agentC7 : Agent := ⟨[("br-ex", 200)], [("pub", "br-ex")], [], [], []⟩

/-- C7 counterexample: exposing the IPv6 CR-LRP `cr-a` from the empty
kernel and withdrawing it again from the resulting state does not
restore the kernel surface: since no second CR-LRP shares the provider
datapath, the withdraw path skips `del_ndp_proxy` and the NDP proxy
entry added by the expose path is left behind. -/
theorem cr_inverse_ndp_leak :
    ∃ a1 k1 a2 k2,
      expose_ip envC7 agentC7 kernel0 ["2001:db8::1/64"] row4 none = .ok (a1, k1) ∧
      withdraw_ip envC7 a1 k1 ["2001:db8::1/64"] row4 none = .ok (a2, k2) ∧
      k2 ≠ kernel0 ∧ k2.ndp = [⟨"2001:db8::1", "br-ex", none⟩] := by
  refine ⟨_, _, _, _, rfl, rfl, by decide, by decide⟩

/-- The kernel state after the expose side of the provider-VM (and
patch / FIP) branch: addresses on the dummy device, one policy rule and
one host route per IP. -/
def providerAddKernel (env : Env) (k : Kernel) (ips : List String)
    (table : Nat) (b : String) (vl : Option Nat) : Kernel :=
  Kernel.mk (addIpsToDev k ips).exposed
    (ips.foldl (fun rs ip => setAdd rs ⟨normCidr env ip, table, b, none⟩)
      (addIpsToDev k ips).rules)
    (ips.foldl (fun rs ip => setAdd rs (mkRoute env ip table b vl none none))
      (addIpsToDev k ips).routes)
    (addIpsToDev k ips).ndp

/-- The kernel state after the expose side of the CR-LRP branch:
mask-stripped addresses on the dummy device, lladdr rules, host routes,
and NDP proxy entries for the IPv6 addresses. -/
def crAddKernel (env : Env) (k : Kernel) (ips : List String)
    (table : Nat) (b : String) (vl : Option Nat) (lladdr : String) : Kernel :=
  Kernel.mk (addIpsToDev k (ips.map stripMask)).exposed
    (ips.foldl (fun rs ip => setAdd rs ⟨normCidr env (stripMask ip), table, b, some lladdr⟩)
      (addIpsToDev k (ips.map stripMask)).rules)
    (ips.foldl (fun rs ip => setAdd rs (mkRoute env (stripMask ip) table b vl none none))
      (addIpsToDev k (ips.map stripMask)).routes)
    (ips.foldl (fun nd ip =>
      if getIpVersion env (stripMask ip) = IP_VERSION_6 then
        setAdd nd ⟨stripMask ip, b, vl⟩
      else nd) (addIpsToDev k (ips.map stripMask)).ndp)

/-- The side conditions under which an `expose_ip` / `withdraw_ip`
round trip is inverse on the kernel surface, one constructor per
classification branch of `_expose_ip`: the branch guard, a resolvable
bridge with an assigned routing table, valid addresses, and freshness
of every kernel object the expose side adds.  The CR-LRP constructor
additionally requires that the router has no distributed LRP ports and
that either no IPv6 address is involved or a second tracked CR-LRP
shares the provider datapath (otherwise the NDP proxy entry leaks, see
the counterexample). -/
inductive InverseCase (env : Env) (a : Agent) (k : Kernel)
    (ips : List String) (row : PortRow) (ap : Option String) : Prop
  | provider
      (b : String) (vl : Option Nat) (table : Nat)
      (htype : row.type = OVN_VM_VIF_PORT_TYPE ∨ row.type = OVN_VIRTUAL_VIF_PORT_TYPE)
      (hprov : env.sb.is_provider_network row.datapath = true)
      (hb : get_bridge_for_datapath env a row.datapath = .ok (some b, vl))
      (htab : dget a.ovn_routing_tables b = some table)
      (hval : ∀ ip ∈ ips, env.valid_ip ip = true)
      (hnd : ips.Nodup)
      (hfe : ∀ ip ∈ ips, ip ∉ k.exposed)
      (hfr : ∀ ip ∈ ips, (⟨normCidr env ip, table, b, none⟩ : IpRule) ∉ k.rules)
      (hndr : (ips.map (fun ip => (⟨normCidr env ip, table, b, none⟩ : IpRule))).Nodup)
      (hfo : ∀ ip ∈ ips, mkRoute env ip table b vl none none ∉ k.routes) :
      InverseCase env a k ips row ap
  | fip
      (b : String) (vl : Option Nat) (table : Nat) (fip_ip fip_dp : String)
      (htype : row.type = OVN_VM_VIF_PORT_TYPE ∨ row.type = OVN_VIRTUAL_VIF_PORT_TYPE)
      (hprov : env.sb.is_provider_network row.datapath = false)
      (hfip : env.sb.get_fip_associated row.logical_port = some (fip_ip, fip_dp))
      (hb : get_bridge_for_datapath env a fip_dp = .ok (some b, vl))
      (htab : dget a.ovn_routing_tables b = some table)
      (hval : env.valid_ip fip_ip = true)
      (hfe : fip_ip ∉ k.exposed)
      (hfr : (⟨normCidr env fip_ip, table, b, none⟩ : IpRule) ∉ k.rules)
      (hfo : mkRoute env fip_ip table b vl none none ∉ k.routes) :
      InverseCase env a k ips row ap
  | patch
      (b : String) (vl : Option Nat) (table : Nat) (apv : String)
      (htype : row.type = OVN_PATCH_VIF_PORT_TYPE)
      (hap : ap = some apv)
      (hch : env.sb.is_port_on_chassis apv env.chassis = true)
      (hb : get_bridge_for_datapath env a row.datapath = .ok (some b, vl))
      (htab : dget a.ovn_routing_tables b = some table)
      (hval : ∀ ip ∈ ips, env.valid_ip ip = true)
      (hnd : ips.Nodup)
      (hfe : ∀ ip ∈ ips, ip ∉ k.exposed)
      (hfr : ∀ ip ∈ ips, (⟨normCidr env ip, table, b, none⟩ : IpRule) ∉ k.rules)
      (hndr : (ips.map (fun ip => (⟨normCidr env ip, table, b, none⟩ : IpRule))).Nodup)
      (hfo : ∀ ip ∈ ips, mkRoute env ip table b vl none none ∉ k.routes) :
      InverseCase env a k ips row ap
  | crlrp
      (b : String) (vl : Option Nat) (table : Nat) (fip_ip fip_dp lladdr : String)
      (htype : row.type = OVN_CHASSISREDIRECT_VIF_PORT_TYPE)
      (hcr : pyStartsWith row.logical_port "cr-" = true)
      (hfip : env.sb.get_fip_associated row.logical_port = some (fip_ip, fip_dp))
      (hlladdr : (pySplit ' ' row.mac0).getD 0 "" = lladdr)
      (hb : get_bridge_for_datapath env a fip_dp = .ok (some b, vl))
      (htab : dget a.ovn_routing_tables b = some table)
      (hlrps : env.sb.get_lrp_ports_for_router row.datapath = [])
      (hval : ∀ ip ∈ ips, env.valid_ip (stripMask ip) = true)
      (hnde : (ips.map stripMask).Nodup)
      (hfe : ∀ ip ∈ ips, stripMask ip ∉ k.exposed)
      (hfr : ∀ ip ∈ ips, (⟨⟨stripMask ip,
          if getIpVersion env (stripMask ip) = IP_VERSION_6 then "128" else "32"⟩,
        table, b, some lladdr⟩ : IpRule) ∉ k.rules)
      (hfo : ∀ ip ∈ ips, mkRoute env (stripMask ip) table b vl none none ∉ k.routes)
      (hfn : ∀ ip ∈ ips, (⟨stripMask ip, b, vl⟩ : NdpEntry) ∉ k.ndp)
      (hsib : (∀ ip ∈ ips, getIpVersion env (stripMask ip) ≠ IP_VERSION_6) ∨
        1 < ((dvals (crSet a row.logical_port
            ⟨row.datapath, fip_dp, ips⟩).ovn_local_cr_lrps).filter
          (fun p => p.provider_datapath = fip_dp)).length) :
      InverseCase env a k ips row ap

/-- C7: in each classification branch of `expose_ip` /`withdraw_ip`,
under resolvable bridge and routing table, valid fresh addresses — and,
for the CR-LRP gateway, no distributed LRPs and either no IPv6 address
or a sibling CR-LRP on the provider datapath — a withdraw right after
an expose of the same row restores the kernel surface exactly (the
routing-table allocation lives in the agent and persists). -/
theorem expose_withdraw_inverse (env : Env) (a : Agent) (k : Kernel)
    (ips : List String) (row : PortRow) (ap : Option String)
    (h : InverseCase env a k ips row ap) :
    ∃ a1 k1 a2, expose_ip env a k ips row ap = .ok (a1, k1) ∧
      withdraw_ip env a1 k1 ips row ap = .ok (a2, k) := by
  cases h with
  | provider b vl table htype hprov hb htab hval hnd hfe hfr hndr hfo =>
      obtain ⟨st1, h1⟩ := exposeIpRulesLoop_allvalid env b vl table ips a
        (addIpsToDev k ips) htab hval
      have hexp : expose_ip env a k ips row ap =
          .ok (stSet a st1, providerAddKernel env k ips table b vl) := by
        simp only [expose_ip, expose_ip_inner]
        rw [if_pos (And.intro htype hprov), hb, ok_bind]
        try dsimp only
        rw [h1, ok_bind]
        rfl
      obtain ⟨st2, h2⟩ := withdrawIpRulesLoop_spec env b vl table ips (stSet a st1)
        (delIpsFromDev (providerAddKernel env k ips table b vl) ips) htab
      have hw : withdraw_ip env (stSet a st1) (providerAddKernel env k ips table b vl)
          ips row ap = .ok (stSet (stSet a st1) st2, k) := by
        simp only [withdraw_ip]
        rw [if_pos (And.intro htype hprov),
          show get_bridge_for_datapath env (stSet a st1) row.datapath =
            .ok (some b, vl) from hb, ok_bind]
        try dsimp only
        rw [h2]
        refine congrArg Except.ok ?_
        refine congrArg (Prod.mk _) ?_
        show Kernel.mk
            ((ips.foldl setAdd k.exposed).filter (fun x => x ∉ ips))
            (ips.foldl (fun rs ip => rs.filter (fun x => x ≠ ⟨normCidr env ip, table, b, none⟩))
              (ips.foldl (fun rs ip => setAdd rs ⟨normCidr env ip, table, b, none⟩) k.rules))
            (ips.foldl (fun rs ip => rs.filter (fun x => x ≠ mkRoute env ip table b vl none none))
              (ips.foldl (fun rs ip => setAdd rs (mkRoute env ip table b vl none none)) k.routes))
            k.ndp = k
        rw [exposed_add_del hfe hnd,
          add_del_cancel (fun ip => (⟨normCidr env ip, table, b, none⟩ : IpRule))
            ips k.rules hfr hndr,
          add_del_cancel (fun ip => mkRoute env ip table b vl none none) ips k.routes hfo
            (nodup_map_on (fun ip => mkRoute env ip table b vl none none) ips
              (fun x hx y hy hxy => congrArg Route.addr hxy) hnd)]
      exact ⟨stSet a st1, providerAddKernel env k ips table b vl,
        stSet (stSet a st1) st2, hexp, hw⟩
  | fip b vl table fip_ip fip_dp htype hprov hfip hb htab hval hfe hfr hfo =>
      have hnotprov : ¬((row.type = OVN_VM_VIF_PORT_TYPE ∨
          row.type = OVN_VIRTUAL_VIF_PORT_TYPE) ∧
          env.sb.is_provider_network row.datapath) := fun hcond => by
        rw [hcond.2] at hprov
        exact absurd hprov (by decide)
      have hbt : bridgeTable a (some b) = .ok (table, b) := by
        simp [bridgeTable, dsub, htab, Except.map]
      have haddr : addIpRule env (addIpsToDev k [fip_ip]) fip_ip table b none =
          .ok (Kernel.mk (addIpsToDev k [fip_ip]).exposed
            (setAdd (addIpsToDev k [fip_ip]).rules ⟨normCidr env fip_ip, table, b, none⟩)
            (addIpsToDev k [fip_ip]).routes (addIpsToDev k [fip_ip]).ndp) := by
        simp [addIpRule, hval]
      have hexp : expose_ip env a k ips row ap =
          .ok (stSet a (storeAddRoute a.ovn_routing_tables_routes b
              (mkRoute env fip_ip table b vl none none)),
            providerAddKernel env k [fip_ip] table b vl) := by
        simp only [expose_ip, expose_ip_inner]
        rw [if_neg hnotprov, if_pos htype, hfip]
        try dsimp only
        rw [hb, ok_bind]
        try dsimp only
        rw [hbt, ok_bind]
        try dsimp only
        rw [haddr]
        rfl
      obtain ⟨st2, h2⟩ := withdrawIpRulesLoop_spec env b vl table [fip_ip]
        (stSet a (storeAddRoute a.ovn_routing_tables_routes b
          (mkRoute env fip_ip table b vl none none)))
        (delIpsFromDev (providerAddKernel env k [fip_ip] table b vl) [fip_ip]) htab
      have hw : withdraw_ip env
          (stSet a (storeAddRoute a.ovn_routing_tables_routes b
            (mkRoute env fip_ip table b vl none none)))
          (providerAddKernel env k [fip_ip] table b vl) ips row ap =
          .ok (stSet (stSet a (storeAddRoute a.ovn_routing_tables_routes b
            (mkRoute env fip_ip table b vl none none))) st2, k) := by
        simp only [withdraw_ip]
        rw [if_neg hnotprov, if_pos htype, hfip]
        try dsimp only
        rw [show get_bridge_for_datapath env
            (stSet a (storeAddRoute a.ovn_routing_tables_routes b
              (mkRoute env fip_ip table b vl none none))) fip_dp =
            .ok (some b, vl) from hb, ok_bind]
        try dsimp only
        rw [h2]
        refine congrArg Except.ok ?_
        refine congrArg (Prod.mk _) ?_
        show Kernel.mk
            (([fip_ip].foldl setAdd k.exposed).filter (fun x => x ∉ [fip_ip]))
            ([fip_ip].foldl (fun rs ip => rs.filter (fun x => x ≠ ⟨normCidr env ip, table, b, none⟩))
              ([fip_ip].foldl (fun rs ip => setAdd rs ⟨normCidr env ip, table, b, none⟩) k.rules))
            ([fip_ip].foldl (fun rs ip => rs.filter (fun x => x ≠ mkRoute env ip table b vl none none))
              ([fip_ip].foldl (fun rs ip => setAdd rs (mkRoute env ip table b vl none none)) k.routes))
            k.ndp = k
        rw [exposed_add_del (fun x hx => by
            rw [List.mem_singleton] at hx
            exact hx ▸ hfe) (List.nodup_singleton _),
          add_del_cancel (fun ip => (⟨normCidr env ip, table, b, none⟩ : IpRule))
            [fip_ip] k.rules (fun x hx => by
              rw [List.mem_singleton] at hx
              exact hx ▸ hfr) (by simp),
          add_del_cancel (fun ip => mkRoute env ip table b vl none none) [fip_ip] k.routes
            (fun x hx => by
              rw [List.mem_singleton] at hx
              exact hx ▸ hfo) (by simp)]
      exact ⟨_, _, _, hexp, hw⟩
  | patch b vl table apv htype hap hch hb htab hval hnd hfe hfr hndr hfo =>
      have hnotvm : ¬(row.type = OVN_VM_VIF_PORT_TYPE ∨
          row.type = OVN_VIRTUAL_VIF_PORT_TYPE) := by
        rw [htype]
        decide
      have hnotprov : ¬((row.type = OVN_VM_VIF_PORT_TYPE ∨
          row.type = OVN_VIRTUAL_VIF_PORT_TYPE) ∧
          env.sb.is_provider_network row.datapath) := fun hcond => hnotvm hcond.1
      obtain ⟨st1, h1⟩ := exposeIpRulesLoop_allvalid env b vl table ips a
        (addIpsToDev k ips) htab hval
      have hexp : expose_ip env a k ips row ap =
          .ok (stSet a st1, providerAddKernel env k ips table b vl) := by
        simp only [expose_ip, expose_ip_inner]
        rw [if_neg hnotprov, if_neg hnotvm, if_pos htype, hap]
        try dsimp only
        rw [if_pos hch, hb, ok_bind]
        try dsimp only
        rw [h1, ok_bind]
        rfl
      obtain ⟨st2, h2⟩ := withdrawIpRulesLoop_spec env b vl table ips (stSet a st1)
        (delIpsFromDev (providerAddKernel env k ips table b vl) ips) htab
      have hw : withdraw_ip env (stSet a st1) (providerAddKernel env k ips table b vl)
          ips row ap = .ok (stSet (stSet a st1) st2, k) := by
        simp only [withdraw_ip]
        rw [if_neg hnotprov, if_neg hnotvm, if_pos htype, hap]
        try dsimp only
        rw [if_pos (Or.inl hch),
          show get_bridge_for_datapath env (stSet a st1) row.datapath =
            .ok (some b, vl) from hb, ok_bind]
        try dsimp only
        rw [h2]
        refine congrArg Except.ok ?_
        refine congrArg (Prod.mk _) ?_
        show Kernel.mk
            ((ips.foldl setAdd k.exposed).filter (fun x => x ∉ ips))
            (ips.foldl (fun rs ip => rs.filter (fun x => x ≠ ⟨normCidr env ip, table, b, none⟩))
              (ips.foldl (fun rs ip => setAdd rs ⟨normCidr env ip, table, b, none⟩) k.rules))
            (ips.foldl (fun rs ip => rs.filter (fun x => x ≠ mkRoute env ip table b vl none none))
              (ips.foldl (fun rs ip => setAdd rs (mkRoute env ip table b vl none none)) k.routes))
            k.ndp = k
        rw [exposed_add_del hfe hnd,
          add_del_cancel (fun ip => (⟨normCidr env ip, table, b, none⟩ : IpRule))
            ips k.rules hfr hndr,
          add_del_cancel (fun ip => mkRoute env ip table b vl none none) ips k.routes hfo
            (nodup_map_on (fun ip => mkRoute env ip table b vl none none) ips
              (fun x hx y hy hxy => congrArg Route.addr hxy) hnd)]
      exact ⟨stSet a st1, providerAddKernel env k ips table b vl,
        stSet (stSet a st1) st2, hexp, hw⟩
  | crlrp b vl table fip_ip fip_dp lladdr htype hcr hfip hlladdr hb htab hlrps hval
      hnde hfe hfr hfo hfn hsib =>
      have hnotvm : ¬(row.type = OVN_VM_VIF_PORT_TYPE ∨
          row.type = OVN_VIRTUAL_VIF_PORT_TYPE) := by
        rw [htype]
        decide
      have hnotprov : ¬((row.type = OVN_VM_VIF_PORT_TYPE ∨
          row.type = OVN_VIRTUAL_VIF_PORT_TYPE) ∧
          env.sb.is_provider_network row.datapath) := fun hcond => hnotvm hcond.1
      have hnotpatch : ¬(row.type = OVN_PATCH_VIF_PORT_TYPE) := by
        rw [htype]
        decide
      obtain ⟨st1, h1⟩ := exposeIpCrLoop_allvalid env b vl lladdr table ips
        (crSet a row.logical_port ⟨row.datapath, fip_dp, ips⟩)
        (addIpsToDev k (ips.map stripMask)) htab hval
      have hexp : expose_ip env a k ips row ap =
          .ok (stSet (crSet a row.logical_port ⟨row.datapath, fip_dp, ips⟩) st1,
            crAddKernel env k ips table b vl lladdr) := by
        simp only [expose_ip, expose_ip_inner]
        rw [if_neg hnotprov, if_neg hnotvm, if_neg hnotpatch,
          if_pos (And.intro htype hcr), hfip]
        try dsimp only
        rw [show get_bridge_for_datapath env
            (crSet a row.logical_port ⟨row.datapath, fip_dp, ips⟩) fip_dp =
            .ok (some b, vl) from hb, ok_bind]
        try dsimp only
        rw [hlladdr, h1, ok_bind]
        try dsimp only
        rw [if_neg (show ¬((true : Bool) = false) from by decide)]
        rw [hlrps]
        by_cases hten : env.expose_tenant_networks = true
        · rw [if_pos hten]
          rfl
        · rw [if_neg hten]
          rfl
      obtain ⟨st2, h2⟩ := withdrawIpCrLoop_full env b vl lladdr fip_dp table
        (ips.map stripMask)
        (stSet (crSet a row.logical_port ⟨row.datapath, fip_dp, ips⟩) st1)
        (delIpsFromDev (crAddKernel env k ips table b vl lladdr) (ips.map stripMask))
        htab
        (fun x hx => by
          obtain ⟨ip, hip, hrfl⟩ := List.mem_map.mp hx
          exact hrfl ▸ noSlash_stripMask ip)
      have hlook : (dget (stSet (crSet a row.logical_port
            ⟨row.datapath, fip_dp, ips⟩) st1).ovn_local_cr_lrps
          row.logical_port).map CrLrpInfo.provider_datapath = some fip_dp := by
        show (dget (dset a.ovn_local_cr_lrps row.logical_port
            ⟨row.datapath, fip_dp, ips⟩) row.logical_port).map
          CrLrpInfo.provider_datapath = some fip_dp
        rw [dget_dset_self]
        rfl
      have hwct : ∀ (A : Agent) (K : Kernel),
          withdrawCrTenantLoop env row.logical_port A K [] = .ok (A, K) :=
        fun A K => rfl
      have hw : withdraw_ip env
          (stSet (crSet a row.logical_port ⟨row.datapath, fip_dp, ips⟩) st1)
          (crAddKernel env k ips table b vl lladdr) ips row ap =
          .ok (crDel (stSet (stSet (crSet a row.logical_port
              ⟨row.datapath, fip_dp, ips⟩) st1) st2) row.logical_port, k) := by
        simp only [withdraw_ip]
        rw [if_neg hnotprov, if_neg hnotvm, if_neg hnotpatch,
          if_pos (And.intro htype hcr), hlook]
        try dsimp only
        rw [show get_bridge_for_datapath env
            (stSet (crSet a row.logical_port ⟨row.datapath, fip_dp, ips⟩) st1) fip_dp =
            .ok (some b, vl) from hb, ok_bind]
        try dsimp only
        rw [hlladdr, h2, ok_bind]
        try dsimp only
        rw [hlrps, hwct, ok_bind]
        try dsimp only
        refine congrArg Except.ok ?_
        refine congrArg (Prod.mk _) ?_
        show Kernel.mk
            (((ips.map stripMask).foldl setAdd k.exposed).filter
              (fun x => x ∉ ips.map stripMask))
            ((ips.map stripMask).foldl (fun rs ip => rs.filter (fun x => x ≠
                ⟨⟨ip, if getIpVersion env ip = IP_VERSION_6 then "128" else "32"⟩,
                  table, b, some lladdr⟩))
              (ips.foldl (fun rs ip =>
                setAdd rs ⟨normCidr env (stripMask ip), table, b, some lladdr⟩) k.rules))
            ((ips.map stripMask).foldl (fun rs ip =>
                rs.filter (fun x => x ≠ mkRoute env ip table b vl none none))
              (ips.foldl (fun rs ip =>
                setAdd rs (mkRoute env (stripMask ip) table b vl none none)) k.routes))
            (if 1 < ((dvals (crSet a row.logical_port
                  ⟨row.datapath, fip_dp, ips⟩).ovn_local_cr_lrps).filter
                (fun p => p.provider_datapath = fip_dp)).length then
              (ips.map stripMask).foldl (fun nd ip =>
                if getIpVersion env ip = IP_VERSION_6 then
                  nd.filter (fun e => e ≠ ⟨stripMask ip, b, vl⟩)
                else nd)
                (ips.foldl (fun nd ip =>
                  if getIpVersion env (stripMask ip) = IP_VERSION_6 then
                    setAdd nd ⟨stripMask ip, b, vl⟩
                  else nd) k.ndp)
            else (ips.foldl (fun nd ip =>
              if getIpVersion env (stripMask ip) = IP_VERSION_6 then
                setAdd nd ⟨stripMask ip, b, vl⟩
              else nd) k.ndp)) = k
        rw [exposed_add_del (fun x hx => by
            obtain ⟨ip, hip, hrfl⟩ := List.mem_map.mp hx
            exact hrfl ▸ hfe ip hip) hnde]
        simp only [List.foldl_map, stripMask_idem, normCidr_stripMask]
        have hndrules : (ips.map (fun ip => (⟨⟨stripMask ip,
            if getIpVersion env (stripMask ip) = IP_VERSION_6 then "128" else "32"⟩,
              table, b, some lladdr⟩ : IpRule))).Nodup := by
          have hmm := nodup_map_on (fun s => (⟨⟨s,
              if getIpVersion env s = IP_VERSION_6 then "128" else "32"⟩,
            table, b, some lladdr⟩ : IpRule)) (ips.map stripMask)
            (fun x hx y hy hxy => congrArg (fun r => r.dest.addr) hxy) hnde
          rw [List.map_map] at hmm
          exact hmm
        have hndroutes : (ips.map
            (fun ip => mkRoute env (stripMask ip) table b vl none none)).Nodup := by
          have hmm := nodup_map_on (fun s => mkRoute env s table b vl none none)
            (ips.map stripMask)
            (fun x hx y hy hxy => congrArg Route.addr hxy) hnde
          rw [List.map_map] at hmm
          exact hmm
        rcases hsib with hno6 | hsib2
        · have hfilt : ips.filter
              (fun ip => decide (getIpVersion env (stripMask ip) = IP_VERSION_6)) = [] :=
            List.filter_eq_nil.mpr (fun ip hip => by simpa using hno6 ip hip)
          rw [foldl_ite_filter (fun ip => getIpVersion env (stripMask ip) = IP_VERSION_6)
              (fun nd ip => setAdd nd (⟨stripMask ip, b, vl⟩ : NdpEntry)), hfilt,
            List.foldl_nil]
          rw [foldl_ite_filter (fun ip => getIpVersion env (stripMask ip) = IP_VERSION_6)
              (fun (nd : List NdpEntry) ip => nd.filter (fun e => e ≠ (⟨stripMask ip, b, vl⟩ : NdpEntry))),
            hfilt, List.foldl_nil, ite_self]
          rw [add_del_cancel (fun ip => (⟨⟨stripMask ip,
                if getIpVersion env (stripMask ip) = IP_VERSION_6 then "128" else "32"⟩,
              table, b, some lladdr⟩ : IpRule)) ips k.rules hfr hndrules,
            add_del_cancel (fun ip => mkRoute env (stripMask ip) table b vl none none)
              ips k.routes hfo hndroutes]
        · rw [if_pos hsib2]
          rw [foldl_ite_filter (fun ip => getIpVersion env (stripMask ip) = IP_VERSION_6)
              (fun nd ip => setAdd nd (⟨stripMask ip, b, vl⟩ : NdpEntry))]
          rw [foldl_ite_filter (fun ip => getIpVersion env (stripMask ip) = IP_VERSION_6)
              (fun (nd : List NdpEntry) ip => nd.filter (fun e => e ≠ (⟨stripMask ip, b, vl⟩ : NdpEntry)))]
          rw [add_del_cancel (fun ip => (⟨stripMask ip, b, vl⟩ : NdpEntry))
              (ips.filter (fun ip =>
                decide (getIpVersion env (stripMask ip) = IP_VERSION_6)))
              k.ndp
              (fun ip hip => hfn ip (List.mem_of_mem_filter hip))
              (by
                have hsubnd : ((ips.filter (fun ip =>
                    decide (getIpVersion env (stripMask ip) = IP_VERSION_6))).map
                      stripMask).Nodup :=
                  List.Nodup.sublist
                    (List.Sublist.map stripMask (List.filter_sublist ips)) hnde
                have hmm := nodup_map_on (fun s => (⟨s, b, vl⟩ : NdpEntry))
                  ((ips.filter (fun ip =>
                    decide (getIpVersion env (stripMask ip) = IP_VERSION_6))).map
                      stripMask)
                  (fun x hx y hy hxy => congrArg NdpEntry.ip hxy) hsubnd
                rw [List.map_map] at hmm
                exact hmm)]
          rw [add_del_cancel (fun ip => (⟨⟨stripMask ip,
                if getIpVersion env (stripMask ip) = IP_VERSION_6 then "128" else "32"⟩,
              table, b, some lladdr⟩ : IpRule)) ips k.rules hfr hndrules,
            add_del_cancel (fun ip => mkRoute env (stripMask ip) table b vl none none)
              ips k.routes hfo hndroutes]
      exact ⟨stSet (crSet a row.logical_port ⟨row.datapath, fip_dp, ips⟩) st1,
        crAddKernel env k ips table b vl lladdr,
        crDel (stSet (stSet (crSet a row.logical_port
          ⟨row.datapath, fip_dp, ips⟩) st1) st2) row.logical_port, hexp, hw⟩

/-- A southbound view with `dp1` a provider network named `pub`. -/
def sbC7p : SB :=
  { sb0 with
    is_provider_network := fun d => d == "dp1"
    get_network_name_and_tag := fun d keys =>
      if d = "dp1" ∧ "pub" ∈ keys then (some "pub", []) else (none, []) }

/-- An environment over `sbC7p`. -/
def envC7p : Env := { env0 with sb := sbC7p }

/-- A VM port row on the provider datapath `dp1`. -/
def rowC7p : PortRow := ⟨"vm", "dp1", "p1", "aa 10.0.0.5", [], []⟩

/-- C7 witness: a concrete provider-network VM exposure and withdrawal
that restores the empty kernel. -/
theorem expose_withdraw_inverse_witness :
    ∃ a1 k1 a2,
      expose_ip envC7p agentC7 kernel0 ["10.0.0.5"] rowC7p none = .ok (a1, k1) ∧
      withdraw_ip envC7p a1 k1 ["10.0.0.5"] rowC7p none = .ok (a2, kernel0) :=
  expose_withdraw_inverse envC7p agentC7 kernel0 ["10.0.0.5"] rowC7p none
    (InverseCase.provider "br-ex" none 200 (by decide) (by decide) (by decide)
      (by decide) (by decide) (by decide) (by decide) (by decide) (by decide)
      (by decide))

/-! ## Claim C1: convergence of `sync` with the spec's classification. -/

/-- Following the spec's words (section 4.3, port-classification table):
the addresses a single chassis port contributes to the exposed set — a
provider-attached VM or virtual port exposes its IPs directly (without
mask), a VM off the provider networks exposes its FIP when one is
associated, a gateway port (`chassisredirect` named `cr-…`) exposes its
gateway IPs; a patch port outside a FIP operation and any other type
exposes nothing. -/
def specPortClassIps (env : Env) (row : PortRow) : List String :=
  match portRowIps row.mac0 with
  | none => []
  | some ips =>
      if row.type = OVN_VM_VIF_PORT_TYPE ∨ row.type = OVN_VIRTUAL_VIF_PORT_TYPE then
        if env.sb.is_provider_network row.datapath then ips.map stripMask
        else match env.sb.get_fip_associated row.logical_port with
          | some fip => [fip.1]
          | none => []
      else if row.type = OVN_CHASSISREDIRECT_VIF_PORT_TYPE ∧
          pyStartsWith row.logical_port "cr-" then
        ips.map stripMask
      else []

/-- Following the spec's words (section 4.3, tenant-network exposure):
a distributed LRP contributes the same-family addresses of the bound VM
and virtual ports on its peer datapath. -/
def specTenantLrpIps (env : Env) (lrp : PortRow) : List String :=
  match (pySplit ' ' lrp.mac0).get? 1 with
  | none => []
  | some addr =>
      let rpv := getIpVersion env addr
      match dget lrp.options "peer" with
      | none => []
      | some peer =>
        match env.sb.get_port_datapath peer with
        | none => []
        | some dp =>
            ((env.sb.get_ports_on_datapath dp).map (fun p =>
              if (p.type = OVN_VM_VIF_PORT_TYPE ∧ p.chassis ≠ []) ∨
                  p.type = OVN_VIRTUAL_VIF_PORT_TYPE then
                match tenantPortIps p.mac0 with
                | some ips => ips.filter (fun ip => getIpVersion env ip = rpv)
                | none => []
              else [])).join

/-- Following the spec's words (section 4.3, P1 and the sync steps):
the exposed-address set computed from the southbound view — the
classified addresses of every port on the chassis, the NAT addresses
behind every CR-LRP on the chassis, and, with tenant exposure on, the
tenant addresses of every distributed LRP of a locally hosted router. -/
def specSyncExposedIps (env : Env) : List String :=
  ((env.sb.get_ports_on_chassis env.chassis).map (specPortClassIps env)).join
  ++ ((env.sb.get_cr_lrp_ports_on_chassis env.chassis).map
      (fun cr => (env.sb.get_cr_lrp_nat_addresses_info cr).1)).join
  ++ (if env.expose_tenant_networks then
      ((env.sb.get_cr_lrp_ports_on_chassis env.chassis).map (fun cr =>
        match env.sb.get_port_datapath cr with
        | none => []
        | some rdp => ((env.sb.get_lrp_ports_for_router rdp).map (fun lrp =>
            if lrp.chassis = [] then specTenantLrpIps env lrp else [])).join)).join
    else [])

/-- A bound VM port on the tenant datapath `tdp1` with the address
`10.1.0.7` and no FIP. -/
def rowC1 : PortRow := ⟨"vm", "tdp1", "p1", "aa 10.1.0.7", ["hv1"], []⟩

/-- A southbound view whose only chassis port is `rowC1`. -/
def sbC1 : SB :=
  { sb0 with get_ports_on_chassis := fun c => if c = "hv1" then [rowC1] else [] }

/-- An environment over `sbC1` (tenant exposure off, nothing provider). -/
def envC1 : Env := { env0 with sb := sbC1 }

/-- A kernel still exposing the stale address `10.1.0.7`. -/
def kernelC1 : Kernel := ⟨["10.1.0.7"], [], [], []⟩

/-- C1 counterexample: `sync` completes on a view whose classification
exposes nothing, yet the stale dummy-device address of the no-FIP
tenant VM survives: `_ensure_port_exposed` strikes the port's addresses
from the snapshot although `_expose_ip` added nothing for them, so the
final cleanup never deletes the address. -/
theorem sync_exposed_mismatch :
    ∃ a' k', sync envC1 agent0 kernelC1 = .ok (a', k') ∧
      specSyncExposedIps envC1 = [] ∧ k'.exposed = ["10.1.0.7"] := by
  refine ⟨_, _, rfl, by decide, by decide⟩

/-- C1: what the reconciliation actually guarantees.  First, the
deviation point: a VM or virtual port off the provider networks without
an associated FIP is struck from both live-state snapshots while agent
and kernel are left untouched, so its stale address counts as kept.
Second, the deletion clause of the claim on a view that re-asserts
nothing: `sync` removes every previously exposed address. -/
theorem sync_pops_without_exposing :
    (∀ (env : Env) (a : Agent) (k : Kernel) (port : PortRow)
      (snapE : List String) (snapR : List (Cidr × IpRule)) (port_ips : List String),
      (port.type = OVN_VM_VIF_PORT_TYPE ∨ port.type = OVN_VIRTUAL_VIF_PORT_TYPE) →
      env.sb.is_provider_network port.datapath = false →
      env.sb.get_fip_associated port.logical_port = none →
      portRowIps port.mac0 = some port_ips →
      ensure_port_exposed env a k port snapE snapR =
        .ok (a, k, portIpsPops env (snapE, snapR) port_ips)) ∧
    (∀ (env : Env) (a : Agent) (k : Kernel),
      env.ovs_bridge_mappings = [] →
      env.sb.get_ports_on_chassis env.chassis = [] →
      env.sb.get_cr_lrp_ports_on_chassis env.chassis = [] →
      env.expose_tenant_networks = false →
      ∃ a' k', sync env a k = .ok (a', k') ∧ k'.exposed = []) := by
  constructor
  · intro env a k port snapE snapR port_ips htype hprov hfip hips
    have hmem : port.type ∈ OVN_VIF_PORT_TYPES := by
      rcases htype with h | h <;> rw [h] <;> decide
    have hnotprov : ¬((port.type = OVN_VM_VIF_PORT_TYPE ∨
        port.type = OVN_VIRTUAL_VIF_PORT_TYPE) ∧
        env.sb.is_provider_network port.datapath) := fun hcond => by
      rw [hcond.2] at hprov
      exact absurd hprov (by decide)
    simp only [ensure_port_exposed]
    rw [if_neg (show ¬(port.type ∉ OVN_VIF_PORT_TYPES) from fun hc => hc hmem), hips]
    try dsimp only
    simp only [expose_ip_inner]
    rw [if_neg hnotprov, if_pos htype, hfip]
    rfl
  · intro env a k hbm hports hcr hten
    have hbl : ∀ x : Agent, syncBridgeLoop env (x, []) [] = .ok (x, []) := fun x => rfl
    have hpl : ∀ acc, syncPortsLoop env acc [] = .ok acc := fun _ => rfl
    have hcl : ∀ acc, syncCrLoop env acc [] = .ok acc := fun _ => rfl
    have hmain : sync env a k =
        .ok (Agent.mk a.ovn_routing_tables a.ovn_bridge_mappings [] [] [],
          deleteBridgeIpRoutes a.ovn_routing_tables [] []
            (deleteIpRules (delIpsFromDev k (getExposedIps k))
              (getOvnIpRules k (dvals a.ovn_routing_tables)))) := by
      simp only [sync]
      rw [hbm, hbl, ok_bind]
      try dsimp only
      rw [hports, hpl, ok_bind]
      try dsimp only
      rw [hcr, hcl, ok_bind]
      try dsimp only
      rw [hten]
      rw [if_neg (show ¬((false : Bool) = true) from by decide), ok_bind]
      try dsimp only
      all_goals rfl
    refine ⟨_, _, hmain, ?_⟩
    show (k.exposed.filter (fun ip => ip ∉ k.exposed) : List String) = []
    apply List.filter_eq_nil.mpr
    intro x hx
    simp [hx]

/-- C1 witness: the deviation at the concrete no-FIP tenant VM, and the
full cleanup on the empty view. -/
theorem sync_pops_without_exposing_witness :
    ensure_port_exposed envC1 agent0 kernelC1 rowC1 ["10.1.0.7"] [] =
      .ok (agent0, kernelC1, portIpsPops envC1 (["10.1.0.7"], []) ["10.1.0.7"]) ∧
    ∃ a' k', sync env0 agent0 kernelC1 = .ok (a', k') ∧ k'.exposed = [] :=
  ⟨sync_pops_without_exposing.1 envC1 agent0 kernelC1 rowC1 ["10.1.0.7"] []
      ["10.1.0.7"] (by decide) (by decide) (by decide) (by decide),
    sync_pops_without_exposing.2 env0 agent0 kernelC1 rfl rfl rfl rfl⟩

end OvnBgp
